import Mathlib

/-!
Verification development for the Rendering library's binding-state core
(src/RenderingContext/BindingState.cpp) and the shader-object compilation
front-end (ShaderObjectInfo.cpp).

The C++ sources are shallowly embedded: unordered maps become association
lists (iteration order is the list order; the C++ maps leave it
unspecified), `std::bitset` change masks become `Nat → Bool` functions with
explicit width constants, driver calls become an explicit event list, and
`Util::Reference` handles become `Option` values over structural resource
records (distinct live driver objects carry distinct ids).
-/

namespace Rendering

/-! ## OpenGL enumerant values (from GLHeader.h) -/

def GL_ARRAY_BUFFER : Nat := 0x8892
def GL_COPY_READ_BUFFER : Nat := 0x8F36
def GL_COPY_WRITE_BUFFER : Nat := 0x8F37
def GL_DISPATCH_INDIRECT_BUFFER : Nat := 0x90EE
def GL_DRAW_INDIRECT_BUFFER : Nat := 0x8F3F
def GL_ELEMENT_ARRAY_BUFFER : Nat := 0x8893
def GL_PIXEL_PACK_BUFFER : Nat := 0x88EB
def GL_PIXEL_UNPACK_BUFFER : Nat := 0x88EC
def GL_QUERY_BUFFER : Nat := 0x9192
def GL_TEXTURE_BUFFER : Nat := 0x8C2A
def GL_SHADER_STORAGE_BUFFER : Nat := 0x90D2
def GL_UNIFORM_BUFFER : Nat := 0x8A11
def GL_ATOMIC_COUNTER_BUFFER : Nat := 0x92C0
def GL_TRANSFORM_FEEDBACK_BUFFER : Nat := 0x8C8E

def GL_BYTE : Nat := 0x1400
def GL_UNSIGNED_BYTE : Nat := 0x1401
def GL_RED : Nat := 0x1903
def GL_RG : Nat := 0x8227
def GL_RGB : Nat := 0x1907
def GL_RGBA : Nat := 0x1908
def GL_R8 : Nat := 0x8229
def GL_RG8 : Nat := 0x822B
def GL_RGB8 : Nat := 0x8051
def GL_RGBA8 : Nat := 0x8058
def GL_RGBA32F : Nat := 0x8814
def GL_READ_ONLY : Nat := 0x88B8
def GL_WRITE_ONLY : Nat := 0x88B9
def GL_READ_WRITE : Nat := 0x88BA

/-! ## Change masks

Modelled from the spec: the fixed `std::bitset` widths live in
BindingState.h, which is not among the sources; the spec fixes "one
fixed-width bitset per category" with "fixed maximum counts" and, via the
sentinel bit at position 10, an eleven-bit shared mask for the non-indexed
buffer targets. The other widths are representative constants. -/

def maxBufferBindings : Nat := 16
def otherMaskSize : Nat := 11
def maxTextureBindings : Nat := 32
def maxImageBindings : Nat := 8

def Mask : Type := Nat → Bool

def emptyMask : Mask := fun _ => false

/-- Mirrors `std::bitset::set(pos, value)`: assigns (not ors) the bit. -/
def Mask.set (m : Mask) (p : Nat) (v : Bool) : Mask :=
  fun i => if i = p then v else m i

/-- Mirrors `std::bitset::any()` over a bitset of width `w`. -/
def maskAny (m : Mask) (w : Nat) : Bool :=
  (List.range w).any m

/-! ## Resources and bindings -/

/-- A live driver-side buffer object: the `Util::Reference` target.  Two
handles compare equal in the C++ exactly when they reference the same live
object; `id` stands for that identity, and `offset`/`size` are the live
values returned by `getOffset()`/`getSize()`. -/
structure BufferObject where
  id : Nat
  offset : Nat
  size : Nat
deriving DecidableEq

/-- A buffer binding record: target, location (together the packed 64-bit
`_key`), the possibly-null buffer reference, and the cached offset/size
recorded at bind time. Modelled from the spec: the record layout and its
structural equality come from spec section 3 (BindingState.h is not among
the sources). -/
structure BufferBinding where
  target : Nat
  location : Nat
  buffer : Option BufferObject
  offset : Nat
  size : Nat
deriving DecidableEq

/-- A texture as seen by this layer: its GL id plus the pixel-format data
read by `convertImageFormat`. -/
structure Texture where
  glId : Nat
  glInternalFormat : Nat
  glLocalDataType : Nat
deriving DecidableEq

/-- ImageBindParameters: texture reference, mip level, layer, multi-layer
flag and read/write access intent; all fields participate in equality. -/
structure ImageBindParameters where
  texture : Option Texture
  level : Nat
  layer : Nat
  multiLayer : Bool
  readOperations : Bool
  writeOperations : Bool
deriving DecidableEq

/-- from BindingState.cpp `getBufferTargetBit`, instrumented with the
WARN flag: unknown targets warn and map to the sentinel bit 10. -/
def getBufferTargetBitW (target : Nat) : Nat × Bool :=
  if target = GL_ARRAY_BUFFER then (0, false)
  else if target = GL_COPY_READ_BUFFER then (1, false)
  else if target = GL_COPY_WRITE_BUFFER then (2, false)
  else if target = GL_DISPATCH_INDIRECT_BUFFER then (3, false)
  else if target = GL_DRAW_INDIRECT_BUFFER then (4, false)
  else if target = GL_ELEMENT_ARRAY_BUFFER then (5, false)
  else if target = GL_PIXEL_PACK_BUFFER then (6, false)
  else if target = GL_PIXEL_UNPACK_BUFFER then (7, false)
  else if target = GL_QUERY_BUFFER then (8, false)
  else if target = GL_TEXTURE_BUFFER then (9, false)
  else (10, true)

def getBufferTargetBit (target : Nat) : Nat :=
  (getBufferTargetBitW target).1

/-- from BindingState.cpp `getBufferTargetFromBit`; the default case
returns `GL_ARRAY_BUFFER`. -/
def getBufferTargetFromBit (bit : Nat) : Nat :=
  if bit = 0 then GL_ARRAY_BUFFER
  else if bit = 1 then GL_COPY_READ_BUFFER
  else if bit = 2 then GL_COPY_WRITE_BUFFER
  else if bit = 3 then GL_DISPATCH_INDIRECT_BUFFER
  else if bit = 4 then GL_DRAW_INDIRECT_BUFFER
  else if bit = 5 then GL_ELEMENT_ARRAY_BUFFER
  else if bit = 6 then GL_PIXEL_PACK_BUFFER
  else if bit = 7 then GL_PIXEL_UNPACK_BUFFER
  else if bit = 8 then GL_QUERY_BUFFER
  else if bit = 9 then GL_TEXTURE_BUFFER
  else GL_ARRAY_BUFFER

/-! ## Binding state snapshots -/

/-- A binding-state snapshot: the three `std::unordered_map` members of
`BindingState`, embedded as association lists (iteration order is the list
order). Buffer entries carry their key inside the record, as in the C++. -/
structure BindingState where
  buffers : List BufferBinding
  textures : List (Nat × Option Texture)
  images : List (Nat × ImageBindParameters)
deriving DecidableEq

def emptyBindingState : BindingState := ⟨[], [], []⟩

/-- Modelled from the spec: `get(key) -> Binding|absent` (section 4.2);
the accessor bodies live in BindingState.h, which is not among the
sources. Returns the first entry whose packed key matches. -/
def BindingState.getBufferBinding (st : BindingState) (target location : Nat) :
    Option BufferBinding :=
  st.buffers.find? (fun e => e.target = target ∧ e.location = location)

/-- Generic association-list lookup used for the texture and image maps. -/
def lookupKV {α : Type} (L : List (Nat × α)) (k : Nat) : Option α :=
  (L.find? (fun e => e.1 = k)).map Prod.snd

/-- Modelled from the spec: `get(key) -> Binding|absent` for texture
units. -/
def BindingState.getTexture (st : BindingState) (unit : Nat) :
    Option (Option Texture) :=
  lookupKV st.textures unit

/-- Modelled from the spec: `get(key) -> Binding|absent` for image
units. -/
def BindingState.getImage (st : BindingState) (unit : Nat) :
    Option ImageBindParameters :=
  lookupKV st.images unit

/-! ## The diff engine -/

/-- `StateDiff_t`: one change mask per category. -/
structure StateDiff_t where
  ssbos : Mask
  ubos : Mask
  acbos : Mask
  tfbos : Mask
  other : Mask
  textures : Mask
  images : Mask

def emptyDiff : StateDiff_t :=
  ⟨emptyMask, emptyMask, emptyMask, emptyMask, emptyMask, emptyMask, emptyMask⟩

/-- Category index induced by the `switch` in `makeDiff`: the four indexed
targets get their own masks (0..3), everything else goes to `other` (4). -/
def bufCat (target : Nat) : Nat :=
  if target = GL_SHADER_STORAGE_BUFFER then 0
  else if target = GL_UNIFORM_BUFFER then 1
  else if target = GL_ATOMIC_COUNTER_BUFFER then 2
  else if target = GL_TRANSFORM_FEEDBACK_BUFFER then 3
  else 4

/-- Bit position a buffer entry writes in its category mask: the location
for indexed categories, `getBufferTargetBit` for the shared mask. -/
def bufBit (e : BufferBinding) : Nat :=
  if bufCat e.target < 4 then e.location else getBufferTargetBit e.target

def getBufMask (d : StateDiff_t) (c : Nat) : Mask :=
  if c = 0 then d.ssbos
  else if c = 1 then d.ubos
  else if c = 2 then d.acbos
  else if c = 3 then d.tfbos
  else d.other

def setBufMask (d : StateDiff_t) (c b : Nat) (v : Bool) : StateDiff_t :=
  if c = 0 then { d with ssbos := d.ssbos.set b v }
  else if c = 1 then { d with ubos := d.ubos.set b v }
  else if c = 2 then { d with acbos := d.acbos.set b v }
  else if c = 3 then { d with tfbos := d.tfbos.set b v }
  else { d with other := d.other.set b v }

/-- `changed` in `makeDiff`: the binding holds a live buffer whose current
offset or size differs from the cached values. -/
def bufferChanged (e : BufferBinding) : Bool :=
  match e.buffer with
  | some b => decide (e.offset ≠ b.offset ∨ e.size ≠ b.size)
  | none => false

/-- The value written for one buffer entry during one scan direction:
`forced || changed || (otherSnapshot.getBufferBinding(key) != entry)`. -/
def scanVal (lookup : Nat → Nat → Option BufferBinding) (forced : Bool)
    (e : BufferBinding) : Bool :=
  forced || bufferChanged e || decide (lookup e.target e.location ≠ some e)

/-- One iteration of a buffer scan loop in `makeDiff`: dispatch on the
entry's target and assign the computed bit. -/
def scanBufEntry (lookup : Nat → Nat → Option BufferBinding) (forced : Bool)
    (d : StateDiff_t) (e : BufferBinding) : StateDiff_t :=
  setBufMask d (bufCat e.target) (bufBit e) (scanVal lookup forced e)

/-- One buffer scan loop of `makeDiff` over an entry list. -/
def bufScan (lookup : Nat → Nat → Option BufferBinding) (forced : Bool)
    (d : StateDiff_t) (L : List BufferBinding) : StateDiff_t :=
  L.foldl (scanBufEntry lookup forced) d

/-- The value written for one texture/image entry during one scan
direction. -/
def kvVal {α : Type} [DecidableEq α] (lookup : Nat → Option α) (forced : Bool)
    (e : Nat × α) : Bool :=
  forced || decide (lookup e.1 ≠ some e.2)

/-- One texture/image scan loop of `makeDiff` over a unit-keyed map. -/
def kvMaskScan {α : Type} [DecidableEq α] (lookup : Nat → Option α)
    (forced : Bool) (m : Mask) (L : List (Nat × α)) : Mask :=
  L.foldl (fun m e => m.set e.1 (kvVal lookup forced e)) m

/-- `BindingState::makeDiff(target, forced)` with `this` as the current
snapshot: scan current's buffers against target, then target's buffers
against current, then likewise for textures and images. -/
def BindingState.makeDiff (cur target : BindingState) (forced : Bool) :
    StateDiff_t :=
  let d1 := bufScan target.getBufferBinding forced emptyDiff cur.buffers
  let d2 := bufScan cur.getBufferBinding forced d1 target.buffers
  let d3 := { d2 with
    textures := kvMaskScan target.getTexture forced d2.textures cur.textures }
  let d4 := { d3 with
    textures := kvMaskScan cur.getTexture forced d3.textures target.textures }
  let d5 := { d4 with
    images := kvMaskScan target.getImage forced d4.images cur.images }
  { d5 with
    images := kvMaskScan cur.getImage forced d5.images target.images }

/-- The bits computed by the scans over current's keys alone, run on a
fresh diff: the first loop of each category pair in `makeDiff`. -/
def scanCurOnly (cur target : BindingState) (forced : Bool) : StateDiff_t :=
  let d1 := bufScan target.getBufferBinding forced emptyDiff cur.buffers
  let d2 := { d1 with
    textures := kvMaskScan target.getTexture forced d1.textures cur.textures }
  { d2 with
    images := kvMaskScan target.getImage forced d2.images cur.images }

/-- The bits computed by the scans over target's keys alone, run on a
fresh diff: the second loop of each category pair in `makeDiff`. -/
def scanTgtOnly (cur target : BindingState) (forced : Bool) : StateDiff_t :=
  let d1 := bufScan cur.getBufferBinding forced emptyDiff target.buffers
  let d2 := { d1 with
    textures := kvMaskScan cur.getTexture forced d1.textures target.textures }
  { d2 with
    images := kvMaskScan cur.getImage forced d2.images target.images }

def maskUnion (m1 m2 : Mask) : Mask := fun i => m1 i || m2 i

/-- Pointwise union of two diffs, category by category. -/
def unionDiff (d1 d2 : StateDiff_t) : StateDiff_t :=
  ⟨maskUnion d1.ssbos d2.ssbos, maskUnion d1.ubos d2.ubos,
   maskUnion d1.acbos d2.acbos, maskUnion d1.tfbos d2.tfbos,
   maskUnion d1.other d2.other, maskUnion d1.textures d2.textures,
   maskUnion d1.images d2.images⟩

/-! ## The apply step -/

/-- One driver call issued by the apply step. -/
inductive DriverCall where
  | bindBuffer (target location id : Nat)
  | unbindBuffer (target location : Nat)
  | bindTexture (unit glId : Nat)
  | bindImage (unit glId level : Nat) (layered : Bool)
      (layer access format : Nat)
deriving DecidableEq

/-- from BindingState.cpp `getImageAccess`. -/
def getImageAccess (param : ImageBindParameters) : Nat :=
  if !param.readOperations then GL_WRITE_ONLY
  else if !param.writeOperations then GL_READ_ONLY
  else GL_READ_WRITE

/-- from BindingState.cpp `convertImageFormat` (the texture is non-null at
every call site). -/
def convertImageFormat (t : Texture) : Nat :=
  if t.glLocalDataType = GL_BYTE ∨ t.glLocalDataType = GL_UNSIGNED_BYTE then
    if t.glInternalFormat = GL_RED then GL_R8
    else if t.glInternalFormat = GL_RG then GL_RG8
    else if t.glInternalFormat = GL_RGB then GL_RGB8
    else if t.glInternalFormat = GL_RGBA then GL_RGBA8
    else t.glInternalFormat
  else t.glInternalFormat

/-- Refresh a binding's cached offset/size from the live buffer. -/
def refreshBinding (e : BufferBinding) (b : BufferObject) : BufferBinding :=
  { e with offset := b.offset, size := b.size }

/-- from BindingState.cpp `bindOrRemoveBuffer`: look the key up in the
map; a live entry refreshes its cache and binds, a null entry is erased
and unbound, an absent key does nothing. -/
def bindOrRemoveBuffer : List BufferBinding → Nat → Nat →
    List BufferBinding × List DriverCall
  | [], _, _ => ([], [])
  | e :: rest, t, l =>
    if e.target = t ∧ e.location = l then
      match e.buffer with
      | some b => (refreshBinding e b :: rest, [DriverCall.bindBuffer t l b.id])
      | none => (rest, [DriverCall.unbindBuffer t l])
    else
      let p := bindOrRemoveBuffer rest t l
      (e :: p.1, p.2)

/-- One buffer loop of `apply`: for each set bit of the mask, run
`bindOrRemoveBuffer` at the bit's target/location. -/
def applyBufLoop (mask : Mask) (tOf lOf : Nat → Nat) :
    List BufferBinding → List Nat → List BufferBinding × List DriverCall
  | B, [] => (B, [])
  | B, i :: rest =>
    if mask i then
      let p := bindOrRemoveBuffer B (tOf i) (lOf i)
      let q := applyBufLoop mask tOf lOf p.1 rest
      (q.1, p.2 ++ q.2)
    else
      applyBufLoop mask tOf lOf B rest

/-- Erase the first entry with the given key from a unit-keyed map. -/
def eraseKV {α : Type} (L : List (Nat × α)) (k : Nat) : List (Nat × α) :=
  L.eraseP (fun e => e.1 = k)

/-- The texture loop of `apply`: a set bit with a live entry binds the
texture to its unit, a null entry is erased and the unit bound to 0, an
absent unit does nothing. -/
def applyTexLoop (mask : Mask) :
    List (Nat × Option Texture) → List Nat →
    List (Nat × Option Texture) × List DriverCall
  | T, [] => (T, [])
  | T, i :: rest =>
    if mask i then
      match lookupKV T i with
      | none => applyTexLoop mask T rest
      | some (some tex) =>
        let q := applyTexLoop mask T rest
        (q.1, DriverCall.bindTexture i tex.glId :: q.2)
      | some none =>
        let q := applyTexLoop mask (eraseKV T i) rest
        (q.1, DriverCall.bindTexture i 0 :: q.2)
    else
      applyTexLoop mask T rest

/-- The image loop of `apply`: a set bit with a live entry issues
`glBindImageTexture` with the entry's parameters, a null entry is erased
and the unit unbound, an absent unit does nothing. -/
def applyImgLoop (mask : Mask) :
    List (Nat × ImageBindParameters) → List Nat →
    List (Nat × ImageBindParameters) × List DriverCall
  | M, [] => (M, [])
  | M, i :: rest =>
    if mask i then
      match lookupKV M i with
      | none => applyImgLoop mask M rest
      | some p =>
        match p.texture with
        | some tex =>
          let q := applyImgLoop mask M rest
          (q.1, DriverCall.bindImage i tex.glId p.level p.multiLayer p.layer
            (getImageAccess p) (convertImageFormat tex) :: q.2)
        | none =>
          let q := applyImgLoop mask (eraseKV M i) rest
          (q.1, DriverCall.bindImage i 0 0 false 0 GL_READ_WRITE GL_RGBA32F
            :: q.2)
    else
      applyImgLoop mask M rest

/-- `BindingState::apply(diff)`: the five buffer loops in source order
(storage, uniform, atomic-counter, transform-feedback, shared other mask
over bits `0..size()-2`), then the texture loop, then the image loop.
Each guarded loop mirrors the `if(mask.any())` check of the source. -/
def BindingState.apply (st : BindingState) (d : StateDiff_t) :
    BindingState × List DriverCall :=
  let pS := if maskAny d.ssbos maxBufferBindings then
      applyBufLoop d.ssbos (fun _ => GL_SHADER_STORAGE_BUFFER) (fun i => i)
        st.buffers (List.range maxBufferBindings)
    else (st.buffers, [])
  let pU := if maskAny d.ubos maxBufferBindings then
      applyBufLoop d.ubos (fun _ => GL_UNIFORM_BUFFER) (fun i => i)
        pS.1 (List.range maxBufferBindings)
    else (pS.1, [])
  let pA := if maskAny d.acbos maxBufferBindings then
      applyBufLoop d.acbos (fun _ => GL_ATOMIC_COUNTER_BUFFER) (fun i => i)
        pU.1 (List.range maxBufferBindings)
    else (pU.1, [])
  let pT := if maskAny d.tfbos maxBufferBindings then
      applyBufLoop d.tfbos (fun _ => GL_TRANSFORM_FEEDBACK_BUFFER) (fun i => i)
        pA.1 (List.range maxBufferBindings)
    else (pA.1, [])
  let pO := if maskAny d.other otherMaskSize then
      applyBufLoop d.other getBufferTargetFromBit (fun _ => 0)
        pT.1 (List.range (otherMaskSize - 1))
    else (pT.1, [])
  let pTex := if maskAny d.textures maxTextureBindings then
      applyTexLoop d.textures st.textures (List.range maxTextureBindings)
    else (st.textures, [])
  let pImg := if maskAny d.images maxImageBindings then
      applyImgLoop d.images st.images (List.range maxImageBindings)
    else (st.images, [])
  (⟨pO.1, pTex.1, pImg.1⟩,
   pS.2 ++ pU.2 ++ pA.2 ++ pT.2 ++ pO.2 ++ pTex.2 ++ pImg.2)

/-! ## The reconciliation facade -/

/-- The context facade's pair of snapshots. -/
structure ContextState where
  current : BindingState
  target : BindingState

/-- Modelled from the spec: the RenderingContext facade is not among the
sources. Reconciliation computes the diff between current and target,
applies it to the target snapshot (the apply step looks up target
bindings, spec section 4.4), and current becomes the applied target. -/
def reconcile (cs : ContextState) (forced : Bool) :
    ContextState × StateDiff_t × List DriverCall :=
  let d := BindingState.makeDiff cs.current cs.target forced
  let p := BindingState.apply cs.target d
  (⟨p.1, p.1⟩, d, p.2)

/-! ## Shader objects (ShaderObjectInfo.cpp) -/

inductive ShaderStage where
  | Vertex
  | TesselationControl
  | TesselationEvaluation
  | Geometry
  | Fragment
  | Compute
deriving DecidableEq

/-- The fields of `ShaderObjectInfo` that `compile` consults: the shader
stage, the stored GLSL code string and the stored SPIR-V binary. -/
structure ShaderObjectInfo where
  stage : ShaderStage
  code : String
  spirv : List Nat
deriving DecidableEq

/-- Which branch of `ShaderObjectInfo::compile` produced the result. -/
inductive CompilePath where
  | emptyCode
  | spirvReuse
  | glslOk
  | glslFail
deriving DecidableEq

/-- The warning-emitting branches of `compile`: the empty-code early
return and the GLSL compilation failure. -/
def compilePathWarns : CompilePath → Bool
  | CompilePath.emptyCode => true
  | CompilePath.glslFail => true
  | _ => false

/-- `ShaderObjectInfo::compile(device)`, with the external shaderc
compiler abstracted as `glslc` and the produced shader module identified
with the SPIR-V words it is built from: empty code returns null after a
warning; otherwise a stored SPIR-V binary is reused without recompiling;
otherwise the GLSL is compiled. -/
def ShaderObjectInfo.compile (glslc : String → Option (List Nat))
    (s : ShaderObjectInfo) : Option (List Nat) × CompilePath :=
  if s.code = "" then (none, CompilePath.emptyCode)
  else if s.spirv ≠ [] then (some s.spirv, CompilePath.spirvReuse)
  else
    match glslc s.code with
    | none => (none, CompilePath.glslFail)
    | some sp => (some sp, CompilePath.glslOk)

/-- `ShaderObjectInfo::createVertex(spirv)`: constructs from SPIR-V,
leaving the code string empty. -/
def ShaderObjectInfo.createVertex (spirv : List Nat) : ShaderObjectInfo :=
  ⟨ShaderStage.Vertex, "", spirv⟩

/-- `ShaderObjectInfo::createVertex(code)`: constructs from GLSL code,
leaving the SPIR-V binary empty. -/
def ShaderObjectInfo.createVertexCode (code : String) : ShaderObjectInfo :=
  ⟨ShaderStage.Vertex, code, []⟩

/-! ## Derived forms used in claim statements -/

/-- The ten buffer targets enumerated by `getBufferTargetBit`. -/
def recognizedBufferTargets : List Nat :=
  [GL_ARRAY_BUFFER, GL_COPY_READ_BUFFER, GL_COPY_WRITE_BUFFER,
   GL_DISPATCH_INDIRECT_BUFFER, GL_DRAW_INDIRECT_BUFFER,
   GL_ELEMENT_ARRAY_BUFFER, GL_PIXEL_PACK_BUFFER, GL_PIXEL_UNPACK_BUFFER,
   GL_QUERY_BUFFER, GL_TEXTURE_BUFFER]

/-- The four buffer targets with dedicated per-location masks. -/
def indexedBufferTargets : List Nat :=
  [GL_SHADER_STORAGE_BUFFER, GL_UNIFORM_BUFFER, GL_ATOMIC_COUNTER_BUFFER,
   GL_TRANSFORM_FEEDBACK_BUFFER]

/-- List-level buffer lookup by key, the workhorse behind
`getBufferBinding`. -/
def lookupBuf (L : List BufferBinding) (t l : Nat) : Option BufferBinding :=
  L.find? (fun e => e.target = t ∧ e.location = l)

/-- Replace the first entry with the given key. -/
def replaceBufKey : List BufferBinding → Nat → Nat → BufferBinding →
    List BufferBinding
  | [], _, _, _ => []
  | e :: rest, t, l, e2 =>
    if e.target = t ∧ e.location = l then e2 :: rest
    else e :: replaceBufKey rest t l e2

/-- Erase the first entry with the given key. -/
def eraseBufKey (L : List BufferBinding) (t l : Nat) : List BufferBinding :=
  L.eraseP (fun e => e.target = t ∧ e.location = l)

/-! ## Basic lemmas -/

theorem lookupBuf_eq_getBufferBinding (st : BindingState) (t l : Nat) :
    st.getBufferBinding t l = lookupBuf st.buffers t l := rfl

theorem maskAny_eq_true {m : Mask} {w : Nat} :
    maskAny m w = true ↔ ∃ i, i < w ∧ m i = true := by
  simp [maskAny, List.any_eq_true, List.mem_range]

theorem maskAny_eq_false {m : Mask} {w : Nat} :
    maskAny m w = false ↔ ∀ i, i < w → m i = false := by
  rw [← Bool.not_eq_true, maskAny_eq_true]
  push_neg
  simp

theorem Mask.set_self (m : Mask) (p : Nat) (v : Bool) : m.set p v p = v := by
  simp [Mask.set]

theorem Mask.set_other (m : Mask) (p : Nat) (v : Bool) {i : Nat} (h : i ≠ p) :
    m.set p v i = m i := by
  simp [Mask.set, h]

theorem applyBufLoop_congr {m1 m2 : Mask} (tOf lOf : Nat → Nat)
    (B : List BufferBinding) (idxs : List Nat)
    (h : ∀ i ∈ idxs, m1 i = m2 i) :
    applyBufLoop m1 tOf lOf B idxs = applyBufLoop m2 tOf lOf B idxs := by
  induction idxs generalizing B with
  | nil => rfl
  | cons i rest ih =>
    have hi := h i (List.mem_cons_self i rest)
    have hrest : ∀ j ∈ rest, m1 j = m2 j := fun j hj =>
      h j (List.mem_cons_of_mem i hj)
    simp only [applyBufLoop, hi]
    split
    · rw [ih _ hrest]
    · exact ih _ hrest

theorem applyBufLoop_none {m : Mask} (tOf lOf : Nat → Nat)
    (B : List BufferBinding) (idxs : List Nat)
    (h : ∀ i ∈ idxs, m i = false) :
    applyBufLoop m tOf lOf B idxs = (B, []) := by
  induction idxs with
  | nil => rfl
  | cons i rest ih =>
    have hi := h i (List.mem_cons_self i rest)
    simp only [applyBufLoop, hi, Bool.false_eq_true, if_neg, not_false_eq_true]
    exact ih fun j hj => h j (List.mem_cons_of_mem i hj)

theorem applyTexLoop_none {m : Mask} (T : List (Nat × Option Texture))
    (idxs : List Nat) (h : ∀ i ∈ idxs, m i = false) :
    applyTexLoop m T idxs = (T, []) := by
  induction idxs with
  | nil => rfl
  | cons i rest ih =>
    have hi := h i (List.mem_cons_self i rest)
    simp only [applyTexLoop, hi, Bool.false_eq_true, if_neg, not_false_eq_true]
    exact ih fun j hj => h j (List.mem_cons_of_mem i hj)

theorem applyImgLoop_none {m : Mask} (M : List (Nat × ImageBindParameters))
    (idxs : List Nat) (h : ∀ i ∈ idxs, m i = false) :
    applyImgLoop m M idxs = (M, []) := by
  induction idxs with
  | nil => rfl
  | cons i rest ih =>
    have hi := h i (List.mem_cons_self i rest)
    simp only [applyImgLoop, hi, Bool.false_eq_true, if_neg, not_false_eq_true]
    exact ih fun j hj => h j (List.mem_cons_of_mem i hj)

theorem bufCat_of_not_indexed {t : Nat} (h : t ∉ indexedBufferTargets) :
    bufCat t = 4 := by
  simp only [indexedBufferTargets, List.mem_cons, List.mem_singleton,
    not_or] at h
  obtain ⟨h1, h2, h3, h4⟩ := h
  simp [bufCat, h1, h2, h3, h4]

theorem getBufferTargetBitW_unknown {t : Nat}
    (h : t ∉ recognizedBufferTargets) : getBufferTargetBitW t = (10, true) := by
  simp only [recognizedBufferTargets, List.mem_cons, List.mem_singleton,
    not_or] at h
  obtain ⟨h1, h2, h3, h4, h5, h6, h7, h8, h9, h10⟩ := h
  simp [getBufferTargetBitW, h1, h2, h3, h4, h5, h6, h7, h8, h9, h10]

/-! ## Claim C9 -/

/-- Claim C9: `ShaderObjectInfo::compile` returns null after a warning
whenever the stored GLSL code string is empty, even when a non-empty
SPIR-V binary is present; an object built by `createVertex(spirv)` has an
empty code string, so its compilation always takes the empty-code branch
and the SPIR-V reuse path is unreachable for it. -/
theorem C9_compile_empty_code_spirv_unreachable
    (glslc : String → Option (List Nat)) (spirv : List Nat) :
    ShaderObjectInfo.compile glslc (ShaderObjectInfo.createVertex spirv)
        = (none, CompilePath.emptyCode)
      ∧ compilePathWarns CompilePath.emptyCode = true
      ∧ (ShaderObjectInfo.compile glslc
          (ShaderObjectInfo.createVertex spirv)).2 ≠ CompilePath.spirvReuse := by
  refine ⟨rfl, rfl, ?_⟩
  intro h
  simp [ShaderObjectInfo.compile, ShaderObjectInfo.createVertex] at h

/-! ## Key discipline and scan characterization -/

/-- The packed map key of a buffer entry. -/
def bufKey (e : BufferBinding) : Nat × Nat := (e.target, e.location)

/-- The `std::unordered_map` invariant: one entry per packed key. -/
def bufKeysNodup (L : List BufferBinding) : Prop := (L.map bufKey).Nodup

/-- The map invariant for the unit-keyed texture/image maps. -/
def keysNodup {α : Type} (L : List (Nat × α)) : Prop :=
  (L.map Prod.fst).Nodup

instance (L : List BufferBinding) : Decidable (bufKeysNodup L) := by
  unfold bufKeysNodup ; infer_instance

instance {α : Type} (L : List (Nat × α)) : Decidable (keysNodup L) := by
  unfold keysNodup ; infer_instance

/-- The indexed target associated with category indices 0..3. -/
def catTarget (c : Nat) : Nat :=
  if c = 0 then GL_SHADER_STORAGE_BUFFER
  else if c = 1 then GL_UNIFORM_BUFFER
  else if c = 2 then GL_ATOMIC_COUNTER_BUFFER
  else GL_TRANSFORM_FEEDBACK_BUFFER

theorem bufCat_lt (t : Nat) : bufCat t < 5 := by
  unfold bufCat ; split_ifs <;> omega

theorem bufCat_eq_iff {t c : Nat} (hc : c < 4) :
    bufCat t = c ↔ t = catTarget c := by
  unfold bufCat catTarget
  interval_cases c <;> split_ifs <;>
    simp_all [GL_SHADER_STORAGE_BUFFER, GL_UNIFORM_BUFFER,
      GL_ATOMIC_COUNTER_BUFFER, GL_TRANSFORM_FEEDBACK_BUFFER]

theorem bufBit_of_indexed {e : BufferBinding} (h : bufCat e.target < 4) :
    bufBit e = e.location := by
  simp [bufBit, h]

theorem setBufMask_textures (d : StateDiff_t) (c b : Nat) (v : Bool) :
    (setBufMask d c b v).textures = d.textures := by
  unfold setBufMask ; split_ifs <;> rfl

theorem setBufMask_images (d : StateDiff_t) (c b : Nat) (v : Bool) :
    (setBufMask d c b v).images = d.images := by
  unfold setBufMask ; split_ifs <;> rfl

theorem getBufMask_setBufMask_self (d : StateDiff_t) (c b : Nat) (v : Bool) :
    getBufMask (setBufMask d c b v) c = (getBufMask d c).set b v := by
  unfold getBufMask setBufMask ; split_ifs <;> rfl

theorem getBufMask_setBufMask_ne (d : StateDiff_t) {c c2 : Nat} (b : Nat)
    (v : Bool) (hc : c < 5) (hc2 : c2 < 5) (hne : c2 ≠ c) :
    getBufMask (setBufMask d c b v) c2 = getBufMask d c2 := by
  unfold getBufMask setBufMask
  interval_cases c <;> interval_cases c2 <;> simp_all

theorem getBufMask_setBufMask_miss (d : StateDiff_t) {c c2 b b2 : Nat}
    (v : Bool) (hc : c < 5) (hc2 : c2 < 5)
    (h : ¬(c = c2 ∧ b = b2)) :
    getBufMask (setBufMask d c b v) c2 b2 = getBufMask d c2 b2 := by
  by_cases hcc : c2 = c
  · subst hcc
    rw [getBufMask_setBufMask_self]
    exact Mask.set_other _ _ _ (fun hb => h ⟨rfl, hb.symm⟩)
  · rw [getBufMask_setBufMask_ne d b v hc hc2 hcc]

theorem bufScan_textures (f : Nat → Nat → Option BufferBinding) (frc : Bool)
    (d : StateDiff_t) (L : List BufferBinding) :
    (bufScan f frc d L).textures = d.textures := by
  induction L generalizing d with
  | nil => rfl
  | cons e rest ih =>
    rw [bufScan, List.foldl_cons, ← bufScan, ih, scanBufEntry,
      setBufMask_textures]

theorem bufScan_images (f : Nat → Nat → Option BufferBinding) (frc : Bool)
    (d : StateDiff_t) (L : List BufferBinding) :
    (bufScan f frc d L).images = d.images := by
  induction L generalizing d with
  | nil => rfl
  | cons e rest ih =>
    rw [bufScan, List.foldl_cons, ← bufScan, ih, scanBufEntry,
      setBufMask_images]

theorem bufScan_no_writer {f : Nat → Nat → Option BufferBinding} {frc : Bool}
    {c b : Nat} {d : StateDiff_t} {L : List BufferBinding}
    (hc : c < 5)
    (h : ∀ e ∈ L, ¬(bufCat e.target = c ∧ bufBit e = b)) :
    getBufMask (bufScan f frc d L) c b = getBufMask d c b := by
  induction L generalizing d with
  | nil => rfl
  | cons e rest ih =>
    rw [bufScan, List.foldl_cons, ← bufScan]
    rw [ih (fun e2 he2 => h e2 (List.mem_cons_of_mem e he2))]
    exact getBufMask_setBufMask_miss d _ (bufCat_lt e.target) hc
      (fun hcb => h e (List.mem_cons_self e rest) ⟨hcb.1, hcb.2⟩)

theorem bufScan_const_writer {f : Nat → Nat → Option BufferBinding}
    {frc : Bool} {c b : Nat} {v : Bool} {d : StateDiff_t}
    {L : List BufferBinding}
    (hc : c < 5)
    (hw : ∃ e ∈ L, bufCat e.target = c ∧ bufBit e = b)
    (hv : ∀ e ∈ L, bufCat e.target = c ∧ bufBit e = b →
      scanVal f frc e = v) :
    getBufMask (bufScan f frc d L) c b = v := by
  induction L generalizing d with
  | nil => obtain ⟨e, he, _⟩ := hw ; exact absurd he (List.not_mem_nil e)
  | cons e rest ih =>
    rw [bufScan, List.foldl_cons, ← bufScan]
    by_cases hrest : ∃ e2 ∈ rest, bufCat e2.target = c ∧ bufBit e2 = b
    · exact ih hrest (fun e2 he2 => hv e2 (List.mem_cons_of_mem e he2))
    · push_neg at hrest
      obtain ⟨e0, he0, hw0⟩ := hw
      rcases List.mem_cons.mp he0 with rfl | hmem
      · rw [bufScan_no_writer hc
          (fun e2 he2 hcb => hrest e2 he2 hcb.1 hcb.2)]
        rw [scanBufEntry, hw0.1, hw0.2, getBufMask_setBufMask_self,
          Mask.set_self]
        exact hv e0 (List.mem_cons_self e0 rest) hw0
      · exact absurd hw0.2 (hrest e0 hmem hw0.1)

theorem kvMaskScan_no_writer {α : Type} [DecidableEq α]
    {f : Nat → Option α} {frc : Bool} {m : Mask} {L : List (Nat × α)}
    {u : Nat} (h : ∀ e ∈ L, e.1 ≠ u) :
    kvMaskScan f frc m L u = m u := by
  induction L generalizing m with
  | nil => rfl
  | cons e rest ih =>
    rw [kvMaskScan, List.foldl_cons, ← kvMaskScan]
    rw [ih (fun e2 he2 => h e2 (List.mem_cons_of_mem e he2))]
    exact Mask.set_other _ _ _ (fun hu => h e (List.mem_cons_self e rest) hu.symm)

theorem kvMaskScan_const_writer {α : Type} [DecidableEq α]
    {f : Nat → Option α} {frc : Bool} {m : Mask} {L : List (Nat × α)}
    {u : Nat} {v : Bool}
    (hw : ∃ e ∈ L, e.1 = u)
    (hv : ∀ e ∈ L, e.1 = u → kvVal f frc e = v) :
    kvMaskScan f frc m L u = v := by
  induction L generalizing m with
  | nil => obtain ⟨e, he, _⟩ := hw ; exact absurd he (List.not_mem_nil e)
  | cons e rest ih =>
    rw [kvMaskScan, List.foldl_cons, ← kvMaskScan]
    by_cases hrest : ∃ e2 ∈ rest, e2.1 = u
    · exact ih hrest (fun e2 he2 => hv e2 (List.mem_cons_of_mem e he2))
    · push_neg at hrest
      obtain ⟨e0, he0, hw0⟩ := hw
      rcases List.mem_cons.mp he0 with rfl | hmem
      · rw [kvMaskScan_no_writer hrest, hw0, Mask.set_self]
        exact hv e0 (List.mem_cons_self e0 rest) hw0
      · exact absurd hw0 (hrest e0 hmem)

theorem lookupBuf_mem {L : List BufferBinding} {t l : Nat} {e : BufferBinding}
    (h : lookupBuf L t l = some e) :
    e ∈ L ∧ e.target = t ∧ e.location = l := by
  refine ⟨List.mem_of_find?_eq_some h, ?_⟩
  have := List.find?_some h
  simpa using this

theorem lookupBuf_none {L : List BufferBinding} {t l : Nat}
    (h : lookupBuf L t l = none) :
    ∀ e ∈ L, ¬(e.target = t ∧ e.location = l) := by
  intro e he hk
  have := List.find?_eq_none.mp h e he
  simp [hk.1, hk.2] at this

theorem lookupBuf_of_mem {L : List BufferBinding} {e : BufferBinding}
    (hnd : bufKeysNodup L) (he : e ∈ L) :
    lookupBuf L e.target e.location = some e := by
  induction L with
  | nil => exact absurd he (List.not_mem_nil e)
  | cons e0 rest ih =>
    rcases List.mem_cons.mp he with rfl | hmem
    · simp [lookupBuf, List.find?_cons_of_pos]
    · have hnd2 : bufKeysNodup rest := by
        simpa [bufKeysNodup] using (List.nodup_cons.mp hnd).2
      have hne : ¬(e0.target = e.target ∧ e0.location = e.location) := by
        intro hk
        have hkey : bufKey e0 = bufKey e := by
          simp [bufKey, hk.1, hk.2]
        have hnotin := (List.nodup_cons.mp hnd).1
        exact hnotin (hkey ▸ List.mem_map_of_mem bufKey hmem)
      rw [lookupBuf, List.find?_cons_of_neg _ (by simpa using hne)]
      exact ih hnd2 hmem

theorem bufKeys_unique {L : List BufferBinding} {e e2 : BufferBinding}
    (hnd : bufKeysNodup L) (he : e ∈ L) (he2 : e2 ∈ L)
    (hk : bufKey e = bufKey e2) : e = e2 :=
  List.inj_on_of_nodup_map hnd he he2 hk

theorem lookupKV_mem {α : Type} {L : List (Nat × α)} {u : Nat} {v : α}
    (h : lookupKV L u = some v) : (u, v) ∈ L := by
  unfold lookupKV at h
  obtain ⟨e, hfind, hsnd⟩ := Option.map_eq_some'.mp h
  have hmem := List.mem_of_find?_eq_some hfind
  have hfst := List.find?_some hfind
  simp only [decide_eq_true_eq] at hfst
  have : e = (u, v) := by
    cases e ; simp_all
  exact this ▸ hmem

theorem lookupKV_none {α : Type} {L : List (Nat × α)} {u : Nat}
    (h : lookupKV L u = none) : ∀ e ∈ L, e.1 ≠ u := by
  intro e he hk
  unfold lookupKV at h
  rw [Option.map_eq_none'] at h
  have := List.find?_eq_none.mp h e he
  simp [hk] at this

theorem lookupKV_of_mem {α : Type} {L : List (Nat × α)} {e : Nat × α}
    (hnd : keysNodup L) (he : e ∈ L) : lookupKV L e.1 = some e.2 := by
  induction L with
  | nil => exact absurd he (List.not_mem_nil e)
  | cons e0 rest ih =>
    rcases List.mem_cons.mp he with rfl | hmem
    · simp [lookupKV, List.find?_cons_of_pos]
    · have hnd2 : keysNodup rest := by
        simpa [keysNodup] using (List.nodup_cons.mp hnd).2
      have hne : e0.1 ≠ e.1 := by
        intro hk
        have hnotin := (List.nodup_cons.mp hnd).1
        exact hnotin (hk ▸ List.mem_map_of_mem Prod.fst hmem)
      rw [lookupKV, List.find?_cons_of_neg _ (by simpa using hne)]
      exact ih hnd2 hmem

/-- The value an indexed-category bit holds after one buffer scan loop:
the scan value of the unique entry with the matching key, or the previous
bit if no key matches. -/
theorem bufScan_char_indexed {f : Nat → Nat → Option BufferBinding}
    {frc : Bool} {d : StateDiff_t} {L : List BufferBinding} {c i : Nat}
    (hc : c < 4) (hnd : bufKeysNodup L) :
    getBufMask (bufScan f frc d L) c i
      = (match lookupBuf L (catTarget c) i with
         | some e => scanVal f frc e
         | none => getBufMask d c i) := by
  cases h : lookupBuf L (catTarget c) i with
  | none =>
    refine bufScan_no_writer (by omega) (fun e he hcb => ?_)
    have ht : e.target = catTarget c := (bufCat_eq_iff hc).mp hcb.1
    have hl : e.location = i := by
      rw [← hcb.2, bufBit_of_indexed] ; omega
    exact lookupBuf_none h e he ⟨ht, hl⟩
  | some e =>
    obtain ⟨hmem, ht, hl⟩ := lookupBuf_mem h
    refine bufScan_const_writer (by omega) ⟨e, hmem, ?_, ?_⟩ ?_
    · rw [(bufCat_eq_iff hc).mpr ht]
    · rw [bufBit_of_indexed (by rw [(bufCat_eq_iff hc).mpr ht] ; omega), hl]
    · intro e2 he2 hcb
      have ht2 : e2.target = catTarget c := (bufCat_eq_iff hc).mp hcb.1
      have hl2 : e2.location = i := by
        rw [← hcb.2, bufBit_of_indexed] ; omega
      have : e2 = e := by
        refine bufKeys_unique hnd he2 hmem ?_
        simp [bufKey, ht, hl, ht2, hl2]
      rw [this]

/-- The value a texture/image bit holds after one scan loop. -/
theorem kvMaskScan_char {α : Type} [DecidableEq α] {f : Nat → Option α}
    {frc : Bool} {m : Mask} {L : List (Nat × α)} {u : Nat}
    (hnd : keysNodup L) :
    kvMaskScan f frc m L u
      = (match lookupKV L u with
         | some v2 => kvVal f frc (u, v2)
         | none => m u) := by
  cases h : lookupKV L u with
  | none => exact kvMaskScan_no_writer (lookupKV_none h)
  | some v2 =>
    have hmem := lookupKV_mem h
    refine kvMaskScan_const_writer ⟨(u, v2), hmem, rfl⟩ ?_
    intro e2 he2 hk
    have : e2 = (u, v2) := by
      have := lookupKV_of_mem hnd he2
      rw [hk, h] at this
      cases e2 ; simp_all
    rw [this]

/-! ## Decomposition of makeDiff into its six scan loops -/

theorem getBufMask_empty (c : Nat) : getBufMask emptyDiff c = emptyMask := by
  unfold getBufMask ; split_ifs <;> rfl

theorem getBufMask_unionDiff (d1 d2 : StateDiff_t) (c : Nat) :
    getBufMask (unionDiff d1 d2) c
      = maskUnion (getBufMask d1 c) (getBufMask d2 c) := by
  unfold getBufMask ; split_ifs <;> rfl

theorem makeDiff_bufMask (cur tgt : BindingState) (frc : Bool) (c : Nat) :
    getBufMask (BindingState.makeDiff cur tgt frc) c
      = getBufMask (bufScan cur.getBufferBinding frc
          (bufScan tgt.getBufferBinding frc emptyDiff cur.buffers)
          tgt.buffers) c := by
  unfold getBufMask ; split_ifs <;> rfl

theorem makeDiff_textures (cur tgt : BindingState) (frc : Bool) :
    (BindingState.makeDiff cur tgt frc).textures
      = kvMaskScan cur.getTexture frc
          (kvMaskScan tgt.getTexture frc emptyMask cur.textures)
          tgt.textures := by
  show kvMaskScan cur.getTexture frc
      (kvMaskScan tgt.getTexture frc
        (bufScan cur.getBufferBinding frc
          (bufScan tgt.getBufferBinding frc emptyDiff cur.buffers)
          tgt.buffers).textures cur.textures) tgt.textures = _
  rw [bufScan_textures, bufScan_textures]
  rfl

theorem makeDiff_images (cur tgt : BindingState) (frc : Bool) :
    (BindingState.makeDiff cur tgt frc).images
      = kvMaskScan cur.getImage frc
          (kvMaskScan tgt.getImage frc emptyMask cur.images)
          tgt.images := by
  show kvMaskScan cur.getImage frc
      (kvMaskScan tgt.getImage frc
        (bufScan cur.getBufferBinding frc
          (bufScan tgt.getBufferBinding frc emptyDiff cur.buffers)
          tgt.buffers).images cur.images) tgt.images = _
  rw [bufScan_images, bufScan_images]
  rfl

theorem scanCurOnly_bufMask (cur tgt : BindingState) (frc : Bool) (c : Nat) :
    getBufMask (scanCurOnly cur tgt frc) c
      = getBufMask (bufScan tgt.getBufferBinding frc emptyDiff cur.buffers)
          c := by
  unfold getBufMask ; split_ifs <;> rfl

theorem scanCurOnly_textures (cur tgt : BindingState) (frc : Bool) :
    (scanCurOnly cur tgt frc).textures
      = kvMaskScan tgt.getTexture frc emptyMask cur.textures := by
  show kvMaskScan tgt.getTexture frc
      (bufScan tgt.getBufferBinding frc emptyDiff cur.buffers).textures
      cur.textures = _
  rw [bufScan_textures]
  rfl

theorem scanCurOnly_images (cur tgt : BindingState) (frc : Bool) :
    (scanCurOnly cur tgt frc).images
      = kvMaskScan tgt.getImage frc emptyMask cur.images := by
  show kvMaskScan tgt.getImage frc
      (bufScan tgt.getBufferBinding frc emptyDiff cur.buffers).images
      cur.images = _
  rw [bufScan_images]
  rfl

theorem scanTgtOnly_bufMask (cur tgt : BindingState) (frc : Bool) (c : Nat) :
    getBufMask (scanTgtOnly cur tgt frc) c
      = getBufMask (bufScan cur.getBufferBinding frc emptyDiff tgt.buffers)
          c := by
  unfold getBufMask ; split_ifs <;> rfl

theorem scanTgtOnly_textures (cur tgt : BindingState) (frc : Bool) :
    (scanTgtOnly cur tgt frc).textures
      = kvMaskScan cur.getTexture frc emptyMask tgt.textures := by
  show kvMaskScan cur.getTexture frc
      (bufScan cur.getBufferBinding frc emptyDiff tgt.buffers).textures
      tgt.textures = _
  rw [bufScan_textures]
  rfl

theorem scanTgtOnly_images (cur tgt : BindingState) (frc : Bool) :
    (scanTgtOnly cur tgt frc).images
      = kvMaskScan cur.getImage frc emptyMask tgt.images := by
  show kvMaskScan cur.getImage frc
      (bufScan cur.getBufferBinding frc emptyDiff tgt.buffers).images
      tgt.images = _
  rw [bufScan_images]
  rfl

/-- The two scan directions compute the same value at a key present in
both snapshots: equal entries agree on staleness, unequal entries make
both inequality disjuncts true. -/
theorem scanVal_cross {cur tgt : BindingState} {frc : Bool}
    {ec et : BufferBinding} {t l : Nat}
    (hcu : lookupBuf cur.buffers t l = some ec)
    (htg : lookupBuf tgt.buffers t l = some et) :
    scanVal tgt.getBufferBinding frc ec
      = scanVal cur.getBufferBinding frc et := by
  obtain ⟨_, htc, hlc⟩ := lookupBuf_mem hcu
  obtain ⟨_, htt, hlt⟩ := lookupBuf_mem htg
  unfold scanVal
  rw [lookupBuf_eq_getBufferBinding, lookupBuf_eq_getBufferBinding,
    htc, hlc, htt, hlt, htg, hcu]
  by_cases h : ec = et
  · subst h ; simp
  · simp [h, Ne.symm h]

/-- Same-key agreement of the two scan directions for unit-keyed maps. -/
theorem kvVal_cross {α : Type} [DecidableEq α] {fT fC : Nat → Option α}
    {u : Nat} {vc vt : α} {frc : Bool}
    (h1 : fT u = some vt) (h2 : fC u = some vc) :
    kvVal fT frc (u, vc) = kvVal fC frc (u, vt) := by
  unfold kvVal
  rw [h1, h2]
  by_cases h : vc = vt
  · subst h ; simp
  · simp [h, Ne.symm h]

/-! ## Claim C1 -/

/-- Claim C1 (amended): when both snapshots respect the map invariant
(one entry per key), the change mask computed by `makeDiff` is, for the
four indexed buffer categories and for the texture and image masks, the
bitwise union of the bits computed by the scan over current's keys and
the bits computed by the scan over target's keys. In the shared
other-target mask the claim fails: distinct keys write the same bit, and
the later write overwrites (`bitset::set(pos, value)` assigns), so a bit
set for one key can be cleared by the scan of a different key that
aliases to the same bit. -/
theorem C1_diff_is_union_of_scans (cur tgt : BindingState) (forced : Bool)
    (hbc : bufKeysNodup cur.buffers) (hbt : bufKeysNodup tgt.buffers)
    (htc : keysNodup cur.textures) (htt : keysNodup tgt.textures)
    (hic : keysNodup cur.images) (hit : keysNodup tgt.images)
    (c i : Nat) (hc : c < 4) :
    getBufMask (BindingState.makeDiff cur tgt forced) c i
        = getBufMask (unionDiff (scanCurOnly cur tgt forced)
            (scanTgtOnly cur tgt forced)) c i
    ∧ (BindingState.makeDiff cur tgt forced).textures i
        = (unionDiff (scanCurOnly cur tgt forced)
            (scanTgtOnly cur tgt forced)).textures i
    ∧ (BindingState.makeDiff cur tgt forced).images i
        = (unionDiff (scanCurOnly cur tgt forced)
            (scanTgtOnly cur tgt forced)).images i := by
  refine ⟨?_, ?_, ?_⟩
  · rw [makeDiff_bufMask, getBufMask_unionDiff, scanCurOnly_bufMask,
      scanTgtOnly_bufMask, maskUnion]
    rw [bufScan_char_indexed hc hbt, bufScan_char_indexed hc hbc,
      bufScan_char_indexed hc hbt]
    cases hcu : lookupBuf cur.buffers (catTarget c) i with
    | none =>
      cases htg : lookupBuf tgt.buffers (catTarget c) i with
      | none => simp [getBufMask_empty, emptyMask]
      | some et => simp [getBufMask_empty, emptyMask]
    | some ec =>
      cases htg : lookupBuf tgt.buffers (catTarget c) i with
      | none => simp [getBufMask_empty, emptyMask]
      | some et =>
        dsimp only
        rw [scanVal_cross hcu htg, Bool.or_self]
  · rw [makeDiff_textures, unionDiff, scanCurOnly_textures,
      scanTgtOnly_textures]
    show _ = maskUnion (kvMaskScan tgt.getTexture forced emptyMask
      cur.textures) (kvMaskScan cur.getTexture forced emptyMask
      tgt.textures) i
    rw [maskUnion, kvMaskScan_char htt, kvMaskScan_char htc,
      kvMaskScan_char htt]
    cases hcu : lookupKV cur.textures i with
    | none =>
      cases htg : lookupKV tgt.textures i with
      | none => simp [emptyMask]
      | some vt => simp [emptyMask]
    | some vc =>
      cases htg : lookupKV tgt.textures i with
      | none => simp [emptyMask]
      | some vt =>
        have hx : kvVal tgt.getTexture forced (i, vc)
            = kvVal cur.getTexture forced (i, vt) :=
          kvVal_cross htg hcu
        dsimp only
        rw [hx, Bool.or_self]
  · rw [makeDiff_images, unionDiff, scanCurOnly_images, scanTgtOnly_images]
    show _ = maskUnion (kvMaskScan tgt.getImage forced emptyMask
      cur.images) (kvMaskScan cur.getImage forced emptyMask
      tgt.images) i
    rw [maskUnion, kvMaskScan_char hit, kvMaskScan_char hic,
      kvMaskScan_char hit]
    cases hcu : lookupKV cur.images i with
    | none =>
      cases htg : lookupKV tgt.images i with
      | none => simp [emptyMask]
      | some vt => simp [emptyMask]
    | some vc =>
      cases htg : lookupKV tgt.images i with
      | none => simp [emptyMask]
      | some vt =>
        have hx : kvVal tgt.getImage forced (i, vc)
            = kvVal cur.getImage forced (i, vt) :=
          kvVal_cross htg hcu
        dsimp only
        rw [hx, Bool.or_self]

def c1cEntryA : BufferBinding := ⟨GL_ARRAY_BUFFER, 0, some ⟨1, 0, 100⟩, 0, 100⟩

def c1cEntryB : BufferBinding := ⟨GL_ARRAY_BUFFER, 1, some ⟨2, 0, 100⟩, 0, 100⟩

def c1cCur : BindingState := ⟨[c1cEntryA, c1cEntryB], [], []⟩

def c1cTgt : BindingState := ⟨[c1cEntryA], [], []⟩

/-- Counterexample to C1 as stated: with two array-buffer bindings at
locations 0 and 1 (both keys aliasing bit 0 of the shared other mask) in
current, and only the location-0 binding in target, the bit set while
scanning current's location-1 key is cleared by the later scan over
target's location-0 key: the final mask is not the union of the two
scans' bits. -/
theorem C1_counterexample :
    (BindingState.makeDiff c1cCur c1cTgt false).other 0 = false
    ∧ (unionDiff (scanCurOnly c1cCur c1cTgt false)
        (scanTgtOnly c1cCur c1cTgt false)).other 0 = true := by
  exact ⟨by decide, by decide⟩

def c1wEntry : BufferBinding := ⟨GL_SHADER_STORAGE_BUFFER, 0, none, 0, 0⟩

def c1wCur : BindingState := ⟨[c1wEntry], [], []⟩

/-- Witness for C1 at a concrete pair of snapshots. -/
theorem C1_diff_is_union_of_scans_witness :
    bufKeysNodup c1wCur.buffers
    ∧ getBufMask (BindingState.makeDiff c1wCur emptyBindingState false) 0 0
        = getBufMask (unionDiff (scanCurOnly c1wCur emptyBindingState false)
            (scanTgtOnly c1wCur emptyBindingState false)) 0 0 :=
  ⟨by decide,
   (C1_diff_is_union_of_scans c1wCur emptyBindingState false (by decide)
     (by decide) (by decide) (by decide) (by decide) (by decide) 0 0
     (by omega)).1⟩

/-! ## Claim C4 -/

/-- Claim C4 (amended): if the target snapshot respects the map invariant
and holds, at the same key, a binding identical to current's stale one
(same handle, same cached offset/size recorded before the external
resize), then for the four indexed buffer categories `makeDiff` with
`forced = false` sets that slot's bit. In the shared other-target mask
the claim can fail: a clean entry at a different key scanned later can
overwrite the aliased bit. -/
theorem C4_stale_binding_sets_bit (cur tgt : BindingState)
    (e : BufferBinding)
    (hbt : bufKeysNodup tgt.buffers)
    (hmem : e ∈ cur.buffers)
    (hstale : bufferChanged e = true)
    (hidx : bufCat e.target < 4)
    (htgt : lookupBuf tgt.buffers e.target e.location = some e) :
    getBufMask (BindingState.makeDiff cur tgt false) (bufCat e.target)
      (bufBit e) = true := by
  rw [makeDiff_bufMask, bufScan_char_indexed hidx hbt]
  have ht : e.target = catTarget (bufCat e.target) :=
    (bufCat_eq_iff hidx).mp rfl
  have hb : bufBit e = e.location := bufBit_of_indexed hidx
  rw [hb, ← ht, htgt]
  show scanVal cur.getBufferBinding false e = true
  unfold scanVal
  rw [hstale]
  simp

def c4Stale : BufferBinding := ⟨GL_ARRAY_BUFFER, 5, some ⟨3, 0, 200⟩, 0, 100⟩

def c4Clean : BufferBinding := ⟨GL_ARRAY_BUFFER, 0, some ⟨4, 0, 100⟩, 0, 100⟩

def c4St : BindingState := ⟨[c4Stale, c4Clean], [], []⟩

/-- Counterexample to C4 as stated: an array-buffer binding at location 5
whose live size (200) differs from its cached size (100), with the target
snapshot identical to current, yet the corresponding bit of the shared
other mask ends up clear because the clean location-0 entry aliases the
same bit and is scanned later. -/
theorem C4_counterexample :
    bufferChanged c4Stale = true
    ∧ c4Stale ∈ c4St.buffers
    ∧ lookupBuf c4St.buffers GL_ARRAY_BUFFER 5 = some c4Stale
    ∧ (BindingState.makeDiff c4St c4St false).other
        (getBufferTargetBit GL_ARRAY_BUFFER) = false := by
  refine ⟨by decide, by decide, by decide, by decide⟩

def c4wStale : BufferBinding :=
  ⟨GL_SHADER_STORAGE_BUFFER, 2, some ⟨5, 0, 200⟩, 0, 100⟩

def c4wSt : BindingState := ⟨[c4wStale], [], []⟩

/-- Witness for C4 at a concrete stale storage-buffer binding. -/
theorem C4_stale_binding_sets_bit_witness :
    bufferChanged c4wStale = true
    ∧ getBufMask (BindingState.makeDiff c4wSt c4wSt false)
        (bufCat c4wStale.target) (bufBit c4wStale) = true :=
  ⟨by decide,
   C4_stale_binding_sets_bit c4wSt c4wSt c4wStale (by decide) (by decide)
     (by decide) (by decide) (by decide)⟩

/-! ## Binding keys across categories (for the minimality claim) -/

/-- A binding key of any category. -/
inductive BKey where
  | buf (t l : Nat)
  | tex (u : Nat)
  | img (u : Nat)
deriving DecidableEq

/-- Observational difference of the two snapshots at one binding key. -/
def differsAt (cur tgt : BindingState) : BKey → Prop
  | BKey.buf t l => lookupBuf cur.buffers t l ≠ lookupBuf tgt.buffers t l
  | BKey.tex u => lookupKV cur.textures u ≠ lookupKV tgt.textures u
  | BKey.img u => lookupKV cur.images u ≠ lookupKV tgt.images u

instance (cur tgt : BindingState) (K : BKey) :
    Decidable (differsAt cur tgt K) := by
  cases K <;> (unfold differsAt ; infer_instance)

/-- The bit a buffer key writes in its category mask. -/
def bufBitT (t l : Nat) : Nat :=
  if bufCat t < 4 then l else getBufferTargetBit t

/-- The (category, bit) slot a key occupies: categories 0..4 are the five
buffer masks, 5 the texture mask, 6 the image mask. -/
def slotOf : BKey → Nat × Nat
  | BKey.buf t l => (bufCat t, bufBitT t l)
  | BKey.tex u => (5, u)
  | BKey.img u => (6, u)

/-- The slot a buffer entry writes during a scan. -/
def bufSlot (e : BufferBinding) : Nat × Nat := (bufCat e.target, bufBit e)

theorem bufSlot_eq_slotOf (e : BufferBinding) :
    bufSlot e = slotOf (BKey.buf e.target e.location) := rfl

/-- Uniform view of the seven masks of a diff. -/
def getMask7 (d : StateDiff_t) (c : Nat) : Mask :=
  if c < 5 then getBufMask d c
  else if c = 5 then d.textures
  else d.images

theorem bufScan_false_at {f : Nat → Nat → Option BufferBinding} {frc : Bool}
    {c b : Nat} {d : StateDiff_t} {L : List BufferBinding} (hc : c < 5)
    (hd : getBufMask d c b = false)
    (hv : ∀ e ∈ L, bufCat e.target = c → bufBit e = b →
      scanVal f frc e = false) :
    getBufMask (bufScan f frc d L) c b = false := by
  by_cases hw : ∃ e ∈ L, bufCat e.target = c ∧ bufBit e = b
  · exact bufScan_const_writer hc hw (fun e he h2 => hv e he h2.1 h2.2)
  · push_neg at hw
    rw [bufScan_no_writer hc (fun e he h2 => hw e he h2.1 h2.2), hd]

theorem kvMaskScan_false_at {α : Type} [DecidableEq α] {f : Nat → Option α}
    {frc : Bool} {m : Mask} {L : List (Nat × α)} {u : Nat}
    (hd : m u = false) (hv : ∀ e ∈ L, e.1 = u → kvVal f frc e = false) :
    kvMaskScan f frc m L u = false := by
  by_cases hw : ∃ e ∈ L, e.1 = u
  · exact kvMaskScan_const_writer hw hv
  · push_neg at hw
    rw [kvMaskScan_no_writer hw, hd]

/-- The double buffer scan of `makeDiff` leaves a slot clear when every
entry of either snapshot mapping to it is unchanged between the snapshots
and not stale. -/
theorem bufScan2_false_at {cur tgt : BindingState} {c b : Nat} (hc : c < 5)
    (hbc : bufKeysNodup cur.buffers) (hbt : bufKeysNodup tgt.buffers)
    (hfresh : ∀ e ∈ cur.buffers, bufferChanged e = false)
    (hsame : ∀ e : BufferBinding,
      (e ∈ cur.buffers ∨ e ∈ tgt.buffers) → bufSlot e = (c, b) →
      lookupBuf cur.buffers e.target e.location
        = lookupBuf tgt.buffers e.target e.location) :
    getBufMask (bufScan cur.getBufferBinding false
      (bufScan tgt.getBufferBinding false emptyDiff cur.buffers)
      tgt.buffers) c b = false := by
  refine bufScan_false_at hc (bufScan_false_at hc (by rw [getBufMask_empty] ; rfl)
    (fun e he h1 h2 => ?_)) (fun e he h1 h2 => ?_)
  · have hlc : lookupBuf cur.buffers e.target e.location = some e :=
      lookupBuf_of_mem hbc he
    have hlt := (hsame e (Or.inl he) (by rw [bufSlot, h1, h2])).symm.trans hlc
    unfold scanVal
    rw [lookupBuf_eq_getBufferBinding, hlt, hfresh e he]
    simp
  · have hlt : lookupBuf tgt.buffers e.target e.location = some e :=
      lookupBuf_of_mem hbt he
    have hlc := (hsame e (Or.inr he) (by rw [bufSlot, h1, h2])).trans hlt
    have hecur : e ∈ cur.buffers := (lookupBuf_mem hlc).1
    unfold scanVal
    rw [lookupBuf_eq_getBufferBinding, hlc, hfresh e hecur]
    simp

/-- The double buffer scan of `makeDiff` sets the slot of a key at which
the snapshots differ, provided no other key of either snapshot aliases
that slot. -/
theorem bufScan2_true_at {cur tgt : BindingState} {t l : Nat}
    (hbc : bufKeysNodup cur.buffers) (hbt : bufKeysNodup tgt.buffers)
    (hdiff : lookupBuf cur.buffers t l ≠ lookupBuf tgt.buffers t l)
    (halias : ∀ e : BufferBinding,
      (e ∈ cur.buffers ∨ e ∈ tgt.buffers) →
      bufSlot e = (bufCat t, bufBitT t l) →
      e.target = t ∧ e.location = l) :
    getBufMask (bufScan cur.getBufferBinding false
      (bufScan tgt.getBufferBinding false emptyDiff cur.buffers)
      tgt.buffers) (bufCat t) (bufBitT t l) = true := by
  cases htg : lookupBuf tgt.buffers t l with
  | some et =>
    obtain ⟨hmem, ht, hl⟩ := lookupBuf_mem htg
    refine bufScan_const_writer (bufCat_lt t) ⟨et, hmem, ?_⟩
      (fun e2 he2 hw => ?_)
    · constructor
      · rw [ht]
      · rw [bufBit, ht, bufBitT, hl]
    · obtain ⟨h2t, h2l⟩ := halias e2 (Or.inr he2) (by rw [bufSlot, hw.1, hw.2])
      have := lookupBuf_of_mem hbt he2
      rw [h2t, h2l, htg] at this
      obtain rfl : et = e2 := by injection this
      unfold scanVal
      rw [lookupBuf_eq_getBufferBinding, ht, hl]
      have : lookupBuf cur.buffers t l ≠ some et := by rw [← htg] ; exact hdiff
      simp [this]
  | none =>
    obtain ⟨ec, hcu⟩ : ∃ ec, lookupBuf cur.buffers t l = some ec := by
      cases h : lookupBuf cur.buffers t l with
      | none => rw [h, htg] at hdiff ; exact absurd rfl hdiff
      | some ec => exact ⟨ec, rfl⟩
    obtain ⟨hmem, ht, hl⟩ := lookupBuf_mem hcu
    rw [bufScan_no_writer (bufCat_lt t) (fun e2 he2 hw => ?side)]
    case side =>
      obtain ⟨h2t, h2l⟩ := halias e2 (Or.inr he2) (by rw [bufSlot, hw.1, hw.2])
      have := lookupBuf_of_mem hbt he2
      rw [h2t, h2l, htg] at this
      exact absurd this (by simp)
    refine bufScan_const_writer (bufCat_lt t) ⟨ec, hmem, ?_⟩
      (fun e2 he2 hw => ?_)
    · constructor
      · rw [ht]
      · rw [bufBit, ht, bufBitT, hl]
    · obtain ⟨h2t, h2l⟩ := halias e2 (Or.inl he2) (by rw [bufSlot, hw.1, hw.2])
      have := lookupBuf_of_mem hbc he2
      rw [h2t, h2l, hcu] at this
      obtain rfl : ec = e2 := by injection this
      unfold scanVal
      rw [lookupBuf_eq_getBufferBinding, ht, hl, htg]
      simp

/-- The double unit-keyed scan leaves a unit's bit clear when the two
snapshots agree at that unit. -/
theorem kvScan2_false {α : Type} [DecidableEq α] {fC fT : Nat → Option α}
    {Lc Lt : List (Nat × α)} {u : Nat} {m : Mask}
    (hnc : keysNodup Lc) (hnt : keysNodup Lt)
    (hfC : fC u = lookupKV Lc u) (hfT : fT u = lookupKV Lt u)
    (hm : m u = false)
    (hsame : lookupKV Lc u = lookupKV Lt u) :
    kvMaskScan fC false (kvMaskScan fT false m Lc) Lt u = false := by
  refine kvMaskScan_false_at (kvMaskScan_false_at hm (fun e he hk => ?_))
    (fun e he hk => ?_)
  · have := lookupKV_of_mem hnc he
    rw [hk] at this
    unfold kvVal
    rw [hk, hfT, ← hsame, this]
    simp
  · have := lookupKV_of_mem hnt he
    rw [hk] at this
    unfold kvVal
    rw [hk, hfC, hsame, this]
    simp

/-- The double unit-keyed scan sets the bit of a unit at which the two
snapshots differ. -/
theorem kvScan2_true {α : Type} [DecidableEq α] {fC fT : Nat → Option α}
    {Lc Lt : List (Nat × α)} {u : Nat} {m : Mask}
    (hnc : keysNodup Lc) (hnt : keysNodup Lt)
    (hfC : fC u = lookupKV Lc u) (hfT : fT u = lookupKV Lt u)
    (hdiff : lookupKV Lc u ≠ lookupKV Lt u) :
    kvMaskScan fC false (kvMaskScan fT false m Lc) Lt u = true := by
  cases htg : lookupKV Lt u with
  | some vt =>
    refine kvMaskScan_const_writer ⟨(u, vt), lookupKV_mem htg, rfl⟩
      (fun e2 he2 hk => ?_)
    have := lookupKV_of_mem hnt he2
    rw [hk, htg] at this
    unfold kvVal
    rw [hk, hfC]
    have hne : lookupKV Lc u ≠ some e2.2 := by
      rw [← this, ← htg] ; exact hdiff
    simp [hne]
  | none =>
    obtain ⟨vc, hcu⟩ : ∃ vc, lookupKV Lc u = some vc := by
      cases h : lookupKV Lc u with
      | none => rw [h, htg] at hdiff ; exact absurd rfl hdiff
      | some vc => exact ⟨vc, rfl⟩
    rw [kvMaskScan_no_writer (fun e2 he2 hk => ?side)]
    case side =>
      have := lookupKV_of_mem hnt he2
      rw [hk, htg] at this
      exact absurd this (by simp)
    refine kvMaskScan_const_writer ⟨(u, vc), lookupKV_mem hcu, rfl⟩
      (fun e2 he2 hk => ?_)
    unfold kvVal
    rw [hk, hfT, htg]
    simp

/-! ## Claim C6 -/

/-- Claim C6 (amended): for duplicate-key-free snapshots where current
has no stale buffer bindings and the target differs from current at
exactly one key, and no other key of either snapshot aliases that key's
mask slot (automatic for the indexed buffer categories and for texture
and image units; a real restriction only for the shared other-target
mask), `makeDiff(current, target, false)` has exactly one set bit,
located at the differing key's slot in its category's mask, and zero bits
in every other slot of every category. -/
theorem C6_single_key_diff_one_bit (cur tgt : BindingState) (K : BKey)
    (hbc : bufKeysNodup cur.buffers) (hbt : bufKeysNodup tgt.buffers)
    (htc : keysNodup cur.textures) (htt : keysNodup tgt.textures)
    (hic : keysNodup cur.images) (hit : keysNodup tgt.images)
    (hfresh : ∀ e ∈ cur.buffers, bufferChanged e = false)
    (hdiff : differsAt cur tgt K)
    (honly : ∀ K2, differsAt cur tgt K2 → K2 = K)
    (halias : ∀ e : BufferBinding,
      (e ∈ cur.buffers ∨ e ∈ tgt.buffers) →
      bufSlot e = slotOf K → BKey.buf e.target e.location = K)
    (c b : Nat) (hc : c ≤ 6) :
    getMask7 (BindingState.makeDiff cur tgt false) c b
      = decide ((c, b) = slotOf K) := by
  by_cases hK : (c, b) = slotOf K
  · rw [decide_eq_true hK]
    cases K with
    | buf t l =>
      rw [slotOf] at hK
      obtain ⟨hc1, hb1⟩ : c = bufCat t ∧ b = bufBitT t l :=
        ⟨congrArg Prod.fst hK, congrArg Prod.snd hK⟩
      subst hc1 ; subst hb1
      rw [getMask7, if_pos (bufCat_lt t), makeDiff_bufMask]
      refine bufScan2_true_at hbc hbt hdiff (fun e he hs => ?_)
      have := halias e he (by rw [hs, slotOf])
      exact ⟨by injection this, by injection this⟩
    | tex u =>
      have hcb : c = 5 ∧ b = u := by
        rw [slotOf] at hK ; exact ⟨congrArg Prod.fst hK, congrArg Prod.snd hK⟩
      obtain ⟨rfl, rfl⟩ := hcb
      rw [getMask7, if_neg (by omega), if_pos rfl, makeDiff_textures]
      exact kvScan2_true htc htt rfl rfl hdiff
    | img u =>
      have hcb : c = 6 ∧ b = u := by
        rw [slotOf] at hK ; exact ⟨congrArg Prod.fst hK, congrArg Prod.snd hK⟩
      obtain ⟨rfl, rfl⟩ := hcb
      rw [getMask7, if_neg (by omega), if_neg (by omega), makeDiff_images]
      exact kvScan2_true hic hit rfl rfl hdiff
  · rw [decide_eq_false hK]
    by_cases hc5 : c < 5
    · rw [getMask7, if_pos hc5, makeDiff_bufMask]
      refine bufScan2_false_at hc5 hbc hbt hfresh (fun e he hs => ?_)
      by_contra hne
      have hd2 : differsAt cur tgt (BKey.buf e.target e.location) := hne
      have := honly _ hd2
      exact hK (by rw [← this, ← bufSlot_eq_slotOf, hs])
    · by_cases hc6 : c = 5
      · subst hc6
        rw [getMask7, if_neg (by omega), if_pos rfl, makeDiff_textures]
        refine kvScan2_false htc htt rfl rfl rfl ?_
        by_contra hne
        have hd2 : differsAt cur tgt (BKey.tex b) := hne
        have := honly _ hd2
        exact hK (by rw [← this, slotOf])
      · have hc6e : c = 6 := by omega
        subst hc6e
        rw [getMask7, if_neg (by omega), if_neg (by omega), makeDiff_images]
        refine kvScan2_false hic hit rfl rfl rfl ?_
        by_contra hne
        have hd2 : differsAt cur tgt (BKey.img b) := hne
        have := honly _ hd2
        exact hK (by rw [← this, slotOf])

def c6cB : BufferBinding := ⟨GL_ARRAY_BUFFER, 5, some ⟨11, 0, 32⟩, 0, 32⟩

def c6cA : BufferBinding := ⟨GL_ARRAY_BUFFER, 0, some ⟨12, 0, 32⟩, 0, 32⟩

def c6cCur : BindingState := ⟨[c6cB, c6cA], [], []⟩

def c6cTgt : BindingState := ⟨[c6cA], [], []⟩

/-- Counterexample to C6 as stated: current holds fresh array-buffer
bindings at locations 5 and 0, target drops only the location-5 one, so
the snapshots differ in exactly one key; yet the resulting mask has zero
bits set in the key's category (the shared other mask) and everywhere
else, because the unchanged location-0 entry aliases bit 0 and is scanned
after the differing key. -/
theorem C6_counterexample :
    differsAt c6cCur c6cTgt (BKey.buf GL_ARRAY_BUFFER 5)
    ∧ (∀ K2, differsAt c6cCur c6cTgt K2 → K2 = BKey.buf GL_ARRAY_BUFFER 5)
    ∧ (∀ e ∈ c6cCur.buffers, bufferChanged e = false)
    ∧ maskAny (BindingState.makeDiff c6cCur c6cTgt false).other
        otherMaskSize = false
    ∧ maskAny (BindingState.makeDiff c6cCur c6cTgt false).ssbos
        maxBufferBindings = false := by
  refine ⟨by decide, ?_, by decide, by decide, by decide⟩
  intro K2 h
  cases K2 with
  | tex u => exact absurd rfl h
  | img u => exact absurd rfl h
  | buf t l =>
    by_cases hk : t = GL_ARRAY_BUFFER ∧ l = 5
    · rw [hk.1, hk.2]
    · exfalso
      apply h
      show lookupBuf [c6cB, c6cA] t l = lookupBuf [c6cA] t l
      by_cases hk2 : t = GL_ARRAY_BUFFER ∧ l = 0
      · obtain ⟨rfl, rfl⟩ := hk2 ; decide
      · have hpB : (c6cB.target = t ∧ c6cB.location = l) → False := by
          intro hx
          exact hk ⟨hx.1.symm, hx.2.symm⟩
        have hpA : (c6cA.target = t ∧ c6cA.location = l) → False := by
          intro hx
          exact hk2 ⟨hx.1.symm, hx.2.symm⟩
        rw [lookupBuf, lookupBuf,
          List.find?_cons_of_neg _ (by simpa using hpB),
          List.find?_cons_of_neg _ (by simpa using hpA)]

def c6wEntry : BufferBinding := ⟨GL_SHADER_STORAGE_BUFFER, 3, some ⟨7, 0, 64⟩, 0, 64⟩

def c6wTgt : BindingState := ⟨[c6wEntry], [], []⟩

/-- Witness for C6: empty current, one fresh storage-buffer binding at
slot 3 in target; the mask has the storage bit 3 set and storage bit 4
clear. -/
theorem C6_single_key_diff_one_bit_witness :
    differsAt emptyBindingState c6wTgt (BKey.buf GL_SHADER_STORAGE_BUFFER 3)
    ∧ getMask7 (BindingState.makeDiff emptyBindingState c6wTgt false) 0 3
        = decide (((0 : Nat), (3 : Nat))
            = slotOf (BKey.buf GL_SHADER_STORAGE_BUFFER 3))
    ∧ getMask7 (BindingState.makeDiff emptyBindingState c6wTgt false) 0 4
        = decide (((0 : Nat), (4 : Nat))
            = slotOf (BKey.buf GL_SHADER_STORAGE_BUFFER 3)) := by
  have honly : ∀ K2, differsAt emptyBindingState c6wTgt K2 →
      K2 = BKey.buf GL_SHADER_STORAGE_BUFFER 3 := by
    intro K2 h
    cases K2 with
    | tex u => exact absurd rfl h
    | img u => exact absurd rfl h
    | buf t l =>
      by_cases hk : t = GL_SHADER_STORAGE_BUFFER ∧ l = 3
      · rw [hk.1, hk.2]
      · exfalso
        apply h
        have hp : (c6wEntry.target = t ∧ c6wEntry.location = l) → False := by
          intro hx
          exact hk ⟨hx.1.symm, hx.2.symm⟩
        show lookupBuf [] t l = lookupBuf [c6wEntry] t l
        rw [lookupBuf, lookupBuf,
          List.find?_cons_of_neg _ (by simpa using hp)]
  have halias : ∀ e : BufferBinding,
      (e ∈ emptyBindingState.buffers ∨ e ∈ c6wTgt.buffers) →
      bufSlot e = slotOf (BKey.buf GL_SHADER_STORAGE_BUFFER 3) →
      BKey.buf e.target e.location = BKey.buf GL_SHADER_STORAGE_BUFFER 3 := by
    intro e he hs
    rcases he with he | he
    · exact absurd he (List.not_mem_nil e)
    · have : e = c6wEntry := by
        rcases List.mem_cons.mp he with h | h
        · exact h
        · exact absurd h (List.not_mem_nil e)
      rw [this]
      rfl
  refine ⟨by decide, ?_, ?_⟩
  · exact C6_single_key_diff_one_bit emptyBindingState c6wTgt
      (BKey.buf GL_SHADER_STORAGE_BUFFER 3) (by decide) (by decide)
      (by decide) (by decide) (by decide) (by decide) (by decide)
      (by decide) honly halias 0 3 (by omega)
  · exact C6_single_key_diff_one_bit emptyBindingState c6wTgt
      (BKey.buf GL_SHADER_STORAGE_BUFFER 3) (by decide) (by decide)
      (by decide) (by decide) (by decide) (by decide) (by decide)
      (by decide) honly halias 0 4 (by omega)

/-! ## Claim C10 -/

theorem applyOtherSeg_set10 (m : Mask) (v : Bool) (B : List BufferBinding) :
    (if maskAny (m.set 10 v) otherMaskSize then
        applyBufLoop (m.set 10 v) getBufferTargetFromBit (fun _ => 0) B
          (List.range (otherMaskSize - 1))
      else (B, []))
    = (if maskAny m otherMaskSize then
        applyBufLoop m getBufferTargetFromBit (fun _ => 0) B
          (List.range (otherMaskSize - 1))
      else (B, [])) := by
  have hsz : otherMaskSize = 11 := rfl
  have hcongr : applyBufLoop (m.set 10 v) getBufferTargetFromBit (fun _ => 0) B
      (List.range (otherMaskSize - 1))
      = applyBufLoop m getBufferTargetFromBit (fun _ => 0) B
        (List.range (otherMaskSize - 1)) := by
    refine applyBufLoop_congr _ _ _ _ (fun i hi => ?_)
    rw [List.mem_range, hsz] at hi
    exact Mask.set_other m 10 v (by omega)
  by_cases hL : maskAny (m.set 10 v) otherMaskSize = true
  · by_cases hR : maskAny m otherMaskSize = true
    · rw [if_pos hL, if_pos hR, hcongr]
    · have hRf : maskAny m otherMaskSize = false := by simpa using hR
      rw [if_pos hL, if_neg hR]
      have hall := maskAny_eq_false.mp hRf
      refine applyBufLoop_none _ _ _ _ (fun i hi => ?_)
      rw [List.mem_range, hsz] at hi
      rw [Mask.set_other m 10 v (by omega)]
      exact hall i (by omega)
  · by_cases hR : maskAny m otherMaskSize = true
    · have hLf : maskAny (m.set 10 v) otherMaskSize = false := by simpa using hL
      rw [if_neg hL, if_pos hR]
      have hall := maskAny_eq_false.mp hLf
      symm
      refine applyBufLoop_none _ _ _ _ (fun i hi => ?_)
      rw [List.mem_range, hsz] at hi
      have := hall i (by omega)
      rwa [Mask.set_other m 10 v (by omega)] at this
    · rw [if_neg hL, if_neg hR]

/-- Claim C10: the apply step never issues a driver call for the sentinel
bit (position 10) of the shared other mask: overwriting that bit in any
diff leaves both the resulting snapshot and the issued call list
unchanged, because the other-mask loop only iterates positions
`0..size()-2`; and `getBufferTargetFromBit` maps the sentinel position
back to `GL_ARRAY_BUFFER`. -/
theorem C10_sentinel_other_bit_skipped (st : BindingState) (d : StateDiff_t)
    (v : Bool) :
    BindingState.apply st
        ⟨d.ssbos, d.ubos, d.acbos, d.tfbos, d.other.set 10 v, d.textures,
          d.images⟩
      = BindingState.apply st d
    ∧ getBufferTargetFromBit 10 = GL_ARRAY_BUFFER := by
  constructor
  · simp only [BindingState.apply]
    rw [applyOtherSeg_set10]
  · rfl

/-! ## Claim C8 -/

/-- Claim C8: a buffer entry whose target is not one of the recognized
enumerable targets (and not one of the four indexed targets) is mapped by
the diff engine to the sentinel bit 10 of the shared other mask, and
`getBufferTargetBit` emits a diagnostic warning for it; the functions are
total, so processing continues and is never fatal. -/
theorem C8_unknown_target_sentinel
    (lookup : Nat → Nat → Option BufferBinding) (forced : Bool)
    (d : StateDiff_t) (e : BufferBinding)
    (h1 : e.target ∉ recognizedBufferTargets)
    (h2 : e.target ∉ indexedBufferTargets) :
    getBufferTargetBitW e.target = (10, true)
    ∧ scanBufEntry lookup forced d e
        = setBufMask d 4 10 (scanVal lookup forced e) := by
  have hw := getBufferTargetBitW_unknown h1
  have hc := bufCat_of_not_indexed h2
  refine ⟨hw, ?_⟩
  have hbit : bufBit e = 10 := by
    simp [bufBit, hc, getBufferTargetBit, hw]
  rw [scanBufEntry, hc, hbit]

def c8Entry : BufferBinding := ⟨0x1234, 0, none, 0, 0⟩

/-- Witness for C8 at the concrete unknown target 0x1234. -/
theorem C8_unknown_target_sentinel_witness :
    getBufferTargetBitW 0x1234 = (10, true)
    ∧ scanBufEntry (fun _ _ => none) false emptyDiff c8Entry
        = setBufMask emptyDiff 4 10
            (scanVal (fun _ _ => none) false c8Entry) :=
  C8_unknown_target_sentinel (fun _ _ => none) false emptyDiff c8Entry
    (by decide) (by decide)

/-! ## Claim C2 -/

/-- Case analysis of `bindOrRemoveBuffer`: absent key does nothing, live
entry is refreshed and bound, null entry is erased and unbound. -/
theorem bindOrRemove_cases (B : List BufferBinding)
    (t l : Nat) :
    (lookupBuf B t l = none → bindOrRemoveBuffer B t l = (B, []))
    ∧ (∀ e b, lookupBuf B t l = some e → e.buffer = some b →
        bindOrRemoveBuffer B t l
          = (replaceBufKey B t l (refreshBinding e b),
             [DriverCall.bindBuffer t l b.id]))
    ∧ (∀ e, lookupBuf B t l = some e → e.buffer = none →
        bindOrRemoveBuffer B t l
          = (eraseBufKey B t l, [DriverCall.unbindBuffer t l])) := by
  induction B with
  | nil =>
    refine ⟨fun _ => rfl, fun e b h => ?_, fun e h => ?_⟩ <;>
      simp [lookupBuf] at h
  | cons e0 rest ih =>
    by_cases hk : e0.target = t ∧ e0.location = l
    · have hfind : lookupBuf (e0 :: rest) t l = some e0 := by
        simp [lookupBuf, List.find?_cons_of_pos, hk]
      refine ⟨fun h => ?_, fun e b h hb => ?_, fun e h hb => ?_⟩
      · rw [hfind] at h ; exact absurd h (by simp)
      · rw [hfind] at h
        obtain rfl : e0 = e := by injection h
        simp only [bindOrRemoveBuffer, if_pos hk, hb, replaceBufKey]
      · rw [hfind] at h
        obtain rfl : e0 = e := by injection h
        simp [bindOrRemoveBuffer, if_pos hk, hb, eraseBufKey,
          List.eraseP_cons, hk.1, hk.2]
    · have hfind : lookupBuf (e0 :: rest) t l = lookupBuf rest t l := by
        simp only [lookupBuf]
        exact List.find?_cons_of_neg _ (by simpa using hk)
      have hstep : bindOrRemoveBuffer (e0 :: rest) t l
          = (e0 :: (bindOrRemoveBuffer rest t l).1,
             (bindOrRemoveBuffer rest t l).2) := by
        simp only [bindOrRemoveBuffer, if_neg hk]
      refine ⟨fun h => ?_, fun e b h hb => ?_, fun e h hb => ?_⟩
      · rw [hfind] at h
        rw [hstep, ih.1 h]
      · rw [hfind] at h
        rw [hstep, ih.2.1 e b h hb]
        simp only [replaceBufKey, if_neg hk]
      · rw [hfind] at h
        rw [hstep, ih.2.2 e h hb]
        simp [eraseBufKey, List.eraseP_cons, hk]

theorem bindOrRemove_absent {B : List BufferBinding} {t l : Nat}
    (h : lookupBuf B t l = none) : bindOrRemoveBuffer B t l = (B, []) :=
  (bindOrRemove_cases B t l).1 h

theorem bindOrRemove_live {B : List BufferBinding} {t l : Nat}
    {e : BufferBinding} {b : BufferObject}
    (h : lookupBuf B t l = some e) (hb : e.buffer = some b) :
    bindOrRemoveBuffer B t l
      = (replaceBufKey B t l (refreshBinding e b),
         [DriverCall.bindBuffer t l b.id]) :=
  (bindOrRemove_cases B t l).2.1 e b h hb

theorem bindOrRemove_null {B : List BufferBinding} {t l : Nat}
    {e : BufferBinding}
    (h : lookupBuf B t l = some e) (hb : e.buffer = none) :
    bindOrRemoveBuffer B t l
      = (eraseBufKey B t l, [DriverCall.unbindBuffer t l]) :=
  (bindOrRemove_cases B t l).2.2 e h hb

/-- Claim C2 (amended): `bindOrRemoveBuffer` looks the slot's key up in
the snapshot it mutates; a present live entry issues one bind call and
refreshes the cached offset/size, a present null entry issues one unbind
call and is erased, and an absent key issues no driver call and leaves the
snapshot unchanged. -/
theorem C2_bindOrRemove_characterization (B : List BufferBinding)
    (t l : Nat) :
    (lookupBuf B t l = none → bindOrRemoveBuffer B t l = (B, []))
    ∧ (∀ e b, lookupBuf B t l = some e → e.buffer = some b →
        bindOrRemoveBuffer B t l
          = (replaceBufKey B t l (refreshBinding e b),
             [DriverCall.bindBuffer t l b.id]))
    ∧ (∀ e, lookupBuf B t l = some e → e.buffer = none →
        bindOrRemoveBuffer B t l
          = (eraseBufKey B t l, [DriverCall.unbindBuffer t l])) :=
  bindOrRemove_cases B t l

def c2wEntry : BufferBinding := ⟨GL_UNIFORM_BUFFER, 1, none, 0, 0⟩

/-- Witness for C2: a present null entry at uniform-buffer slot 1 is
erased and issues one unbind call. -/
theorem C2_bindOrRemove_characterization_witness :
    lookupBuf [c2wEntry] GL_UNIFORM_BUFFER 1 = some c2wEntry
    ∧ bindOrRemoveBuffer [c2wEntry] GL_UNIFORM_BUFFER 1
        = (eraseBufKey [c2wEntry] GL_UNIFORM_BUFFER 1,
           [DriverCall.unbindBuffer GL_UNIFORM_BUFFER 1]) :=
  ⟨by decide,
   (C2_bindOrRemove_characterization [c2wEntry] GL_UNIFORM_BUFFER 1).2.2
     c2wEntry (by decide) rfl⟩

def c2cDiff : StateDiff_t := { emptyDiff with ssbos := fun i => decide (i = 2) }

/-- Counterexample to C2 as stated: a set change-mask bit (storage slot 2)
whose key is absent from the snapshot issues no driver call at all and
removes nothing, where the claim demands one unbind call and an entry
removal. -/
theorem C2_counterexample :
    c2cDiff.ssbos 2 = true
    ∧ BindingState.getBufferBinding emptyBindingState GL_SHADER_STORAGE_BUFFER 2
        = none
    ∧ BindingState.apply emptyBindingState c2cDiff = (emptyBindingState, []) :=
  ⟨rfl, rfl, rfl⟩

/-! ## Claim C7: emission order of driver calls -/

/-- The cross-category rank of a driver call: the five buffer categories
in source order (storage, uniform, atomic-counter, transform-feedback,
shared other mask), then textures, then images. -/
def callRank : DriverCall → Nat
  | DriverCall.bindBuffer t _ _ => bufCat t
  | DriverCall.unbindBuffer t _ => bufCat t
  | DriverCall.bindTexture _ _ => 5
  | DriverCall.bindImage _ _ _ _ _ _ _ => 6

/-- The within-category slot/unit index of a driver call. -/
def callIdx : DriverCall → Nat
  | DriverCall.bindBuffer t l _ =>
    if bufCat t < 4 then l else getBufferTargetBit t
  | DriverCall.unbindBuffer t l =>
    if bufCat t < 4 then l else getBufferTargetBit t
  | DriverCall.bindTexture u _ => u
  | DriverCall.bindImage u _ _ _ _ _ _ => u

/-- Strict emission order: strictly earlier category, or same category
and strictly lower slot index. -/
def callLt (a b : DriverCall) : Prop :=
  callRank a < callRank b ∨ (callRank a = callRank b ∧ callIdx a < callIdx b)

theorem pairwise_callLt_of_idx {L : List DriverCall} {r : Nat}
    (hr : ∀ c ∈ L, callRank c = r)
    (hidx : List.Pairwise (fun a b => callIdx a < callIdx b) L) :
    List.Pairwise callLt L := by
  refine hidx.imp_of_mem ?_
  intro a b ha hb hab
  exact Or.inr ⟨(hr a ha).trans (hr b hb).symm, hab⟩

theorem pairwise_callLt_glue (r : Nat) {L1 L2 : List DriverCall}
    (h1 : List.Pairwise callLt L1) (h2 : List.Pairwise callLt L2)
    (hr1 : ∀ c ∈ L1, callRank c < r) (hr2 : ∀ c ∈ L2, r ≤ callRank c) :
    List.Pairwise callLt (L1 ++ L2) := by
  refine List.pairwise_append.mpr ⟨h1, h2, fun a ha b hb => Or.inl ?_⟩
  exact lt_of_lt_of_le (hr1 a ha) (hr2 b hb)

theorem rank_lt_append {L1 L2 : List DriverCall} {r : Nat}
    (h1 : ∀ c ∈ L1, callRank c < r) (h2 : ∀ c ∈ L2, callRank c < r) :
    ∀ c ∈ L1 ++ L2, callRank c < r := by
  intro c hc
  rcases List.mem_append.mp hc with h | h
  · exact h1 c h
  · exact h2 c h

theorem bindOrRemoveBuffer_calls_shape (B : List BufferBinding) (t l : Nat) :
    (bindOrRemoveBuffer B t l).2 = []
    ∨ (∃ id, (bindOrRemoveBuffer B t l).2 = [DriverCall.bindBuffer t l id])
    ∨ (bindOrRemoveBuffer B t l).2 = [DriverCall.unbindBuffer t l] := by
  induction B with
  | nil => exact Or.inl rfl
  | cons e rest ih =>
    by_cases hk : e.target = t ∧ e.location = l
    · cases hb : e.buffer with
      | some b =>
        exact Or.inr (Or.inl ⟨b.id, by simp only [bindOrRemoveBuffer,
          if_pos hk, hb]⟩)
      | none =>
        exact Or.inr (Or.inr (by simp only [bindOrRemoveBuffer,
          if_pos hk, hb]))
    · simpa only [bindOrRemoveBuffer, if_neg hk] using ih

theorem applyBufLoop_calls {mask : Mask} {tOf lOf : Nat → Nat}
    {B : List BufferBinding} {idxs : List Nat} :
    ∀ c ∈ (applyBufLoop mask tOf lOf B idxs).2, ∃ i ∈ idxs,
      (∃ id, c = DriverCall.bindBuffer (tOf i) (lOf i) id)
      ∨ c = DriverCall.unbindBuffer (tOf i) (lOf i) := by
  induction idxs generalizing B with
  | nil => intro c hc ; exact absurd hc (List.not_mem_nil c)
  | cons i rest ih =>
    intro c hc
    rw [applyBufLoop] at hc
    by_cases hm : mask i = true
    · rw [if_pos hm] at hc
      dsimp only at hc
      rcases List.mem_append.mp hc with h | h
      · rcases bindOrRemoveBuffer_calls_shape B (tOf i) (lOf i) with
          h0 | ⟨id, h1⟩ | h2
        · rw [h0] at h ; exact absurd h (List.not_mem_nil c)
        · rw [h1] at h
          have := List.mem_singleton.mp h
          exact ⟨i, List.mem_cons_self i rest, Or.inl ⟨id, this⟩⟩
        · rw [h2] at h
          have := List.mem_singleton.mp h
          exact ⟨i, List.mem_cons_self i rest, Or.inr this⟩
      · obtain ⟨j, hj, hs⟩ := ih c h
        exact ⟨j, List.mem_cons_of_mem i hj, hs⟩
    · rw [if_neg hm] at hc
      obtain ⟨j, hj, hs⟩ := ih c hc
      exact ⟨j, List.mem_cons_of_mem i hj, hs⟩

theorem applyBufLoop_pairwise_idx {mask : Mask} {tOf lOf : Nat → Nat}
    {idxs : List Nat}
    (hinj : ∀ i ∈ idxs, ∀ c : DriverCall,
      ((∃ id, c = DriverCall.bindBuffer (tOf i) (lOf i) id)
        ∨ c = DriverCall.unbindBuffer (tOf i) (lOf i)) → callIdx c = i)
    (hsort : List.Pairwise (· < ·) idxs) :
    ∀ B, List.Pairwise (fun a b => callIdx a < callIdx b)
      (applyBufLoop mask tOf lOf B idxs).2 := by
  induction idxs with
  | nil => intro B ; exact List.Pairwise.nil
  | cons i rest ih =>
    intro B
    obtain ⟨hlt, hrest⟩ := List.pairwise_cons.mp hsort
    have hinjr : ∀ j ∈ rest, ∀ c : DriverCall,
        ((∃ id, c = DriverCall.bindBuffer (tOf j) (lOf j) id)
          ∨ c = DriverCall.unbindBuffer (tOf j) (lOf j)) → callIdx c = j :=
      fun j hj => hinj j (List.mem_cons_of_mem i hj)
    rw [applyBufLoop]
    by_cases hm : mask i = true
    · rw [if_pos hm]
      dsimp only
      refine List.pairwise_append.mpr ⟨?_, ih hinjr hrest _, ?_⟩
      · rcases bindOrRemoveBuffer_calls_shape B (tOf i) (lOf i) with
          h | ⟨id, h⟩ | h <;> rw [h] <;> simp
      · intro a ha b hb
        have hia : callIdx a = i := by
          rcases bindOrRemoveBuffer_calls_shape B (tOf i) (lOf i) with
            h0 | ⟨id, h1⟩ | h2
          · rw [h0] at ha ; exact absurd ha (List.not_mem_nil a)
          · rw [h1] at ha
            exact hinj i (List.mem_cons_self i rest) a
              (Or.inl ⟨id, List.mem_singleton.mp ha⟩)
          · rw [h2] at ha
            exact hinj i (List.mem_cons_self i rest) a
              (Or.inr (List.mem_singleton.mp ha))
        obtain ⟨j, hj, hs⟩ := applyBufLoop_calls b hb
        have hjb : callIdx b = j := hinjr j hj b hs
        rw [hia, hjb]
        exact hlt j hj
    · rw [if_neg hm]
      exact ih hinjr hrest B

theorem applyTexLoop_calls {mask : Mask} {T : List (Nat × Option Texture)}
    {idxs : List Nat} :
    ∀ c ∈ (applyTexLoop mask T idxs).2, ∃ i ∈ idxs, ∃ g,
      c = DriverCall.bindTexture i g := by
  induction idxs generalizing T with
  | nil => intro c hc ; exact absurd hc (List.not_mem_nil c)
  | cons i rest ih =>
    intro c hc
    rw [applyTexLoop] at hc
    by_cases hm : mask i = true
    · rw [if_pos hm] at hc
      cases hl : lookupKV T i with
      | none =>
        rw [hl] at hc
        obtain ⟨j, hj, hs⟩ := ih c hc
        exact ⟨j, List.mem_cons_of_mem i hj, hs⟩
      | some v =>
        rw [hl] at hc
        cases v with
        | some tex =>
          dsimp only at hc
          rcases List.mem_cons.mp hc with rfl | h
          · exact ⟨i, List.mem_cons_self i rest, tex.glId, rfl⟩
          · obtain ⟨j, hj, hs⟩ := ih c h
            exact ⟨j, List.mem_cons_of_mem i hj, hs⟩
        | none =>
          dsimp only at hc
          rcases List.mem_cons.mp hc with rfl | h
          · exact ⟨i, List.mem_cons_self i rest, 0, rfl⟩
          · obtain ⟨j, hj, hs⟩ := ih c h
            exact ⟨j, List.mem_cons_of_mem i hj, hs⟩
    · rw [if_neg hm] at hc
      obtain ⟨j, hj, hs⟩ := ih c hc
      exact ⟨j, List.mem_cons_of_mem i hj, hs⟩

theorem applyTexLoop_pairwise_idx {mask : Mask} {idxs : List Nat}
    (hsort : List.Pairwise (· < ·) idxs) :
    ∀ T, List.Pairwise (fun a b => callIdx a < callIdx b)
      (applyTexLoop mask T idxs).2 := by
  induction idxs with
  | nil => intro T ; exact List.Pairwise.nil
  | cons i rest ih =>
    intro T
    obtain ⟨hlt, hrest⟩ := List.pairwise_cons.mp hsort
    rw [applyTexLoop]
    by_cases hm : mask i = true
    · rw [if_pos hm]
      cases hl : lookupKV T i with
      | none => exact ih hrest T
      | some v =>
        cases v with
        | some tex =>
          dsimp only
          refine List.Pairwise.cons (fun b hb => ?_) (ih hrest T)
          obtain ⟨j, hj, g, rfl⟩ := applyTexLoop_calls b hb
          simpa [callIdx] using hlt j hj
        | none =>
          dsimp only
          refine List.Pairwise.cons (fun b hb => ?_) (ih hrest _)
          obtain ⟨j, hj, g, rfl⟩ := applyTexLoop_calls b hb
          simpa [callIdx] using hlt j hj
    · rw [if_neg hm]
      exact ih hrest T

theorem applyImgLoop_calls {mask : Mask}
    {M : List (Nat × ImageBindParameters)} {idxs : List Nat} :
    ∀ c ∈ (applyImgLoop mask M idxs).2, ∃ i ∈ idxs,
      ∃ g lv ly la ac fo, c = DriverCall.bindImage i g lv ly la ac fo := by
  induction idxs generalizing M with
  | nil => intro c hc ; exact absurd hc (List.not_mem_nil c)
  | cons i rest ih =>
    intro c hc
    rw [applyImgLoop] at hc
    by_cases hm : mask i = true
    · rw [if_pos hm] at hc
      cases hl : lookupKV M i with
      | none =>
        rw [hl] at hc
        obtain ⟨j, hj, hs⟩ := ih c hc
        exact ⟨j, List.mem_cons_of_mem i hj, hs⟩
      | some p =>
        rw [hl] at hc
        dsimp only at hc
        cases hp : p.texture with
        | some tex =>
          rw [hp] at hc
          dsimp only at hc
          rcases List.mem_cons.mp hc with rfl | h
          · exact ⟨i, List.mem_cons_self i rest, _, _, _, _, _, _, rfl⟩
          · obtain ⟨j, hj, hs⟩ := ih c h
            exact ⟨j, List.mem_cons_of_mem i hj, hs⟩
        | none =>
          rw [hp] at hc
          dsimp only at hc
          rcases List.mem_cons.mp hc with rfl | h
          · exact ⟨i, List.mem_cons_self i rest, _, _, _, _, _, _, rfl⟩
          · obtain ⟨j, hj, hs⟩ := ih c h
            exact ⟨j, List.mem_cons_of_mem i hj, hs⟩
    · rw [if_neg hm] at hc
      obtain ⟨j, hj, hs⟩ := ih c hc
      exact ⟨j, List.mem_cons_of_mem i hj, hs⟩

theorem applyImgLoop_pairwise_idx {mask : Mask} {idxs : List Nat}
    (hsort : List.Pairwise (· < ·) idxs) :
    ∀ M, List.Pairwise (fun a b => callIdx a < callIdx b)
      (applyImgLoop mask M idxs).2 := by
  induction idxs with
  | nil => intro M ; exact List.Pairwise.nil
  | cons i rest ih =>
    intro M
    obtain ⟨hlt, hrest⟩ := List.pairwise_cons.mp hsort
    rw [applyImgLoop]
    by_cases hm : mask i = true
    · rw [if_pos hm]
      cases hl : lookupKV M i with
      | none => exact ih hrest M
      | some p =>
        dsimp only
        cases hp : p.texture with
        | some tex =>
          dsimp only
          refine List.Pairwise.cons (fun b hb => ?_) (ih hrest M)
          obtain ⟨j, hj, g, lv, ly, la, ac, fo, rfl⟩ := applyImgLoop_calls b hb
          simpa [callIdx] using hlt j hj
        | none =>
          dsimp only
          refine List.Pairwise.cons (fun b hb => ?_) (ih hrest _)
          obtain ⟨j, hj, g, lv, ly, la, ac, fo, rfl⟩ := applyImgLoop_calls b hb
          simpa [callIdx] using hlt j hj
    · rw [if_neg hm]
      exact ih hrest M

/-- Ordering facts for one guarded buffer loop of `apply`: its calls are
emitted in strictly ascending slot order and all carry the category's
rank. -/
theorem bufSeg_facts (cond : Bool) (mask : Mask) (tOf lOf : Nat → Nat)
    (w : Nat) (B : List BufferBinding) (r : Nat)
    (hrnk : ∀ i ∈ List.range w, bufCat (tOf i) = r)
    (hix : ∀ i ∈ List.range w,
      (if bufCat (tOf i) < 4 then lOf i else getBufferTargetBit (tOf i))
        = i) :
    List.Pairwise callLt
      ((if cond then applyBufLoop mask tOf lOf B (List.range w)
        else (B, [])).2)
    ∧ ∀ c ∈ (if cond then applyBufLoop mask tOf lOf B (List.range w)
        else (B, [])).2, callRank c = r := by
  cases cond with
  | false => simp
  | true =>
    simp only [if_pos]
    have hrank : ∀ c ∈ (applyBufLoop mask tOf lOf B (List.range w)).2,
        callRank c = r := by
      intro c hc
      obtain ⟨i, hi, hs⟩ := applyBufLoop_calls c hc
      rcases hs with ⟨id, rfl⟩ | rfl
      · simp only [callRank] ; exact hrnk i hi
      · simp only [callRank] ; exact hrnk i hi
    have hinj : ∀ i ∈ List.range w, ∀ c : DriverCall,
        ((∃ id, c = DriverCall.bindBuffer (tOf i) (lOf i) id)
          ∨ c = DriverCall.unbindBuffer (tOf i) (lOf i)) →
        callIdx c = i := by
      intro i hi c hs
      rcases hs with ⟨id, rfl⟩ | rfl
      · simp only [callIdx] ; exact hix i hi
      · simp only [callIdx] ; exact hix i hi
    exact ⟨pairwise_callLt_of_idx hrank
      (applyBufLoop_pairwise_idx hinj (List.pairwise_lt_range w) B), hrank⟩

/-- Ordering facts for the guarded texture loop of `apply`. -/
theorem texSeg_facts (cond : Bool) (mask : Mask)
    (T : List (Nat × Option Texture)) (w : Nat) :
    List.Pairwise callLt
      ((if cond then applyTexLoop mask T (List.range w) else (T, [])).2)
    ∧ ∀ c ∈ (if cond then applyTexLoop mask T (List.range w)
        else (T, [])).2, callRank c = 5 := by
  cases cond with
  | false => simp
  | true =>
    simp only [if_pos]
    have hrank : ∀ c ∈ (applyTexLoop mask T (List.range w)).2,
        callRank c = 5 := by
      intro c hc
      obtain ⟨i, hi, g, rfl⟩ := applyTexLoop_calls c hc
      rfl
    exact ⟨pairwise_callLt_of_idx hrank
      (applyTexLoop_pairwise_idx (List.pairwise_lt_range w) T), hrank⟩

/-- Ordering facts for the guarded image loop of `apply`. -/
theorem imgSeg_facts (cond : Bool) (mask : Mask)
    (M : List (Nat × ImageBindParameters)) (w : Nat) :
    List.Pairwise callLt
      ((if cond then applyImgLoop mask M (List.range w) else (M, [])).2)
    ∧ ∀ c ∈ (if cond then applyImgLoop mask M (List.range w)
        else (M, [])).2, callRank c = 6 := by
  cases cond with
  | false => simp
  | true =>
    simp only [if_pos]
    have hrank : ∀ c ∈ (applyImgLoop mask M (List.range w)).2,
        callRank c = 6 := by
      intro c hc
      obtain ⟨i, hi, g, lv, ly, la, ac, fo, rfl⟩ := applyImgLoop_calls c hc
      rfl
    exact ⟨pairwise_callLt_of_idx hrank
      (applyImgLoop_pairwise_idx (List.pairwise_lt_range w) M), hrank⟩

/-- Claim C7: for every change mask and snapshot, the call list emitted
by apply is strictly ordered by the fixed cross-category order (storage,
uniform, atomic-counter, transform-feedback, shared other mask, then
textures, then images) with ascending slot/unit index inside each
category; in particular a call of a later category is never issued before
a call of an earlier one. -/
theorem C7_call_order (st : BindingState) (d : StateDiff_t) :
    List.Pairwise callLt (BindingState.apply st d).2 := by
  simp only [BindingState.apply]
  have hS := fun B => bufSeg_facts (maskAny d.ssbos maxBufferBindings)
    d.ssbos (fun _ => GL_SHADER_STORAGE_BUFFER) (fun i => i)
    maxBufferBindings B 0
    (fun i _ => by show bufCat GL_SHADER_STORAGE_BUFFER = 0 ; decide)
    (fun i _ => by
      show (if bufCat GL_SHADER_STORAGE_BUFFER < 4 then i
        else getBufferTargetBit GL_SHADER_STORAGE_BUFFER) = i
      rw [if_pos (by decide)])
  have hU := fun B => bufSeg_facts (maskAny d.ubos maxBufferBindings)
    d.ubos (fun _ => GL_UNIFORM_BUFFER) (fun i => i) maxBufferBindings B 1
    (fun i _ => by show bufCat GL_UNIFORM_BUFFER = 1 ; decide)
    (fun i _ => by
      show (if bufCat GL_UNIFORM_BUFFER < 4 then i
        else getBufferTargetBit GL_UNIFORM_BUFFER) = i
      rw [if_pos (by decide)])
  have hA := fun B => bufSeg_facts (maskAny d.acbos maxBufferBindings)
    d.acbos (fun _ => GL_ATOMIC_COUNTER_BUFFER) (fun i => i)
    maxBufferBindings B 2
    (fun i _ => by show bufCat GL_ATOMIC_COUNTER_BUFFER = 2 ; decide)
    (fun i _ => by
      show (if bufCat GL_ATOMIC_COUNTER_BUFFER < 4 then i
        else getBufferTargetBit GL_ATOMIC_COUNTER_BUFFER) = i
      rw [if_pos (by decide)])
  have hT := fun B => bufSeg_facts (maskAny d.tfbos maxBufferBindings)
    d.tfbos (fun _ => GL_TRANSFORM_FEEDBACK_BUFFER) (fun i => i)
    maxBufferBindings B 3
    (fun i _ => by show bufCat GL_TRANSFORM_FEEDBACK_BUFFER = 3 ; decide)
    (fun i _ => by
      show (if bufCat GL_TRANSFORM_FEEDBACK_BUFFER < 4 then i
        else getBufferTargetBit GL_TRANSFORM_FEEDBACK_BUFFER) = i
      rw [if_pos (by decide)])
  have hO := fun B => bufSeg_facts (maskAny d.other otherMaskSize) d.other
    getBufferTargetFromBit (fun _ => 0) (otherMaskSize - 1) B 4
    (fun i hi => by
      rw [List.mem_range] at hi
      have hi10 : i < 10 := hi
      interval_cases i <;> decide)
    (fun i hi => by
      rw [List.mem_range] at hi
      have hi10 : i < 10 := hi
      interval_cases i <;> decide)
  have hTex := texSeg_facts (maskAny d.textures maxTextureBindings)
    d.textures st.textures maxTextureBindings
  have hImg := imgSeg_facts (maskAny d.images maxImageBindings)
    d.images st.images maxImageBindings
  refine pairwise_callLt_glue 6 ?_ hImg.1 ?_
    (fun c hc => by have h := hImg.2 c hc ; omega)
  case refine_2 =>
    exact rank_lt_append (rank_lt_append (rank_lt_append (rank_lt_append
      (rank_lt_append (fun c hc => by have h := (hS _).2 c hc ; omega)
        (fun c hc => by have h := (hU _).2 c hc ; omega))
      (fun c hc => by have h := (hA _).2 c hc ; omega))
      (fun c hc => by have h := (hT _).2 c hc ; omega))
      (fun c hc => by have h := (hO _).2 c hc ; omega))
      (fun c hc => by have h := hTex.2 c hc ; omega)
  refine pairwise_callLt_glue 5 ?_ hTex.1 ?_
    (fun c hc => by have h := hTex.2 c hc ; omega)
  case refine_2 =>
    exact rank_lt_append (rank_lt_append (rank_lt_append (rank_lt_append
      (fun c hc => by have h := (hS _).2 c hc ; omega)
      (fun c hc => by have h := (hU _).2 c hc ; omega))
      (fun c hc => by have h := (hA _).2 c hc ; omega))
      (fun c hc => by have h := (hT _).2 c hc ; omega))
      (fun c hc => by have h := (hO _).2 c hc ; omega)
  refine pairwise_callLt_glue 4 ?_ (hO _).1 ?_
    (fun c hc => by have h := (hO _).2 c hc ; omega)
  case refine_2 =>
    exact rank_lt_append (rank_lt_append (rank_lt_append
      (fun c hc => by have h := (hS _).2 c hc ; omega)
      (fun c hc => by have h := (hU _).2 c hc ; omega))
      (fun c hc => by have h := (hA _).2 c hc ; omega))
      (fun c hc => by have h := (hT _).2 c hc ; omega)
  refine pairwise_callLt_glue 3 ?_ (hT _).1 ?_
    (fun c hc => by have h := (hT _).2 c hc ; omega)
  case refine_2 =>
    exact rank_lt_append (rank_lt_append
      (fun c hc => by have h := (hS _).2 c hc ; omega)
      (fun c hc => by have h := (hU _).2 c hc ; omega))
      (fun c hc => by have h := (hA _).2 c hc ; omega)
  refine pairwise_callLt_glue 2 ?_ (hA _).1 ?_
    (fun c hc => by have h := (hA _).2 c hc ; omega)
  case refine_2 =>
    exact rank_lt_append
      (fun c hc => by have h := (hS _).2 c hc ; omega)
      (fun c hc => by have h := (hU _).2 c hc ; omega)
  exact pairwise_callLt_glue 1 (hS _).1 (hU _).1
    (fun c hc => by have h := (hS _).2 c hc ; omega)
    (fun c hc => by have h := (hU _).2 c hc ; omega)

/-! ## Forced scans and call accounting (for the forced-completeness claim) -/

theorem scanVal_forced (f : Nat → Nat → Option BufferBinding)
    (e : BufferBinding) : scanVal f true e = true := by
  simp [scanVal]

theorem bufScan_forced_mem {f : Nat → Nat → Option BufferBinding}
    {d : StateDiff_t} {L : List BufferBinding} {e : BufferBinding}
    (he : e ∈ L) :
    getBufMask (bufScan f true d L) (bufCat e.target) (bufBit e) = true :=
  bufScan_const_writer (bufCat_lt e.target) ⟨e, he, rfl, rfl⟩
    (fun e2 _ _ => scanVal_forced f e2)

theorem bufScan_forced_preserve {f : Nat → Nat → Option BufferBinding}
    {d : StateDiff_t} {L : List BufferBinding} {c b : Nat} (hc : c < 5)
    (hd : getBufMask d c b = true) :
    getBufMask (bufScan f true d L) c b = true := by
  by_cases hw : ∃ e ∈ L, bufCat e.target = c ∧ bufBit e = b
  · exact bufScan_const_writer hc hw (fun e2 _ _ => scanVal_forced f e2)
  · push_neg at hw
    rw [bufScan_no_writer hc (fun e he h2 => hw e he h2.1 h2.2), hd]

theorem kvVal_forced {α : Type} [DecidableEq α] (f : Nat → Option α)
    (e : Nat × α) : kvVal f true e = true := by
  simp [kvVal]

theorem kvMaskScan_forced_mem {α : Type} [DecidableEq α] {f : Nat → Option α}
    {m : Mask} {L : List (Nat × α)} {e : Nat × α} (he : e ∈ L) :
    kvMaskScan f true m L e.1 = true :=
  kvMaskScan_const_writer ⟨e, he, rfl⟩ (fun e2 _ _ => kvVal_forced f e2)

theorem kvMaskScan_forced_preserve {α : Type} [DecidableEq α]
    {f : Nat → Option α} {m : Mask} {L : List (Nat × α)} {u : Nat}
    (hm : m u = true) : kvMaskScan f true m L u = true := by
  by_cases hw : ∃ e ∈ L, e.1 = u
  · exact kvMaskScan_const_writer hw (fun e2 _ _ => kvVal_forced f e2)
  · push_neg at hw
    rw [kvMaskScan_no_writer hw, hm]

/-- A buffer binding the apply loops can actually reach: indexed bindings
below the mask width, other-category bindings at location 0 with a
recognized target. -/
def wellPlaced (e : BufferBinding) : Prop :=
  if bufCat e.target < 4 then e.location < maxBufferBindings
  else e.location = 0 ∧ getBufferTargetBit e.target < 10

instance (e : BufferBinding) : Decidable (wellPlaced e) := by
  unfold wellPlaced ; infer_instance

theorem targetFromBit_targetBit {t : Nat} (h : getBufferTargetBit t < 10) :
    getBufferTargetFromBit (getBufferTargetBit t) = t := by
  by_cases h0 : t = GL_ARRAY_BUFFER
  · subst h0 ; decide
  by_cases h1 : t = GL_COPY_READ_BUFFER
  · subst h1 ; decide
  by_cases h2 : t = GL_COPY_WRITE_BUFFER
  · subst h2 ; decide
  by_cases h3 : t = GL_DISPATCH_INDIRECT_BUFFER
  · subst h3 ; decide
  by_cases h4 : t = GL_DRAW_INDIRECT_BUFFER
  · subst h4 ; decide
  by_cases h5 : t = GL_ELEMENT_ARRAY_BUFFER
  · subst h5 ; decide
  by_cases h6 : t = GL_PIXEL_PACK_BUFFER
  · subst h6 ; decide
  by_cases h7 : t = GL_PIXEL_UNPACK_BUFFER
  · subst h7 ; decide
  by_cases h8 : t = GL_QUERY_BUFFER
  · subst h8 ; decide
  by_cases h9 : t = GL_TEXTURE_BUFFER
  · subst h9 ; decide
  exfalso
  have h10 : getBufferTargetBit t = 10 := by
    unfold getBufferTargetBit getBufferTargetBitW
    rw [if_neg h0, if_neg h1, if_neg h2, if_neg h3, if_neg h4, if_neg h5,
      if_neg h6, if_neg h7, if_neg h8, if_neg h9]
  omega

theorem targetBit_targetFromBit {i : Nat} (h : i < 10) :
    getBufferTargetBit (getBufferTargetFromBit i) = i := by
  interval_cases i <;> decide

theorem bufCat_targetFromBit {i : Nat} (h : i < 10) :
    bufCat (getBufferTargetFromBit i) = 4 := by
  interval_cases i <;> decide

/-- Does a driver call address the given buffer target and location? -/
def isBufCallAt (t l : Nat) : DriverCall → Bool
  | DriverCall.bindBuffer t2 l2 _ => decide (t2 = t ∧ l2 = l)
  | DriverCall.unbindBuffer t2 l2 => decide (t2 = t ∧ l2 = l)
  | _ => false

/-- Does a driver call address the given texture unit? -/
def isTexCallAt (u : Nat) : DriverCall → Bool
  | DriverCall.bindTexture u2 _ => decide (u2 = u)
  | _ => false

/-- Does a driver call address the given image unit? -/
def isImgCallAt (u : Nat) : DriverCall → Bool
  | DriverCall.bindImage u2 _ _ _ _ _ _ => decide (u2 = u)
  | _ => false

theorem bindOrRemove_lookup_ne {B : List BufferBinding} {t l t2 l2 : Nat}
    (hne : ¬(t = t2 ∧ l = l2)) :
    lookupBuf (bindOrRemoveBuffer B t l).1 t2 l2 = lookupBuf B t2 l2 := by
  induction B with
  | nil => rfl
  | cons e rest ih =>
    by_cases hk : e.target = t ∧ e.location = l
    · have hpe : ¬(e.target = t2 ∧ e.location = l2) := by
        intro hx
        exact hne ⟨hk.1 ▸ hx.1, hk.2 ▸ hx.2⟩
      cases hb : e.buffer with
      | some b =>
        rw [bindOrRemoveBuffer]
        rw [if_pos hk, hb]
        show lookupBuf (refreshBinding e b :: rest) t2 l2 = _
        rw [lookupBuf, lookupBuf,
          List.find?_cons_of_neg _ (by simpa [refreshBinding] using hpe),
          List.find?_cons_of_neg _ (by simpa using hpe)]
      | none =>
        rw [bindOrRemoveBuffer]
        rw [if_pos hk, hb]
        show lookupBuf rest t2 l2 = _
        rw [lookupBuf, lookupBuf,
          List.find?_cons_of_neg _ (by simpa using hpe)]
    · rw [bindOrRemoveBuffer, if_neg hk]
      by_cases hp : e.target = t2 ∧ e.location = l2
      · show lookupBuf (e :: _) t2 l2 = lookupBuf (e :: rest) t2 l2
        rw [lookupBuf, lookupBuf, List.find?_cons_of_pos _ (by simpa using hp),
          List.find?_cons_of_pos _ (by simpa using hp)]
      · show lookupBuf (e :: _) t2 l2 = lookupBuf (e :: rest) t2 l2
        rw [lookupBuf, lookupBuf,
          List.find?_cons_of_neg _ (by simpa using hp),
          List.find?_cons_of_neg _ (by simpa using hp)]
        exact ih

theorem eraseKV_lookup_ne {α : Type} {L : List (Nat × α)} {k k2 : Nat}
    (h : k ≠ k2) : lookupKV (eraseKV L k) k2 = lookupKV L k2 := by
  induction L with
  | nil => rfl
  | cons e rest ih =>
    by_cases hk : e.1 = k
    · rw [eraseKV, List.eraseP_cons, decide_eq_true hk, Bool.cond_true]
      have hp : ¬(e.1 = k2) := by rw [hk] ; exact h
      rw [lookupKV, lookupKV, List.find?_cons_of_neg _ (by simpa using hp)]
    · rw [eraseKV, List.eraseP_cons, decide_eq_false hk, Bool.cond_false]
      by_cases hp : e.1 = k2
      · rw [lookupKV, lookupKV,
          List.find?_cons_of_pos _ (by simpa using hp),
          List.find?_cons_of_pos _ (by simpa using hp)]
      · rw [lookupKV, lookupKV,
          List.find?_cons_of_neg _ (by simpa using hp),
          List.find?_cons_of_neg _ (by simpa using hp)]
        exact ih

theorem bindOrRemove_countP_ne {B : List BufferBinding} {t l t2 l2 : Nat}
    (hne : ¬(t = t2 ∧ l = l2)) :
    (bindOrRemoveBuffer B t l).2.countP (isBufCallAt t2 l2) = 0 := by
  rcases bindOrRemoveBuffer_calls_shape B t l with h | ⟨id, h⟩ | h <;>
    rw [h] <;> simp [List.countP_cons, isBufCallAt, hne]

theorem applyBufLoop_count_ne {mask : Mask} {tOf lOf : Nat → Nat}
    {idxs : List Nat} {t2 l2 : Nat}
    (h : ∀ i ∈ idxs, ¬(tOf i = t2 ∧ lOf i = l2)) :
    ∀ B, (applyBufLoop mask tOf lOf B idxs).2.countP (isBufCallAt t2 l2) = 0
      ∧ lookupBuf (applyBufLoop mask tOf lOf B idxs).1 t2 l2
          = lookupBuf B t2 l2 := by
  induction idxs with
  | nil => intro B ; exact ⟨rfl, rfl⟩
  | cons i rest ih =>
    intro B
    have hi := h i (List.mem_cons_self i rest)
    have hr : ∀ j ∈ rest, ¬(tOf j = t2 ∧ lOf j = l2) :=
      fun j hj => h j (List.mem_cons_of_mem i hj)
    rw [applyBufLoop]
    by_cases hm : mask i = true
    · rw [if_pos hm]
      dsimp only
      constructor
      · rw [List.countP_append, bindOrRemove_countP_ne hi, (ih hr _).1]
      · rw [(ih hr _).2, bindOrRemove_lookup_ne hi]
    · rw [if_neg hm]
      exact ih hr B

theorem applyBufLoop_count_absent {mask : Mask} {tOf lOf : Nat → Nat}
    {idxs : List Nat} {t l : Nat} :
    ∀ B, lookupBuf B t l = none →
      (applyBufLoop mask tOf lOf B idxs).2.countP (isBufCallAt t l) = 0
      ∧ lookupBuf (applyBufLoop mask tOf lOf B idxs).1 t l = none := by
  induction idxs with
  | nil => intro B hB ; exact ⟨rfl, hB⟩
  | cons i rest ih =>
    intro B hB
    rw [applyBufLoop]
    by_cases hm : mask i = true
    · rw [if_pos hm]
      dsimp only
      by_cases hk : tOf i = t ∧ lOf i = l
      · have hstep : bindOrRemoveBuffer B (tOf i) (lOf i) = (B, []) := by
          rw [hk.1, hk.2]
          exact bindOrRemove_absent hB
        rw [hstep]
        obtain ⟨hc, hl⟩ := ih B hB
        exact ⟨by rw [List.countP_append] ; simpa using hc, hl⟩
      · obtain ⟨hc, hl⟩ := ih (bindOrRemoveBuffer B (tOf i) (lOf i)).1
          (by rw [bindOrRemove_lookup_ne hk] ; exact hB)
        refine ⟨?_, hl⟩
        rw [List.countP_append, bindOrRemove_countP_ne hk, hc]
    · rw [if_neg hm]
      exact ih B hB

theorem applyBufLoop_count_present {mask : Mask} {tOf lOf : Nat → Nat}
    {t l j : Nat} (hmask : mask j = true) (hkt : tOf j = t) (hkl : lOf j = l) :
    ∀ idxs : List Nat, idxs.Nodup → j ∈ idxs →
      (∀ i ∈ idxs, tOf i = t ∧ lOf i = l → i = j) →
      ∀ B, ∀ e : BufferBinding, lookupBuf B t l = some e →
      (applyBufLoop mask tOf lOf B idxs).2.countP (isBufCallAt t l) = 1 := by
  intro idxs
  induction idxs with
  | nil => intro _ hj ; exact absurd hj (List.not_mem_nil j)
  | cons i rest ih =>
    intro hnd hj huniq B e hB
    obtain ⟨hnotin, hndr⟩ := List.nodup_cons.mp hnd
    rw [applyBufLoop]
    rcases List.mem_cons.mp hj with rfl | hjr
    · rw [if_pos hmask]
      dsimp only
      have hcount1 : (bindOrRemoveBuffer B (tOf j) (lOf j)).2.countP
          (isBufCallAt t l) = 1 := by
        rw [hkt, hkl]
        cases hb : e.buffer with
        | some b =>
          rw [bindOrRemove_live hB hb]
          simp [List.countP_cons, isBufCallAt]
        | none =>
          rw [bindOrRemove_null hB hb]
          simp [List.countP_cons, isBufCallAt]
      have hrest : ∀ i2 ∈ rest, ¬(tOf i2 = t ∧ lOf i2 = l) := by
        intro i2 hi2 hx
        have := huniq i2 (List.mem_cons_of_mem j hi2) hx
        exact hnotin (this ▸ hi2)
      rw [List.countP_append, hcount1, (applyBufLoop_count_ne hrest _).1]
    · have hij : i ≠ j := fun hx => hnotin (hx ▸ hjr)
      have hki : ¬(tOf i = t ∧ lOf i = l) := fun hx =>
        hij (huniq i (List.mem_cons_self i rest) hx)
      have huniqr : ∀ i2 ∈ rest, tOf i2 = t ∧ lOf i2 = l → i2 = j :=
        fun i2 hi2 => huniq i2 (List.mem_cons_of_mem i hi2)
      by_cases hm : mask i = true
      · rw [if_pos hm]
        dsimp only
        rw [List.countP_append, bindOrRemove_countP_ne hki,
          ih hndr hjr huniqr _ e
            (by rw [bindOrRemove_lookup_ne hki] ; exact hB)]
      · rw [if_neg hm]
        exact ih hndr hjr huniqr B e hB

theorem applyTexLoop_count_ne {mask : Mask} {idxs : List Nat} {u : Nat}
    (h : ∀ i ∈ idxs, i ≠ u) :
    ∀ T, (applyTexLoop mask T idxs).2.countP (isTexCallAt u) = 0
      ∧ lookupKV (applyTexLoop mask T idxs).1 u = lookupKV T u := by
  induction idxs with
  | nil => intro T ; exact ⟨rfl, rfl⟩
  | cons i rest ih =>
    intro T
    have hi := h i (List.mem_cons_self i rest)
    have hr : ∀ j ∈ rest, j ≠ u := fun j hj => h j (List.mem_cons_of_mem i hj)
    rw [applyTexLoop]
    by_cases hm : mask i = true
    · rw [if_pos hm]
      cases hl : lookupKV T i with
      | none => exact ih hr T
      | some v =>
        cases v with
        | some tex =>
          dsimp only
          obtain ⟨hc, hlk⟩ := ih hr T
          refine ⟨?_, hlk⟩
          rw [List.countP_cons, hc]
          simp [isTexCallAt, hi]
        | none =>
          dsimp only
          obtain ⟨hc, hlk⟩ := ih hr (eraseKV T i)
          refine ⟨?_, ?_⟩
          · rw [List.countP_cons, hc]
            simp [isTexCallAt, hi]
          · rw [hlk, eraseKV_lookup_ne hi]
    · rw [if_neg hm]
      exact ih hr T

theorem applyTexLoop_count_absent {mask : Mask} {idxs : List Nat} {u : Nat} :
    ∀ T, lookupKV T u = none →
      (applyTexLoop mask T idxs).2.countP (isTexCallAt u) = 0
      ∧ lookupKV (applyTexLoop mask T idxs).1 u = none := by
  induction idxs with
  | nil => intro T hT ; exact ⟨rfl, hT⟩
  | cons i rest ih =>
    intro T hT
    rw [applyTexLoop]
    by_cases hm : mask i = true
    · rw [if_pos hm]
      by_cases hk : i = u
      · subst hk
        rw [hT]
        exact ih T hT
      · cases hl : lookupKV T i with
        | none => exact ih T hT
        | some v =>
          cases v with
          | some tex =>
            dsimp only
            obtain ⟨hc, hlk⟩ := ih T hT
            refine ⟨?_, hlk⟩
            rw [List.countP_cons, hc]
            simp [isTexCallAt, hk]
          | none =>
            dsimp only
            obtain ⟨hc, hlk⟩ := ih (eraseKV T i)
              (by rw [eraseKV_lookup_ne hk] ; exact hT)
            refine ⟨?_, hlk⟩
            rw [List.countP_cons, hc]
            simp [isTexCallAt, hk]
    · rw [if_neg hm]
      exact ih T hT

theorem applyTexLoop_count_present {mask : Mask} {u : Nat}
    (hmask : mask u = true) :
    ∀ idxs : List Nat, idxs.Nodup → u ∈ idxs →
      ∀ T, ∀ v : Option Texture, lookupKV T u = some v →
      (applyTexLoop mask T idxs).2.countP (isTexCallAt u) = 1 := by
  intro idxs
  induction idxs with
  | nil => intro _ hj ; exact absurd hj (List.not_mem_nil u)
  | cons i rest ih =>
    intro hnd hj T v hT
    obtain ⟨hnotin, hndr⟩ := List.nodup_cons.mp hnd
    rw [applyTexLoop]
    rcases List.mem_cons.mp hj with rfl | hjr
    · rw [if_pos hmask, hT]
      have hrest : ∀ i2 ∈ rest, i2 ≠ u := by
        intro i2 hi2 hx
        exact hnotin (hx ▸ hi2)
      cases v with
      | some tex =>
        dsimp only
        rw [List.countP_cons, (applyTexLoop_count_ne hrest T).1]
        simp [isTexCallAt]
      | none =>
        dsimp only
        rw [List.countP_cons, (applyTexLoop_count_ne hrest (eraseKV T u)).1]
        simp [isTexCallAt]
    · have hij : i ≠ u := fun hx => hnotin (hx ▸ hjr)
      by_cases hm : mask i = true
      · rw [if_pos hm]
        cases hl : lookupKV T i with
        | none => exact ih hndr hjr T v hT
        | some v2 =>
          cases v2 with
          | some tex =>
            dsimp only
            rw [List.countP_cons, ih hndr hjr T v hT]
            simp [isTexCallAt, hij]
          | none =>
            dsimp only
            rw [List.countP_cons, ih hndr hjr (eraseKV T i) v
              (by rw [eraseKV_lookup_ne hij] ; exact hT)]
            simp [isTexCallAt, hij]
      · rw [if_neg hm]
        exact ih hndr hjr T v hT

theorem applyImgLoop_count_ne {mask : Mask} {idxs : List Nat} {u : Nat}
    (h : ∀ i ∈ idxs, i ≠ u) :
    ∀ M, (applyImgLoop mask M idxs).2.countP (isImgCallAt u) = 0
      ∧ lookupKV (applyImgLoop mask M idxs).1 u = lookupKV M u := by
  induction idxs with
  | nil => intro M ; exact ⟨rfl, rfl⟩
  | cons i rest ih =>
    intro M
    have hi := h i (List.mem_cons_self i rest)
    have hr : ∀ j ∈ rest, j ≠ u := fun j hj => h j (List.mem_cons_of_mem i hj)
    rw [applyImgLoop]
    by_cases hm : mask i = true
    · rw [if_pos hm]
      cases hl : lookupKV M i with
      | none => exact ih hr M
      | some p =>
        dsimp only
        cases hp : p.texture with
        | some tex =>
          dsimp only
          obtain ⟨hc, hlk⟩ := ih hr M
          refine ⟨?_, hlk⟩
          rw [List.countP_cons, hc]
          simp [isImgCallAt, hi]
        | none =>
          dsimp only
          obtain ⟨hc, hlk⟩ := ih hr (eraseKV M i)
          refine ⟨?_, ?_⟩
          · rw [List.countP_cons, hc]
            simp [isImgCallAt, hi]
          · rw [hlk, eraseKV_lookup_ne hi]
    · rw [if_neg hm]
      exact ih hr M

theorem applyImgLoop_count_absent {mask : Mask} {idxs : List Nat} {u : Nat} :
    ∀ M, lookupKV M u = none →
      (applyImgLoop mask M idxs).2.countP (isImgCallAt u) = 0
      ∧ lookupKV (applyImgLoop mask M idxs).1 u = none := by
  induction idxs with
  | nil => intro M hM ; exact ⟨rfl, hM⟩
  | cons i rest ih =>
    intro M hM
    rw [applyImgLoop]
    by_cases hm : mask i = true
    · rw [if_pos hm]
      by_cases hk : i = u
      · subst hk
        rw [hM]
        exact ih M hM
      · cases hl : lookupKV M i with
        | none => exact ih M hM
        | some p =>
          dsimp only
          cases hp : p.texture with
          | some tex =>
            dsimp only
            obtain ⟨hc, hlk⟩ := ih M hM
            exact ⟨by rw [List.countP_cons, hc] ; simp [isImgCallAt, hk], hlk⟩
          | none =>
            dsimp only
            obtain ⟨hc, hlk⟩ := ih (eraseKV M i)
              (by rw [eraseKV_lookup_ne hk] ; exact hM)
            exact ⟨by rw [List.countP_cons, hc] ; simp [isImgCallAt, hk], hlk⟩
    · rw [if_neg hm]
      exact ih M hM

theorem applyImgLoop_count_present {mask : Mask} {u : Nat}
    (hmask : mask u = true) :
    ∀ idxs : List Nat, idxs.Nodup → u ∈ idxs →
      ∀ M, ∀ p : ImageBindParameters, lookupKV M u = some p →
      (applyImgLoop mask M idxs).2.countP (isImgCallAt u) = 1 := by
  intro idxs
  induction idxs with
  | nil => intro _ hj ; exact absurd hj (List.not_mem_nil u)
  | cons i rest ih =>
    intro hnd hj M p hM
    obtain ⟨hnotin, hndr⟩ := List.nodup_cons.mp hnd
    rw [applyImgLoop]
    rcases List.mem_cons.mp hj with rfl | hjr
    · rw [if_pos hmask, hM]
      dsimp only
      have hrest : ∀ i2 ∈ rest, i2 ≠ u := by
        intro i2 hi2 hx
        exact hnotin (hx ▸ hi2)
      cases hp : p.texture with
      | some tex =>
        dsimp only
        rw [List.countP_cons, (applyImgLoop_count_ne hrest M).1]
        simp [isImgCallAt]
      | none =>
        dsimp only
        rw [List.countP_cons, (applyImgLoop_count_ne hrest (eraseKV M u)).1]
        simp [isImgCallAt]
    · have hij : i ≠ u := fun hx => hnotin (hx ▸ hjr)
      by_cases hm : mask i = true
      · rw [if_pos hm]
        cases hl : lookupKV M i with
        | none => exact ih hndr hjr M p hM
        | some p2 =>
          dsimp only
          cases hp : p2.texture with
          | some tex =>
            dsimp only
            rw [List.countP_cons, ih hndr hjr M p hM]
            simp [isImgCallAt, hij]
          | none =>
            dsimp only
            rw [List.countP_cons, ih hndr hjr (eraseKV M i) p
              (by rw [eraseKV_lookup_ne hij] ; exact hM)]
            simp [isImgCallAt, hij]
      · rw [if_neg hm]
        exact ih hndr hjr M p hM

theorem segFact_indexed (mask : Mask) (Tk catk : Nat) (cond : Bool)
    (B : List BufferBinding) (e : BufferBinding)
    (hcat : bufCat Tk = catk) (hct : catTarget catk = Tk) (hck : catk < 4)
    (hlookC : bufCat e.target = catk →
      lookupBuf B e.target e.location = some e)
    (hwp : wellPlaced e)
    (hmC : bufCat e.target = catk → mask e.location = true)
    (hcondC : bufCat e.target = catk → cond = true) :
    ((if cond then applyBufLoop mask (fun _ => Tk) (fun i => i) B
        (List.range maxBufferBindings)
      else (B, [])).2).countP (isBufCallAt e.target e.location)
      = (if bufCat e.target = catk then 1 else 0)
    ∧ (bufCat e.target ≠ catk →
        lookupBuf ((if cond then applyBufLoop mask (fun _ => Tk) (fun i => i)
            B (List.range maxBufferBindings)
          else (B, [])).1) e.target e.location
          = lookupBuf B e.target e.location) := by
  by_cases hx : bufCat e.target = catk
  · rw [hcondC hx]
    simp only [if_pos]
    refine ⟨?_, fun hn => absurd hx hn⟩
    rw [if_pos hx]
    have hTe : e.target = Tk := by
      rw [(bufCat_eq_iff hck).mp hx, hct]
    have hlw : e.location < maxBufferBindings := by
      unfold wellPlaced at hwp
      rw [if_pos (by omega : bufCat e.target < 4)] at hwp
      exact hwp
    exact applyBufLoop_count_present (hmC hx) (by rw [hTe]) rfl
      (List.range maxBufferBindings) (List.nodup_range _)
      (List.mem_range.mpr hlw) (fun i _ hy => hy.2) B e (hlookC hx)
  · have hkeys : ∀ i ∈ List.range maxBufferBindings,
        ¬(Tk = e.target ∧ i = e.location) := by
      intro i _ hy
      exact hx (by rw [← hy.1] ; exact hcat)
    cases cond with
    | false =>
      refine ⟨?_, fun _ => rfl⟩
      rw [if_neg hx]
      rfl
    | true =>
      simp only [if_pos]
      obtain ⟨hz, hp⟩ := applyBufLoop_count_ne hkeys B
      refine ⟨?_, fun _ => hp⟩
      rw [if_neg hx, hz]

theorem segFact_other (mask : Mask) (cond : Bool) (B : List BufferBinding)
    (e : BufferBinding)
    (hlookC : bufCat e.target = 4 →
      lookupBuf B e.target e.location = some e)
    (hwp : wellPlaced e)
    (hmC : bufCat e.target = 4 → mask (getBufferTargetBit e.target) = true)
    (hcondC : bufCat e.target = 4 → cond = true) :
    ((if cond then applyBufLoop mask getBufferTargetFromBit (fun _ => 0) B
        (List.range (otherMaskSize - 1))
      else (B, [])).2).countP (isBufCallAt e.target e.location)
      = (if bufCat e.target = 4 then 1 else 0)
    ∧ (bufCat e.target ≠ 4 →
        lookupBuf ((if cond then applyBufLoop mask getBufferTargetFromBit
            (fun _ => 0) B (List.range (otherMaskSize - 1))
          else (B, [])).1) e.target e.location
          = lookupBuf B e.target e.location) := by
  have hsz : otherMaskSize - 1 = 10 := rfl
  by_cases hx : bufCat e.target = 4
  · rw [hcondC hx]
    simp only [if_pos]
    refine ⟨?_, fun hn => absurd hx hn⟩
    rw [if_pos hx]
    have hwp2 : e.location = 0 ∧ getBufferTargetBit e.target < 10 := by
      unfold wellPlaced at hwp
      rw [if_neg (by omega : ¬bufCat e.target < 4)] at hwp
      exact hwp
    refine applyBufLoop_count_present (hmC hx)
      (targetFromBit_targetBit hwp2.2) hwp2.1.symm
      (List.range (otherMaskSize - 1)) (List.nodup_range _)
      (List.mem_range.mpr (by omega)) ?_ B e (hlookC hx)
    intro i hi hy
    rw [List.mem_range, hsz] at hi
    rw [← hy.1, targetBit_targetFromBit hi]
  · have hkeys : ∀ i ∈ List.range (otherMaskSize - 1),
        ¬(getBufferTargetFromBit i = e.target ∧ (0 : Nat) = e.location) := by
      intro i hi hy
      rw [List.mem_range, hsz] at hi
      exact hx (by rw [← hy.1] ; exact bufCat_targetFromBit hi)
    cases cond with
    | false =>
      refine ⟨?_, fun _ => rfl⟩
      rw [if_neg hx]
      rfl
    | true =>
      simp only [if_pos]
      obtain ⟨hz, hp⟩ := applyBufLoop_count_ne hkeys B
      refine ⟨?_, fun _ => hp⟩
      rw [if_neg hx, hz]

theorem guardedBuf_count_tex (cond : Bool) (mask : Mask) (tOf lOf : Nat → Nat)
    (w : Nat) (B : List BufferBinding) (u : Nat) :
    ((if cond then applyBufLoop mask tOf lOf B (List.range w)
      else (B, [])).2).countP (isTexCallAt u) = 0 := by
  cases cond with
  | false => rfl
  | true =>
    simp only [if_pos]
    refine List.countP_eq_zero.mpr (fun c hc => ?_)
    obtain ⟨i, _, hs⟩ := applyBufLoop_calls c hc
    rcases hs with ⟨id, rfl⟩ | rfl <;> simp [isTexCallAt]

theorem guardedBuf_count_img (cond : Bool) (mask : Mask) (tOf lOf : Nat → Nat)
    (w : Nat) (B : List BufferBinding) (u : Nat) :
    ((if cond then applyBufLoop mask tOf lOf B (List.range w)
      else (B, [])).2).countP (isImgCallAt u) = 0 := by
  cases cond with
  | false => rfl
  | true =>
    simp only [if_pos]
    refine List.countP_eq_zero.mpr (fun c hc => ?_)
    obtain ⟨i, _, hs⟩ := applyBufLoop_calls c hc
    rcases hs with ⟨id, rfl⟩ | rfl <;> simp [isImgCallAt]

theorem guardedTex_count_buf (cond : Bool) (mask : Mask)
    (T : List (Nat × Option Texture)) (w : Nat) (t l : Nat) :
    ((if cond then applyTexLoop mask T (List.range w)
      else (T, [])).2).countP (isBufCallAt t l) = 0 := by
  cases cond with
  | false => rfl
  | true =>
    simp only [if_pos]
    refine List.countP_eq_zero.mpr (fun c hc => ?_)
    obtain ⟨i, _, g, rfl⟩ := applyTexLoop_calls c hc
    simp [isBufCallAt]

theorem guardedTex_count_img (cond : Bool) (mask : Mask)
    (T : List (Nat × Option Texture)) (w : Nat) (u : Nat) :
    ((if cond then applyTexLoop mask T (List.range w)
      else (T, [])).2).countP (isImgCallAt u) = 0 := by
  cases cond with
  | false => rfl
  | true =>
    simp only [if_pos]
    refine List.countP_eq_zero.mpr (fun c hc => ?_)
    obtain ⟨i, _, g, rfl⟩ := applyTexLoop_calls c hc
    simp [isImgCallAt]

theorem guardedImg_count_buf (cond : Bool) (mask : Mask)
    (M : List (Nat × ImageBindParameters)) (w : Nat) (t l : Nat) :
    ((if cond then applyImgLoop mask M (List.range w)
      else (M, [])).2).countP (isBufCallAt t l) = 0 := by
  cases cond with
  | false => rfl
  | true =>
    simp only [if_pos]
    refine List.countP_eq_zero.mpr (fun c hc => ?_)
    obtain ⟨i, _, g, lv, ly, la, ac, fo, rfl⟩ := applyImgLoop_calls c hc
    simp [isBufCallAt]

theorem guardedImg_count_tex (cond : Bool) (mask : Mask)
    (M : List (Nat × ImageBindParameters)) (w : Nat) (u : Nat) :
    ((if cond then applyImgLoop mask M (List.range w)
      else (M, [])).2).countP (isTexCallAt u) = 0 := by
  cases cond with
  | false => rfl
  | true =>
    simp only [if_pos]
    refine List.countP_eq_zero.mpr (fun c hc => ?_)
    obtain ⟨i, _, g, lv, ly, la, ac, fo, rfl⟩ := applyImgLoop_calls c hc
    simp [isTexCallAt]

theorem guardedBuf_count_absent (cond : Bool) (mask : Mask)
    (tOf lOf : Nat → Nat) (w : Nat) (B : List BufferBinding) {t l : Nat}
    (h : lookupBuf B t l = none) :
    ((if cond then applyBufLoop mask tOf lOf B (List.range w)
      else (B, [])).2).countP (isBufCallAt t l) = 0
    ∧ lookupBuf ((if cond then applyBufLoop mask tOf lOf B (List.range w)
        else (B, [])).1) t l = none := by
  cases cond with
  | false => exact ⟨rfl, h⟩
  | true =>
    simp only [if_pos]
    exact applyBufLoop_count_absent B h

/-- Every set buffer bit whose key is present in the applied snapshot
yields exactly one driver call addressing that key. -/
theorem apply_countBuf_one (st : BindingState) (d : StateDiff_t)
    (e : BufferBinding)
    (hlook : lookupBuf st.buffers e.target e.location = some e)
    (hwp : wellPlaced e)
    (hmask : getBufMask d (bufCat e.target) (bufBit e) = true) :
    (BindingState.apply st d).2.countP (isBufCallAt e.target e.location)
      = 1 := by
  have hc5 := bufCat_lt e.target
  have hlwC : bufCat e.target < 4 → e.location < maxBufferBindings := by
    intro hy
    unfold wellPlaced at hwp
    rw [if_pos hy] at hwp
    exact hwp
  have hm0 : bufCat e.target = 0 → d.ssbos e.location = true := by
    intro hx
    have h2 := hmask
    rw [hx, bufBit_of_indexed (by omega)] at h2
    exact h2
  have hm1 : bufCat e.target = 1 → d.ubos e.location = true := by
    intro hx
    have h2 := hmask
    rw [hx, bufBit_of_indexed (by omega)] at h2
    exact h2
  have hm2 : bufCat e.target = 2 → d.acbos e.location = true := by
    intro hx
    have h2 := hmask
    rw [hx, bufBit_of_indexed (by omega)] at h2
    exact h2
  have hm3 : bufCat e.target = 3 → d.tfbos e.location = true := by
    intro hx
    have h2 := hmask
    rw [hx, bufBit_of_indexed (by omega)] at h2
    exact h2
  have hm4 : bufCat e.target = 4 →
      d.other (getBufferTargetBit e.target) = true := by
    intro hx
    have h2 := hmask
    rw [hx, bufBit, if_neg (by rw [hx] ; omega)] at h2
    exact h2
  have hob : bufCat e.target = 4 →
      e.location = 0 ∧ getBufferTargetBit e.target < 10 := by
    intro hx
    unfold wellPlaced at hwp
    rw [if_neg (by rw [hx] ; omega)] at hwp
    exact hwp
  simp only [BindingState.apply]
  set s1 := (if maskAny d.ssbos maxBufferBindings = true then
      applyBufLoop d.ssbos (fun _ => GL_SHADER_STORAGE_BUFFER) (fun i => i)
        st.buffers (List.range maxBufferBindings)
    else (st.buffers, [])) with hs1
  set s2 := (if maskAny d.ubos maxBufferBindings = true then
      applyBufLoop d.ubos (fun _ => GL_UNIFORM_BUFFER) (fun i => i) s1.1
        (List.range maxBufferBindings)
    else (s1.1, [])) with hs2
  set s3 := (if maskAny d.acbos maxBufferBindings = true then
      applyBufLoop d.acbos (fun _ => GL_ATOMIC_COUNTER_BUFFER) (fun i => i)
        s2.1 (List.range maxBufferBindings)
    else (s2.1, [])) with hs3
  set s4 := (if maskAny d.tfbos maxBufferBindings = true then
      applyBufLoop d.tfbos (fun _ => GL_TRANSFORM_FEEDBACK_BUFFER)
        (fun i => i) s3.1 (List.range maxBufferBindings)
    else (s3.1, [])) with hs4
  set s5 := (if maskAny d.other otherMaskSize = true then
      applyBufLoop d.other getBufferTargetFromBit (fun _ => 0) s4.1
        (List.range (otherMaskSize - 1))
    else (s4.1, [])) with hs5
  rw [List.countP_append, List.countP_append, List.countP_append,
    List.countP_append, List.countP_append, List.countP_append,
    guardedTex_count_buf, guardedImg_count_buf]
  obtain ⟨hc1, hp1⟩ := segFact_indexed d.ssbos GL_SHADER_STORAGE_BUFFER 0
    (maskAny d.ssbos maxBufferBindings) st.buffers e (by decide) (by decide)
    (by omega) (fun _ => hlook) hwp hm0
    (fun hx => maskAny_eq_true.mpr ⟨e.location, hlwC (by omega), hm0 hx⟩)
  rw [← hs1] at hc1 hp1
  obtain ⟨hc2, hp2⟩ := segFact_indexed d.ubos GL_UNIFORM_BUFFER 1
    (maskAny d.ubos maxBufferBindings) s1.1 e (by decide) (by decide)
    (by omega)
    (fun hx => by rw [hp1 (by omega)] ; exact hlook) hwp hm1
    (fun hx => maskAny_eq_true.mpr ⟨e.location, hlwC (by omega), hm1 hx⟩)
  rw [← hs2] at hc2 hp2
  obtain ⟨hc3, hp3⟩ := segFact_indexed d.acbos GL_ATOMIC_COUNTER_BUFFER 2
    (maskAny d.acbos maxBufferBindings) s2.1 e (by decide) (by decide)
    (by omega)
    (fun hx => by rw [hp2 (by omega), hp1 (by omega)] ; exact hlook) hwp hm2
    (fun hx => maskAny_eq_true.mpr ⟨e.location, hlwC (by omega), hm2 hx⟩)
  rw [← hs3] at hc3 hp3
  obtain ⟨hc4, hp4⟩ := segFact_indexed d.tfbos GL_TRANSFORM_FEEDBACK_BUFFER 3
    (maskAny d.tfbos maxBufferBindings) s3.1 e (by decide) (by decide)
    (by omega)
    (fun hx => by
      rw [hp3 (by omega), hp2 (by omega), hp1 (by omega)] ; exact hlook)
    hwp hm3
    (fun hx => maskAny_eq_true.mpr ⟨e.location, hlwC (by omega), hm3 hx⟩)
  rw [← hs4] at hc4 hp4
  obtain ⟨hc5o, _⟩ := segFact_other d.other
    (maskAny d.other otherMaskSize) s4.1 e
    (fun hx => by
      rw [hp4 (by omega), hp3 (by omega), hp2 (by omega), hp1 (by omega)]
      exact hlook)
    hwp hm4
    (fun hx => maskAny_eq_true.mpr
      ⟨getBufferTargetBit e.target, by
        have := (hob hx).2
        have hsz : otherMaskSize = 11 := rfl
        omega, hm4 hx⟩)
  rw [← hs5] at hc5o
  rw [hc1, hc2, hc3, hc4, hc5o]
  obtain h | h | h | h | h : bufCat e.target = 0 ∨ bufCat e.target = 1
      ∨ bufCat e.target = 2 ∨ bufCat e.target = 3 ∨ bufCat e.target = 4 := by
    omega
  all_goals simp [h]

/-- A buffer key absent from the applied snapshot receives no driver
call. -/
theorem apply_countBuf_absent (st : BindingState) (d : StateDiff_t)
    {t l : Nat} (h : lookupBuf st.buffers t l = none) :
    (BindingState.apply st d).2.countP (isBufCallAt t l) = 0 := by
  simp only [BindingState.apply]
  set s1 := (if maskAny d.ssbos maxBufferBindings = true then
      applyBufLoop d.ssbos (fun _ => GL_SHADER_STORAGE_BUFFER) (fun i => i)
        st.buffers (List.range maxBufferBindings)
    else (st.buffers, [])) with hs1
  set s2 := (if maskAny d.ubos maxBufferBindings = true then
      applyBufLoop d.ubos (fun _ => GL_UNIFORM_BUFFER) (fun i => i) s1.1
        (List.range maxBufferBindings)
    else (s1.1, [])) with hs2
  set s3 := (if maskAny d.acbos maxBufferBindings = true then
      applyBufLoop d.acbos (fun _ => GL_ATOMIC_COUNTER_BUFFER) (fun i => i)
        s2.1 (List.range maxBufferBindings)
    else (s2.1, [])) with hs3
  set s4 := (if maskAny d.tfbos maxBufferBindings = true then
      applyBufLoop d.tfbos (fun _ => GL_TRANSFORM_FEEDBACK_BUFFER)
        (fun i => i) s3.1 (List.range maxBufferBindings)
    else (s3.1, [])) with hs4
  set s5 := (if maskAny d.other otherMaskSize = true then
      applyBufLoop d.other getBufferTargetFromBit (fun _ => 0) s4.1
        (List.range (otherMaskSize - 1))
    else (s4.1, [])) with hs5
  rw [List.countP_append, List.countP_append, List.countP_append,
    List.countP_append, List.countP_append, List.countP_append,
    guardedTex_count_buf, guardedImg_count_buf]
  obtain ⟨hc1, hl1⟩ := guardedBuf_count_absent
    (maskAny d.ssbos maxBufferBindings) d.ssbos
    (fun _ => GL_SHADER_STORAGE_BUFFER) (fun i => i) maxBufferBindings
    st.buffers h
  rw [← hs1] at hc1 hl1
  obtain ⟨hc2, hl2⟩ := guardedBuf_count_absent
    (maskAny d.ubos maxBufferBindings) d.ubos
    (fun _ => GL_UNIFORM_BUFFER) (fun i => i) maxBufferBindings s1.1 hl1
  rw [← hs2] at hc2 hl2
  obtain ⟨hc3, hl3⟩ := guardedBuf_count_absent
    (maskAny d.acbos maxBufferBindings) d.acbos
    (fun _ => GL_ATOMIC_COUNTER_BUFFER) (fun i => i) maxBufferBindings
    s2.1 hl2
  rw [← hs3] at hc3 hl3
  obtain ⟨hc4, hl4⟩ := guardedBuf_count_absent
    (maskAny d.tfbos maxBufferBindings) d.tfbos
    (fun _ => GL_TRANSFORM_FEEDBACK_BUFFER) (fun i => i) maxBufferBindings
    s3.1 hl3
  rw [← hs4] at hc4 hl4
  obtain ⟨hc5, _⟩ := guardedBuf_count_absent
    (maskAny d.other otherMaskSize) d.other
    getBufferTargetFromBit (fun _ => 0) (otherMaskSize - 1) s4.1 hl4
  rw [← hs5] at hc5
  rw [hc1, hc2, hc3, hc4, hc5]

/-- Every set texture bit whose unit is present in the applied snapshot
yields exactly one texture-unit driver call. -/
theorem apply_countTex_one (st : BindingState) (d : StateDiff_t)
    {u : Nat} {v : Option Texture}
    (hlook : lookupKV st.textures u = some v)
    (hu : u < maxTextureBindings) (hmask : d.textures u = true) :
    (BindingState.apply st d).2.countP (isTexCallAt u) = 1 := by
  simp only [BindingState.apply]
  rw [List.countP_append, List.countP_append, List.countP_append,
    List.countP_append, List.countP_append, List.countP_append,
    guardedBuf_count_tex, guardedBuf_count_tex, guardedBuf_count_tex,
    guardedBuf_count_tex, guardedBuf_count_tex, guardedImg_count_tex]
  have hg : maskAny d.textures maxTextureBindings = true :=
    maskAny_eq_true.mpr ⟨u, hu, hmask⟩
  rw [if_pos hg, applyTexLoop_count_present hmask
    (List.range maxTextureBindings) (List.nodup_range _)
    (List.mem_range.mpr hu) st.textures v hlook]

/-- A texture unit absent from the applied snapshot receives no driver
call. -/
theorem apply_countTex_absent (st : BindingState) (d : StateDiff_t)
    {u : Nat} (h : lookupKV st.textures u = none) :
    (BindingState.apply st d).2.countP (isTexCallAt u) = 0 := by
  simp only [BindingState.apply]
  rw [List.countP_append, List.countP_append, List.countP_append,
    List.countP_append, List.countP_append, List.countP_append,
    guardedBuf_count_tex, guardedBuf_count_tex, guardedBuf_count_tex,
    guardedBuf_count_tex, guardedBuf_count_tex, guardedImg_count_tex]
  cases hg : maskAny d.textures maxTextureBindings with
  | false => simp
  | true =>
    rw [if_pos rfl, (applyTexLoop_count_absent st.textures h).1]

/-- Every set image bit whose unit is present in the applied snapshot
yields exactly one image-unit driver call. -/
theorem apply_countImg_one (st : BindingState) (d : StateDiff_t)
    {u : Nat} {p : ImageBindParameters}
    (hlook : lookupKV st.images u = some p)
    (hu : u < maxImageBindings) (hmask : d.images u = true) :
    (BindingState.apply st d).2.countP (isImgCallAt u) = 1 := by
  simp only [BindingState.apply]
  rw [List.countP_append, List.countP_append, List.countP_append,
    List.countP_append, List.countP_append, List.countP_append,
    guardedBuf_count_img, guardedBuf_count_img, guardedBuf_count_img,
    guardedBuf_count_img, guardedBuf_count_img, guardedTex_count_img]
  have hg : maskAny d.images maxImageBindings = true :=
    maskAny_eq_true.mpr ⟨u, hu, hmask⟩
  rw [if_pos hg, applyImgLoop_count_present hmask
    (List.range maxImageBindings) (List.nodup_range _)
    (List.mem_range.mpr hu) st.images p hlook]

/-- An image unit absent from the applied snapshot receives no driver
call. -/
theorem apply_countImg_absent (st : BindingState) (d : StateDiff_t)
    {u : Nat} (h : lookupKV st.images u = none) :
    (BindingState.apply st d).2.countP (isImgCallAt u) = 0 := by
  simp only [BindingState.apply]
  rw [List.countP_append, List.countP_append, List.countP_append,
    List.countP_append, List.countP_append, List.countP_append,
    guardedBuf_count_img, guardedBuf_count_img, guardedBuf_count_img,
    guardedBuf_count_img, guardedBuf_count_img, guardedTex_count_img]
  cases hg : maskAny d.images maxImageBindings with
  | false => simp
  | true =>
    rw [if_pos rfl, (applyImgLoop_count_absent st.images h).1]

/-! ## Claim C5 -/

/-- Claim C5 (amended): forced reconciliation sets the mask bit of every
slot occupied in either snapshot; the subsequent apply, which looks
bindings up in the target snapshot, issues exactly one driver call per
slot occupied in the target snapshot (given the map invariant and
reachable placements), and zero calls for slots occupied only in the
current snapshot. -/
theorem C5_forced_reconcile (cur tgt : BindingState)
    (hbt : bufKeysNodup tgt.buffers) (htt : keysNodup tgt.textures)
    (hit : keysNodup tgt.images)
    (hwp : ∀ e ∈ tgt.buffers, wellPlaced e)
    (htw : ∀ e ∈ tgt.textures, e.1 < maxTextureBindings)
    (hiw : ∀ e ∈ tgt.images, e.1 < maxImageBindings) :
    (∀ e ∈ cur.buffers,
      getBufMask (reconcile ⟨cur, tgt⟩ true).2.1 (bufCat e.target)
        (bufBit e) = true)
    ∧ (∀ e ∈ tgt.buffers,
      getBufMask (reconcile ⟨cur, tgt⟩ true).2.1 (bufCat e.target)
        (bufBit e) = true)
    ∧ (∀ e ∈ cur.textures,
      (reconcile ⟨cur, tgt⟩ true).2.1.textures e.1 = true)
    ∧ (∀ e ∈ tgt.textures,
      (reconcile ⟨cur, tgt⟩ true).2.1.textures e.1 = true)
    ∧ (∀ e ∈ cur.images,
      (reconcile ⟨cur, tgt⟩ true).2.1.images e.1 = true)
    ∧ (∀ e ∈ tgt.images,
      (reconcile ⟨cur, tgt⟩ true).2.1.images e.1 = true)
    ∧ (∀ e ∈ tgt.buffers,
      (reconcile ⟨cur, tgt⟩ true).2.2.countP
        (isBufCallAt e.target e.location) = 1)
    ∧ (∀ e ∈ tgt.textures,
      (reconcile ⟨cur, tgt⟩ true).2.2.countP (isTexCallAt e.1) = 1)
    ∧ (∀ e ∈ tgt.images,
      (reconcile ⟨cur, tgt⟩ true).2.2.countP (isImgCallAt e.1) = 1)
    ∧ (∀ e ∈ cur.buffers, lookupBuf tgt.buffers e.target e.location = none →
      (reconcile ⟨cur, tgt⟩ true).2.2.countP
        (isBufCallAt e.target e.location) = 0)
    ∧ (∀ e ∈ cur.textures, lookupKV tgt.textures e.1 = none →
      (reconcile ⟨cur, tgt⟩ true).2.2.countP (isTexCallAt e.1) = 0)
    ∧ (∀ e ∈ cur.images, lookupKV tgt.images e.1 = none →
      (reconcile ⟨cur, tgt⟩ true).2.2.countP (isImgCallAt e.1) = 0) := by
  refine ⟨?_, ?_, ?_, ?_, ?_, ?_, ?_, ?_, ?_, ?_, ?_, ?_⟩
  · intro e he
    show getBufMask (BindingState.makeDiff cur tgt true) (bufCat e.target)
      (bufBit e) = true
    rw [makeDiff_bufMask]
    exact bufScan_forced_preserve (bufCat_lt e.target) (bufScan_forced_mem he)
  · intro e he
    show getBufMask (BindingState.makeDiff cur tgt true) (bufCat e.target)
      (bufBit e) = true
    rw [makeDiff_bufMask]
    exact bufScan_forced_mem he
  · intro e he
    show (BindingState.makeDiff cur tgt true).textures e.1 = true
    rw [makeDiff_textures]
    exact kvMaskScan_forced_preserve (kvMaskScan_forced_mem he)
  · intro e he
    show (BindingState.makeDiff cur tgt true).textures e.1 = true
    rw [makeDiff_textures]
    exact kvMaskScan_forced_mem he
  · intro e he
    show (BindingState.makeDiff cur tgt true).images e.1 = true
    rw [makeDiff_images]
    exact kvMaskScan_forced_preserve (kvMaskScan_forced_mem he)
  · intro e he
    show (BindingState.makeDiff cur tgt true).images e.1 = true
    rw [makeDiff_images]
    exact kvMaskScan_forced_mem he
  · intro e he
    show (BindingState.apply tgt (BindingState.makeDiff cur tgt true)).2.countP
      (isBufCallAt e.target e.location) = 1
    refine apply_countBuf_one tgt _ e (lookupBuf_of_mem hbt he) (hwp e he) ?_
    rw [makeDiff_bufMask]
    exact bufScan_forced_mem he
  · intro e he
    show (BindingState.apply tgt (BindingState.makeDiff cur tgt true)).2.countP
      (isTexCallAt e.1) = 1
    refine apply_countTex_one tgt _ (lookupKV_of_mem htt he) (htw e he) ?_
    rw [makeDiff_textures]
    exact kvMaskScan_forced_mem he
  · intro e he
    show (BindingState.apply tgt (BindingState.makeDiff cur tgt true)).2.countP
      (isImgCallAt e.1) = 1
    refine apply_countImg_one tgt _ (lookupKV_of_mem hit he) (hiw e he) ?_
    rw [makeDiff_images]
    exact kvMaskScan_forced_mem he
  · intro e he hn
    exact apply_countBuf_absent tgt _ hn
  · intro e he hn
    exact apply_countTex_absent tgt _ hn
  · intro e he hn
    exact apply_countImg_absent tgt _ hn

def c5cEntry : BufferBinding :=
  ⟨GL_SHADER_STORAGE_BUFFER, 2, some ⟨21, 0, 64⟩, 0, 64⟩

def c5cCur : BindingState := ⟨[c5cEntry], [], []⟩

/-- Counterexample to C5 as stated: storage slot 2 is occupied in the
current snapshot and its mask bit is set by forced reconciliation, yet
the apply step issues zero driver calls because the slot's key is absent
from the target snapshot it looks bindings up in; the claim demands
exactly one call per slot occupied in either snapshot. -/
theorem C5_counterexample :
    (reconcile ⟨c5cCur, emptyBindingState⟩ true).2.1.ssbos 2 = true
    ∧ (reconcile ⟨c5cCur, emptyBindingState⟩ true).2.2 = [] := by
  exact ⟨by decide, by decide⟩

def c5wBuf : BufferBinding :=
  ⟨GL_SHADER_STORAGE_BUFFER, 1, some ⟨9, 4, 16⟩, 4, 16⟩

def c5wTex : Nat × Option Texture := (3, some ⟨7, GL_RGBA, GL_UNSIGNED_BYTE⟩)

def c5wImg : Nat × ImageBindParameters :=
  (2, ⟨some ⟨8, GL_RED, GL_BYTE⟩, 0, 0, false, true, true⟩)

def c5wTgt : BindingState := ⟨[c5wBuf], [c5wTex], [c5wImg]⟩

/-- Witness for C5 at a concrete target snapshot with one binding per
category. -/
theorem C5_forced_reconcile_witness :
    bufKeysNodup c5wTgt.buffers
    ∧ (reconcile ⟨emptyBindingState, c5wTgt⟩ true).2.2.countP
        (isBufCallAt GL_SHADER_STORAGE_BUFFER 1) = 1
    ∧ (reconcile ⟨emptyBindingState, c5wTgt⟩ true).2.2.countP
        (isTexCallAt 3) = 1
    ∧ (reconcile ⟨emptyBindingState, c5wTgt⟩ true).2.2.countP
        (isImgCallAt 2) = 1 := by
  have h := C5_forced_reconcile emptyBindingState c5wTgt (by decide)
    (by decide) (by decide) (by decide) (by decide) (by decide)
  exact ⟨by decide,
    h.2.2.2.2.2.2.1 c5wBuf (by decide),
    h.2.2.2.2.2.2.2.1 c5wTex (by decide),
    h.2.2.2.2.2.2.2.2.1 c5wImg (by decide)⟩

/-! ## Machinery for claim C3: the applied snapshot is duplicate-free -/

theorem bufKey_refresh (e : BufferBinding) (b : BufferObject) :
    bufKey (refreshBinding e b) = bufKey e := rfl

theorem bufferChanged_refresh {e : BufferBinding} {b : BufferObject}
    (hb : e.buffer = some b) :
    bufferChanged (refreshBinding e b) = false := by
  simp [bufferChanged, refreshBinding, hb]

theorem bufferChanged_some {e : BufferBinding}
    (h : bufferChanged e = true) :
    ∃ b, e.buffer = some b ∧ (e.offset ≠ b.offset ∨ e.size ≠ b.size) := by
  unfold bufferChanged at h
  cases hb : e.buffer with
  | none => rw [hb] at h ; simp at h
  | some b =>
    rw [hb] at h
    exact ⟨b, rfl, of_decide_eq_true h⟩

theorem bindOrRemove_keys_sublist (B : List BufferBinding) (t l : Nat) :
    List.Sublist ((bindOrRemoveBuffer B t l).1.map bufKey) (B.map bufKey) := by
  induction B with
  | nil => exact List.Sublist.refl _
  | cons e rest ih =>
    rw [bindOrRemoveBuffer]
    by_cases hk : e.target = t ∧ e.location = l
    · rw [if_pos hk]
      cases hb : e.buffer with
      | some b =>
        show List.Sublist ((refreshBinding e b :: rest).map bufKey) _
        rw [List.map_cons, List.map_cons, bufKey_refresh]
      | none =>
        show List.Sublist (rest.map bufKey) _
        rw [List.map_cons]
        exact (List.Sublist.refl _).cons _
    · rw [if_neg hk]
      show List.Sublist (((e :: (bindOrRemoveBuffer rest t l).1)).map bufKey) _
      rw [List.map_cons, List.map_cons]
      exact ih.cons₂ _

theorem applyBufLoop_keys_sublist (mask : Mask) (tOf lOf : Nat → Nat)
    (idxs : List Nat) :
    ∀ B : List BufferBinding,
      List.Sublist ((applyBufLoop mask tOf lOf B idxs).1.map bufKey) (B.map bufKey) := by
  induction idxs with
  | nil => intro B ; exact List.Sublist.refl _
  | cons i rest ih =>
    intro B
    rw [applyBufLoop]
    by_cases hm : mask i = true
    · rw [if_pos hm]
      dsimp only
      exact (ih _).trans (bindOrRemove_keys_sublist B (tOf i) (lOf i))
    · rw [if_neg hm]
      exact ih B

theorem guardedBuf_keys_sublist (cond : Bool) (mask : Mask)
    (tOf lOf : Nat → Nat) (w : Nat) (B : List BufferBinding) :
    List.Sublist (((if cond then applyBufLoop mask tOf lOf B (List.range w)
      else (B, [])).1).map bufKey) (B.map bufKey) := by
  cases cond with
  | false => exact List.Sublist.refl _
  | true =>
    simp only [if_pos]
    exact applyBufLoop_keys_sublist mask tOf lOf (List.range w) B

/-- `apply` preserves the map invariant of the buffer snapshot. -/
theorem apply_buffers_nodup (st : BindingState) (d : StateDiff_t)
    (h : bufKeysNodup st.buffers) :
    bufKeysNodup (BindingState.apply st d).1.buffers := by
  simp only [BindingState.apply]
  unfold bufKeysNodup at h ⊢
  exact List.Nodup.sublist
    ((guardedBuf_keys_sublist _ _ _ _ _ _).trans
      ((guardedBuf_keys_sublist _ _ _ _ _ _).trans
        ((guardedBuf_keys_sublist _ _ _ _ _ _).trans
          ((guardedBuf_keys_sublist _ _ _ _ _ _).trans
            (guardedBuf_keys_sublist _ _ _ _ _ _))))) h

theorem eraseKV_keys_sublist {α : Type} (L : List (Nat × α)) (k : Nat) :
    List.Sublist ((eraseKV L k).map Prod.fst) (L.map Prod.fst) :=
  List.Sublist.map _ (List.eraseP_sublist _)

theorem applyTexLoop_keys_sublist (mask : Mask) (idxs : List Nat) :
    ∀ T : List (Nat × Option Texture),
      List.Sublist ((applyTexLoop mask T idxs).1.map Prod.fst) (T.map Prod.fst) := by
  induction idxs with
  | nil => intro T ; exact List.Sublist.refl _
  | cons i rest ih =>
    intro T
    rw [applyTexLoop]
    by_cases hm : mask i = true
    · rw [if_pos hm]
      cases hl : lookupKV T i with
      | none =>
        dsimp only
        exact ih T
      | some v =>
        cases v with
        | some tex =>
          dsimp only
          exact ih T
        | none =>
          dsimp only
          exact (ih _).trans (eraseKV_keys_sublist T i)
    · rw [if_neg hm]
      exact ih T

theorem guardedTex_keys_sublist (cond : Bool) (mask : Mask) (w : Nat)
    (T : List (Nat × Option Texture)) :
    List.Sublist (((if cond then applyTexLoop mask T (List.range w)
      else (T, [])).1).map Prod.fst) (T.map Prod.fst) := by
  cases cond with
  | false => exact List.Sublist.refl _
  | true =>
    simp only [if_pos]
    exact applyTexLoop_keys_sublist mask (List.range w) T

/-- `apply` preserves the map invariant of the texture snapshot. -/
theorem apply_textures_nodup (st : BindingState) (d : StateDiff_t)
    (h : keysNodup st.textures) :
    keysNodup (BindingState.apply st d).1.textures := by
  simp only [BindingState.apply]
  unfold keysNodup at h ⊢
  exact List.Nodup.sublist (guardedTex_keys_sublist _ _ _ _) h

theorem applyImgLoop_keys_sublist (mask : Mask) (idxs : List Nat) :
    ∀ M : List (Nat × ImageBindParameters),
      List.Sublist ((applyImgLoop mask M idxs).1.map Prod.fst) (M.map Prod.fst) := by
  induction idxs with
  | nil => intro M ; exact List.Sublist.refl _
  | cons i rest ih =>
    intro M
    rw [applyImgLoop]
    by_cases hm : mask i = true
    · rw [if_pos hm]
      cases hl : lookupKV M i with
      | none =>
        dsimp only
        exact ih M
      | some p =>
        dsimp only
        cases hp : p.texture with
        | some tex =>
          dsimp only
          exact ih M
        | none =>
          dsimp only
          exact (ih _).trans (eraseKV_keys_sublist M i)
    · rw [if_neg hm]
      exact ih M

theorem guardedImg_keys_sublist (cond : Bool) (mask : Mask) (w : Nat)
    (M : List (Nat × ImageBindParameters)) :
    List.Sublist (((if cond then applyImgLoop mask M (List.range w)
      else (M, [])).1).map Prod.fst) (M.map Prod.fst) := by
  cases cond with
  | false => exact List.Sublist.refl _
  | true =>
    simp only [if_pos]
    exact applyImgLoop_keys_sublist mask (List.range w) M

/-- `apply` preserves the map invariant of the image snapshot. -/
theorem apply_images_nodup (st : BindingState) (d : StateDiff_t)
    (h : keysNodup st.images) :
    keysNodup (BindingState.apply st d).1.images := by
  simp only [BindingState.apply]
  unfold keysNodup at h ⊢
  exact List.Nodup.sublist (guardedImg_keys_sublist _ _ _ _) h

/-- One binding descends from another when it is the same entry or its
refresh against its own live buffer. -/
def refreshedFrom (e0 e2 : BufferBinding) : Prop :=
  e2 = e0 ∨ ∃ b, e0.buffer = some b ∧ e2 = refreshBinding e0 b

theorem refreshedFrom_refl (e : BufferBinding) : refreshedFrom e e :=
  Or.inl rfl

theorem refreshedFrom_trans {e0 e1 e2 : BufferBinding}
    (h1 : refreshedFrom e0 e1) (h2 : refreshedFrom e1 e2) :
    refreshedFrom e0 e2 := by
  rcases h1 with rfl | ⟨b, hb, rfl⟩
  · exact h2
  · rcases h2 with rfl | ⟨b2, hb2, rfl⟩
    · exact Or.inr ⟨b, hb, rfl⟩
    · have hbuf : (refreshBinding e0 b).buffer = e0.buffer := rfl
      rw [hbuf, hb] at hb2
      have hbb : b2 = b := (Option.some.inj hb2).symm
      subst hbb
      exact Or.inr ⟨b2, hb, rfl⟩

theorem bindOrRemove_mem {B : List BufferBinding} {t l : Nat} :
    ∀ e2 ∈ (bindOrRemoveBuffer B t l).1, ∃ e ∈ B, refreshedFrom e e2 := by
  induction B with
  | nil => intro e2 he2 ; exact absurd he2 (List.not_mem_nil e2)
  | cons e0 rest ih =>
    intro e2 he2
    rw [bindOrRemoveBuffer] at he2
    by_cases hk : e0.target = t ∧ e0.location = l
    · rw [if_pos hk] at he2
      cases hb : e0.buffer with
      | some b =>
        rw [hb] at he2
        dsimp only at he2
        rcases List.mem_cons.mp he2 with rfl | hm
        · exact ⟨e0, List.mem_cons_self e0 rest, Or.inr ⟨b, hb, rfl⟩⟩
        · exact ⟨e2, List.mem_cons_of_mem e0 hm, refreshedFrom_refl e2⟩
      | none =>
        rw [hb] at he2
        dsimp only at he2
        exact ⟨e2, List.mem_cons_of_mem e0 he2, refreshedFrom_refl e2⟩
    · rw [if_neg hk] at he2
      dsimp only at he2
      rcases List.mem_cons.mp he2 with rfl | hm
      · exact ⟨e2, List.mem_cons_self e2 rest, refreshedFrom_refl e2⟩
      · obtain ⟨e, he, hr⟩ := ih e2 hm
        exact ⟨e, List.mem_cons_of_mem e0 he, hr⟩

theorem applyBufLoop_mem {mask : Mask} {tOf lOf : Nat → Nat}
    {idxs : List Nat} :
    ∀ B : List BufferBinding, ∀ e2 ∈ (applyBufLoop mask tOf lOf B idxs).1,
      ∃ e ∈ B, refreshedFrom e e2 := by
  induction idxs with
  | nil => intro B e2 he2 ; exact ⟨e2, he2, refreshedFrom_refl e2⟩
  | cons i rest ih =>
    intro B e2 he2
    rw [applyBufLoop] at he2
    by_cases hm : mask i = true
    · rw [if_pos hm] at he2
      dsimp only at he2
      obtain ⟨e1, he1, hr1⟩ := ih _ e2 he2
      obtain ⟨e, he, hr⟩ := bindOrRemove_mem e1 he1
      exact ⟨e, he, refreshedFrom_trans hr hr1⟩
    · rw [if_neg hm] at he2
      exact ih B e2 he2

theorem guardedBuf_mem (cond : Bool) (mask : Mask) (tOf lOf : Nat → Nat)
    (w : Nat) (B : List BufferBinding) :
    ∀ e2 ∈ (if cond then applyBufLoop mask tOf lOf B (List.range w)
      else (B, [])).1, ∃ e ∈ B, refreshedFrom e e2 := by
  cases cond with
  | false => intro e2 he2 ; exact ⟨e2, he2, refreshedFrom_refl e2⟩
  | true =>
    simp only [if_pos]
    exact applyBufLoop_mem B

/-- Every buffer entry of the applied snapshot is an entry of the input
snapshot or the refresh of one against its own live buffer. -/
theorem apply_buffers_mem (st : BindingState) (d : StateDiff_t) :
    ∀ e2 ∈ (BindingState.apply st d).1.buffers,
      ∃ e ∈ st.buffers, refreshedFrom e e2 := by
  simp only [BindingState.apply]
  intro e9 he9
  obtain ⟨e4, he4, hr4⟩ := guardedBuf_mem _ _ _ _ _ _ e9 he9
  obtain ⟨e3, he3, hr3⟩ := guardedBuf_mem _ _ _ _ _ _ e4 he4
  obtain ⟨e2, he2, hr2⟩ := guardedBuf_mem _ _ _ _ _ _ e3 he3
  obtain ⟨e1, he1, hr1⟩ := guardedBuf_mem _ _ _ _ _ _ e2 he2
  obtain ⟨e, he, hr⟩ := guardedBuf_mem _ _ _ _ _ _ e1 he1
  exact ⟨e, he, refreshedFrom_trans hr
    (refreshedFrom_trans hr1 (refreshedFrom_trans hr2
      (refreshedFrom_trans hr3 hr4)))⟩

/-- A descendant that is still stale must be the unrefreshed original. -/
theorem refreshedFrom_of_changed {e e2 : BufferBinding}
    (hst : bufferChanged e2 = true) (hr : refreshedFrom e e2) : e2 = e := by
  rcases hr with rfl | ⟨b, hb, rfl⟩
  · rfl
  · rw [bufferChanged_refresh hb] at hst
    exact absurd hst (by simp)

/-- With the map invariant and well-placed entries, two entries of one
snapshot writing the same mask slot are equal. -/
theorem slot_writer_unique {L : List BufferBinding}
    (hnd : bufKeysNodup L) (hwp : ∀ x ∈ L, wellPlaced x)
    {e e2 : BufferBinding} (he2 : e2 ∈ L) (he : e ∈ L)
    (hc : bufCat e2.target = bufCat e.target) (hbb : bufBit e2 = bufBit e) :
    e2 = e := by
  refine bufKeys_unique hnd he2 he ?_
  by_cases hidx : bufCat e.target < 4
  · have ht2 : e2.target = catTarget (bufCat e.target) :=
      (bufCat_eq_iff hidx).mp hc
    have ht1 : e.target = catTarget (bufCat e.target) :=
      (bufCat_eq_iff hidx).mp rfl
    have hte : e2.target = e.target := by rw [ht2, ← ht1]
    have hc2 : bufCat e2.target < 4 := by rw [hte] ; exact hidx
    have hl : e2.location = e.location := by
      rw [bufBit_of_indexed hc2, bufBit_of_indexed hidx] at hbb
      exact hbb
    simp [bufKey, hte, hl]
  · have hwp1 := hwp e he
    have hwp2 := hwp e2 he2
    unfold wellPlaced at hwp1 hwp2
    rw [if_neg hidx] at hwp1
    have hidx2 : ¬ bufCat e2.target < 4 := by rw [hc] ; exact hidx
    rw [if_neg hidx2] at hwp2
    have hbe : getBufferTargetBit e2.target = getBufferTargetBit e.target := by
      rw [bufBit, bufBit, if_neg hidx2, if_neg hidx] at hbb
      exact hbb
    have hte : e2.target = e.target := by
      rw [← targetFromBit_targetBit hwp2.2, hbe,
        targetFromBit_targetBit hwp1.2]
    simp [bufKey, hte, hwp1.1, hwp2.1]

/-- A stale entry of the target snapshot has its slot bit set by the
diff: the second scan loop runs over the target's keys last, and under
the invariants it is that slot's only writer. -/
theorem makeDiff_stale_bit {cur tgt : BindingState} {e : BufferBinding}
    (hbt : bufKeysNodup tgt.buffers)
    (hwp : ∀ x ∈ tgt.buffers, wellPlaced x)
    (he : e ∈ tgt.buffers) (hst : bufferChanged e = true) :
    getBufMask (BindingState.makeDiff cur tgt false) (bufCat e.target)
      (bufBit e) = true := by
  rw [makeDiff_bufMask]
  refine bufScan_const_writer (bufCat_lt e.target) ⟨e, he, rfl, rfl⟩
    (fun e2 he2 hw => ?_)
  have he2e : e2 = e := slot_writer_unique hbt hwp he2 he hw.1 hw.2
  subst he2e
  rw [scanVal, hst]
  simp

theorem replaceBufKey_lookup_self {B : List BufferBinding} {t l : Nat}
    {e e2 : BufferBinding} (hsome : lookupBuf B t l = some e)
    (hk2 : e2.target = t ∧ e2.location = l) :
    lookupBuf (replaceBufKey B t l e2) t l = some e2 := by
  induction B with
  | nil => simp [lookupBuf] at hsome
  | cons e0 rest ih =>
    by_cases hk : e0.target = t ∧ e0.location = l
    · rw [replaceBufKey, if_pos hk]
      rw [lookupBuf, List.find?_cons_of_pos _ (by simpa using hk2)]
    · rw [replaceBufKey, if_neg hk]
      rw [lookupBuf, List.find?_cons_of_neg _ (by simpa using hk)]
      rw [lookupBuf, List.find?_cons_of_neg _ (by simpa using hk)] at hsome
      exact ih hsome

/-- Running a buffer loop whose index set hits the key of a present live
entry exactly once leaves the refreshed entry at that key. -/
theorem applyBufLoop_lookup_hit {mask : Mask} {tOf lOf : Nat → Nat}
    {t l j : Nat} (hmask : mask j = true) (hkt : tOf j = t)
    (hkl : lOf j = l) :
    ∀ idxs : List Nat, idxs.Nodup → j ∈ idxs →
      (∀ i ∈ idxs, tOf i = t ∧ lOf i = l → i = j) →
      ∀ B : List BufferBinding, ∀ e : BufferBinding, ∀ b : BufferObject,
        lookupBuf B t l = some e → e.buffer = some b →
        lookupBuf (applyBufLoop mask tOf lOf B idxs).1 t l
          = some (refreshBinding e b) := by
  intro idxs
  induction idxs with
  | nil => intro _ hj ; exact absurd hj (List.not_mem_nil j)
  | cons i rest ih =>
    intro hnd hj huniq B e b hB hb
    obtain ⟨hnotin, hndr⟩ := List.nodup_cons.mp hnd
    rw [applyBufLoop]
    rcases List.mem_cons.mp hj with rfl | hjr
    · rw [if_pos hmask]
      dsimp only
      have hstep : bindOrRemoveBuffer B (tOf j) (lOf j)
          = (replaceBufKey B t l (refreshBinding e b),
             [DriverCall.bindBuffer t l b.id]) := by
        rw [hkt, hkl]
        exact bindOrRemove_live hB hb
      rw [hstep]
      dsimp only
      have hrest : ∀ i2 ∈ rest, ¬(tOf i2 = t ∧ lOf i2 = l) := by
        intro i2 hi2 hx
        have := huniq i2 (List.mem_cons_of_mem j hi2) hx
        exact hnotin (this ▸ hi2)
      rw [(applyBufLoop_count_ne hrest _).2]
      refine replaceBufKey_lookup_self hB ⟨?_, ?_⟩
      · show (refreshBinding e b).target = t
        exact (lookupBuf_mem hB).2.1
      · show (refreshBinding e b).location = l
        exact (lookupBuf_mem hB).2.2
    · have hij : i ≠ j := fun hx => hnotin (hx ▸ hjr)
      have hki : ¬(tOf i = t ∧ lOf i = l) := fun hx =>
        hij (huniq i (List.mem_cons_self i rest) hx)
      have huniqr : ∀ i2 ∈ rest, tOf i2 = t ∧ lOf i2 = l → i2 = j :=
        fun i2 hi2 => huniq i2 (List.mem_cons_of_mem i hi2)
      by_cases hm : mask i = true
      · rw [if_pos hm]
        dsimp only
        exact ih hndr hjr huniqr _ e b
          (by rw [bindOrRemove_lookup_ne hki] ; exact hB) hb
      · rw [if_neg hm]
        exact ih hndr hjr huniqr B e b hB hb

theorem segLook_hit_indexed (mask : Mask) (Tk catk : Nat) (cond : Bool)
    (B : List BufferBinding) (e : BufferBinding) (b : BufferObject)
    (hct : catTarget catk = Tk) (hck : catk < 4)
    (hx : bufCat e.target = catk)
    (hb : e.buffer = some b)
    (hlook : lookupBuf B e.target e.location = some e)
    (hwp : wellPlaced e)
    (hm : mask e.location = true)
    (hcond : cond = true) :
    lookupBuf ((if cond then applyBufLoop mask (fun _ => Tk) (fun i => i) B
        (List.range maxBufferBindings)
      else (B, [])).1) e.target e.location
      = some (refreshBinding e b) := by
  subst hcond
  simp only [if_pos]
  have hTe : e.target = Tk := by rw [(bufCat_eq_iff hck).mp hx, hct]
  have hlw : e.location < maxBufferBindings := by
    unfold wellPlaced at hwp
    rw [if_pos (by omega : bufCat e.target < 4)] at hwp
    exact hwp
  exact applyBufLoop_lookup_hit hm (by rw [hTe]) rfl
    (List.range maxBufferBindings) (List.nodup_range _)
    (List.mem_range.mpr hlw) (fun i _ hy => hy.2) B e b hlook hb

theorem segLook_hit_other (mask : Mask) (cond : Bool)
    (B : List BufferBinding) (e : BufferBinding) (b : BufferObject)
    (hx : bufCat e.target = 4)
    (hb : e.buffer = some b)
    (hlook : lookupBuf B e.target e.location = some e)
    (hwp : wellPlaced e)
    (hm : mask (getBufferTargetBit e.target) = true)
    (hcond : cond = true) :
    lookupBuf ((if cond then applyBufLoop mask getBufferTargetFromBit
        (fun _ => 0) B (List.range (otherMaskSize - 1))
      else (B, [])).1) e.target e.location
      = some (refreshBinding e b) := by
  subst hcond
  simp only [if_pos]
  have hsz : otherMaskSize - 1 = 10 := rfl
  have hwp2 : e.location = 0 ∧ getBufferTargetBit e.target < 10 := by
    unfold wellPlaced at hwp
    rw [if_neg (by omega : ¬bufCat e.target < 4)] at hwp
    exact hwp
  refine applyBufLoop_lookup_hit hm (targetFromBit_targetBit hwp2.2)
    hwp2.1.symm (List.range (otherMaskSize - 1)) (List.nodup_range _)
    (List.mem_range.mpr (by omega)) ?_ B e b hlook hb
  intro i hi hy
  rw [List.mem_range, hsz] at hi
  rw [← hy.1, targetBit_targetFromBit hi]

/-- A live buffer entry of the applied snapshot whose slot bit is set is
refreshed by `apply`: afterwards the lookup at its key yields the entry
with cached offset/size taken from the live buffer. -/
theorem apply_lookup_refreshed (st : BindingState) (d : StateDiff_t)
    (e : BufferBinding) (b : BufferObject)
    (hlook : lookupBuf st.buffers e.target e.location = some e)
    (hb : e.buffer = some b)
    (hwp : wellPlaced e)
    (hmask : getBufMask d (bufCat e.target) (bufBit e) = true) :
    lookupBuf (BindingState.apply st d).1.buffers e.target e.location
      = some (refreshBinding e b) := by
  have hc5 := bufCat_lt e.target
  have hlwC : bufCat e.target < 4 → e.location < maxBufferBindings := by
    intro hy
    unfold wellPlaced at hwp
    rw [if_pos hy] at hwp
    exact hwp
  have hm0 : bufCat e.target = 0 → d.ssbos e.location = true := by
    intro hx
    have h2 := hmask
    rw [hx, bufBit_of_indexed (by omega)] at h2
    exact h2
  have hm1 : bufCat e.target = 1 → d.ubos e.location = true := by
    intro hx
    have h2 := hmask
    rw [hx, bufBit_of_indexed (by omega)] at h2
    exact h2
  have hm2 : bufCat e.target = 2 → d.acbos e.location = true := by
    intro hx
    have h2 := hmask
    rw [hx, bufBit_of_indexed (by omega)] at h2
    exact h2
  have hm3 : bufCat e.target = 3 → d.tfbos e.location = true := by
    intro hx
    have h2 := hmask
    rw [hx, bufBit_of_indexed (by omega)] at h2
    exact h2
  have hm4 : bufCat e.target = 4 →
      d.other (getBufferTargetBit e.target) = true := by
    intro hx
    have h2 := hmask
    rw [hx, bufBit, if_neg (by rw [hx] ; omega)] at h2
    exact h2
  have hob : bufCat e.target = 4 →
      e.location = 0 ∧ getBufferTargetBit e.target < 10 := by
    intro hx
    unfold wellPlaced at hwp
    rw [if_neg (by rw [hx] ; omega)] at hwp
    exact hwp
  simp only [BindingState.apply]
  set s1 := (if maskAny d.ssbos maxBufferBindings = true then
      applyBufLoop d.ssbos (fun _ => GL_SHADER_STORAGE_BUFFER) (fun i => i)
        st.buffers (List.range maxBufferBindings)
    else (st.buffers, [])) with hs1
  set s2 := (if maskAny d.ubos maxBufferBindings = true then
      applyBufLoop d.ubos (fun _ => GL_UNIFORM_BUFFER) (fun i => i) s1.1
        (List.range maxBufferBindings)
    else (s1.1, [])) with hs2
  set s3 := (if maskAny d.acbos maxBufferBindings = true then
      applyBufLoop d.acbos (fun _ => GL_ATOMIC_COUNTER_BUFFER) (fun i => i)
        s2.1 (List.range maxBufferBindings)
    else (s2.1, [])) with hs3
  set s4 := (if maskAny d.tfbos maxBufferBindings = true then
      applyBufLoop d.tfbos (fun _ => GL_TRANSFORM_FEEDBACK_BUFFER)
        (fun i => i) s3.1 (List.range maxBufferBindings)
    else (s3.1, [])) with hs4
  set s5 := (if maskAny d.other otherMaskSize = true then
      applyBufLoop d.other getBufferTargetFromBit (fun _ => 0) s4.1
        (List.range (otherMaskSize - 1))
    else (s4.1, [])) with hs5
  obtain h0 | h1 | h2c | h3c | h4c : bufCat e.target = 0
      ∨ bufCat e.target = 1 ∨ bufCat e.target = 2 ∨ bufCat e.target = 3
      ∨ bufCat e.target = 4 := by
    omega
  · have hhit := segLook_hit_indexed d.ssbos GL_SHADER_STORAGE_BUFFER 0
      (maskAny d.ssbos maxBufferBindings) st.buffers e b (by decide)
      (by omega) h0 hb hlook hwp (hm0 h0)
      (maskAny_eq_true.mpr ⟨e.location, hlwC (by omega), hm0 h0⟩)
    rw [← hs1] at hhit
    have hp2 := (segFact_indexed d.ubos GL_UNIFORM_BUFFER 1
      (maskAny d.ubos maxBufferBindings) s1.1 e (by decide) (by decide)
      (by omega) (fun hx => absurd hx (by omega)) hwp
      (fun hx => absurd hx (by omega)) (fun hx => absurd hx (by omega))).2
      (by omega)
    rw [← hs2] at hp2
    have hp3 := (segFact_indexed d.acbos GL_ATOMIC_COUNTER_BUFFER 2
      (maskAny d.acbos maxBufferBindings) s2.1 e (by decide) (by decide)
      (by omega) (fun hx => absurd hx (by omega)) hwp
      (fun hx => absurd hx (by omega)) (fun hx => absurd hx (by omega))).2
      (by omega)
    rw [← hs3] at hp3
    have hp4 := (segFact_indexed d.tfbos GL_TRANSFORM_FEEDBACK_BUFFER 3
      (maskAny d.tfbos maxBufferBindings) s3.1 e (by decide) (by decide)
      (by omega) (fun hx => absurd hx (by omega)) hwp
      (fun hx => absurd hx (by omega)) (fun hx => absurd hx (by omega))).2
      (by omega)
    rw [← hs4] at hp4
    have hp5 := (segFact_other d.other (maskAny d.other otherMaskSize)
      s4.1 e (fun hx => absurd hx (by omega)) hwp
      (fun hx => absurd hx (by omega)) (fun hx => absurd hx (by omega))).2
      (by omega)
    rw [← hs5] at hp5
    rw [hp5, hp4, hp3, hp2]
    exact hhit
  · have hp1 := (segFact_indexed d.ssbos GL_SHADER_STORAGE_BUFFER 0
      (maskAny d.ssbos maxBufferBindings) st.buffers e (by decide) (by decide)
      (by omega) (fun hx => absurd hx (by omega)) hwp
      (fun hx => absurd hx (by omega)) (fun hx => absurd hx (by omega))).2
      (by omega)
    rw [← hs1] at hp1
    have hhit := segLook_hit_indexed d.ubos GL_UNIFORM_BUFFER 1
      (maskAny d.ubos maxBufferBindings) s1.1 e b (by decide)
      (by omega) h1 hb (by rw [hp1] ; exact hlook) hwp (hm1 h1)
      (maskAny_eq_true.mpr ⟨e.location, hlwC (by omega), hm1 h1⟩)
    rw [← hs2] at hhit
    have hp3 := (segFact_indexed d.acbos GL_ATOMIC_COUNTER_BUFFER 2
      (maskAny d.acbos maxBufferBindings) s2.1 e (by decide) (by decide)
      (by omega) (fun hx => absurd hx (by omega)) hwp
      (fun hx => absurd hx (by omega)) (fun hx => absurd hx (by omega))).2
      (by omega)
    rw [← hs3] at hp3
    have hp4 := (segFact_indexed d.tfbos GL_TRANSFORM_FEEDBACK_BUFFER 3
      (maskAny d.tfbos maxBufferBindings) s3.1 e (by decide) (by decide)
      (by omega) (fun hx => absurd hx (by omega)) hwp
      (fun hx => absurd hx (by omega)) (fun hx => absurd hx (by omega))).2
      (by omega)
    rw [← hs4] at hp4
    have hp5 := (segFact_other d.other (maskAny d.other otherMaskSize)
      s4.1 e (fun hx => absurd hx (by omega)) hwp
      (fun hx => absurd hx (by omega)) (fun hx => absurd hx (by omega))).2
      (by omega)
    rw [← hs5] at hp5
    rw [hp5, hp4, hp3]
    exact hhit
  · have hp1 := (segFact_indexed d.ssbos GL_SHADER_STORAGE_BUFFER 0
      (maskAny d.ssbos maxBufferBindings) st.buffers e (by decide) (by decide)
      (by omega) (fun hx => absurd hx (by omega)) hwp
      (fun hx => absurd hx (by omega)) (fun hx => absurd hx (by omega))).2
      (by omega)
    rw [← hs1] at hp1
    have hp2 := (segFact_indexed d.ubos GL_UNIFORM_BUFFER 1
      (maskAny d.ubos maxBufferBindings) s1.1 e (by decide) (by decide)
      (by omega) (fun hx => absurd hx (by omega)) hwp
      (fun hx => absurd hx (by omega)) (fun hx => absurd hx (by omega))).2
      (by omega)
    rw [← hs2] at hp2
    have hhit := segLook_hit_indexed d.acbos GL_ATOMIC_COUNTER_BUFFER 2
      (maskAny d.acbos maxBufferBindings) s2.1 e b (by decide)
      (by omega) h2c hb (by rw [hp2, hp1] ; exact hlook) hwp (hm2 h2c)
      (maskAny_eq_true.mpr ⟨e.location, hlwC (by omega), hm2 h2c⟩)
    rw [← hs3] at hhit
    have hp4 := (segFact_indexed d.tfbos GL_TRANSFORM_FEEDBACK_BUFFER 3
      (maskAny d.tfbos maxBufferBindings) s3.1 e (by decide) (by decide)
      (by omega) (fun hx => absurd hx (by omega)) hwp
      (fun hx => absurd hx (by omega)) (fun hx => absurd hx (by omega))).2
      (by omega)
    rw [← hs4] at hp4
    have hp5 := (segFact_other d.other (maskAny d.other otherMaskSize)
      s4.1 e (fun hx => absurd hx (by omega)) hwp
      (fun hx => absurd hx (by omega)) (fun hx => absurd hx (by omega))).2
      (by omega)
    rw [← hs5] at hp5
    rw [hp5, hp4]
    exact hhit
  · have hp1 := (segFact_indexed d.ssbos GL_SHADER_STORAGE_BUFFER 0
      (maskAny d.ssbos maxBufferBindings) st.buffers e (by decide) (by decide)
      (by omega) (fun hx => absurd hx (by omega)) hwp
      (fun hx => absurd hx (by omega)) (fun hx => absurd hx (by omega))).2
      (by omega)
    rw [← hs1] at hp1
    have hp2 := (segFact_indexed d.ubos GL_UNIFORM_BUFFER 1
      (maskAny d.ubos maxBufferBindings) s1.1 e (by decide) (by decide)
      (by omega) (fun hx => absurd hx (by omega)) hwp
      (fun hx => absurd hx (by omega)) (fun hx => absurd hx (by omega))).2
      (by omega)
    rw [← hs2] at hp2
    have hp3 := (segFact_indexed d.acbos GL_ATOMIC_COUNTER_BUFFER 2
      (maskAny d.acbos maxBufferBindings) s2.1 e (by decide) (by decide)
      (by omega) (fun hx => absurd hx (by omega)) hwp
      (fun hx => absurd hx (by omega)) (fun hx => absurd hx (by omega))).2
      (by omega)
    rw [← hs3] at hp3
    have hhit := segLook_hit_indexed d.tfbos GL_TRANSFORM_FEEDBACK_BUFFER 3
      (maskAny d.tfbos maxBufferBindings) s3.1 e b (by decide)
      (by omega) h3c hb (by rw [hp3, hp2, hp1] ; exact hlook) hwp (hm3 h3c)
      (maskAny_eq_true.mpr ⟨e.location, hlwC (by omega), hm3 h3c⟩)
    rw [← hs4] at hhit
    have hp5 := (segFact_other d.other (maskAny d.other otherMaskSize)
      s4.1 e (fun hx => absurd hx (by omega)) hwp
      (fun hx => absurd hx (by omega)) (fun hx => absurd hx (by omega))).2
      (by omega)
    rw [← hs5] at hp5
    rw [hp5]
    exact hhit
  · have hp1 := (segFact_indexed d.ssbos GL_SHADER_STORAGE_BUFFER 0
      (maskAny d.ssbos maxBufferBindings) st.buffers e (by decide) (by decide)
      (by omega) (fun hx => absurd hx (by omega)) hwp
      (fun hx => absurd hx (by omega)) (fun hx => absurd hx (by omega))).2
      (by omega)
    rw [← hs1] at hp1
    have hp2 := (segFact_indexed d.ubos GL_UNIFORM_BUFFER 1
      (maskAny d.ubos maxBufferBindings) s1.1 e (by decide) (by decide)
      (by omega) (fun hx => absurd hx (by omega)) hwp
      (fun hx => absurd hx (by omega)) (fun hx => absurd hx (by omega))).2
      (by omega)
    rw [← hs2] at hp2
    have hp3 := (segFact_indexed d.acbos GL_ATOMIC_COUNTER_BUFFER 2
      (maskAny d.acbos maxBufferBindings) s2.1 e (by decide) (by decide)
      (by omega) (fun hx => absurd hx (by omega)) hwp
      (fun hx => absurd hx (by omega)) (fun hx => absurd hx (by omega))).2
      (by omega)
    rw [← hs3] at hp3
    have hp4 := (segFact_indexed d.tfbos GL_TRANSFORM_FEEDBACK_BUFFER 3
      (maskAny d.tfbos maxBufferBindings) s3.1 e (by decide) (by decide)
      (by omega) (fun hx => absurd hx (by omega)) hwp
      (fun hx => absurd hx (by omega)) (fun hx => absurd hx (by omega))).2
      (by omega)
    rw [← hs4] at hp4
    have hhit := segLook_hit_other d.other (maskAny d.other otherMaskSize)
      s4.1 e b h4c hb (by rw [hp4, hp3, hp2, hp1] ; exact hlook) hwp
      (hm4 h4c)
      (maskAny_eq_true.mpr ⟨getBufferTargetBit e.target, by
        have := (hob h4c).2
        have hsz : otherMaskSize = 11 := rfl
        omega, hm4 h4c⟩)
    rw [← hs5] at hhit
    exact hhit

/-- A duplicate-free snapshot with no stale entries diffs against itself
to an all-clear mask. -/
theorem makeDiff_self_false (s : BindingState)
    (hb : bufKeysNodup s.buffers) (ht : keysNodup s.textures)
    (hi : keysNodup s.images)
    (hfresh : ∀ e ∈ s.buffers, bufferChanged e = false) :
    ∀ c b, c ≤ 6 →
      getMask7 (BindingState.makeDiff s s false) c b = false := by
  intro c b hc
  unfold getMask7
  by_cases hc5 : c < 5
  · rw [if_pos hc5, makeDiff_bufMask]
    exact bufScan2_false_at hc5 hb hb hfresh (fun e _ _ => rfl)
  · rw [if_neg hc5]
    by_cases hc6 : c = 5
    · rw [if_pos hc6, makeDiff_textures]
      exact kvScan2_false ht ht rfl rfl rfl rfl
    · rw [if_neg hc6, makeDiff_images]
      exact kvScan2_false hi hi rfl rfl rfl rfl

/-- Applying an all-clear diff does nothing: every loop guard fails, the
snapshot is unchanged and no driver call is issued. -/
theorem apply_all_false (st : BindingState) (d : StateDiff_t)
    (h : ∀ c b, c ≤ 6 → getMask7 d c b = false) :
    BindingState.apply st d = (st, []) := by
  have h0 : maskAny d.ssbos maxBufferBindings = false :=
    maskAny_eq_false.mpr (fun i _ => h 0 i (by omega))
  have h1 : maskAny d.ubos maxBufferBindings = false :=
    maskAny_eq_false.mpr (fun i _ => h 1 i (by omega))
  have h2 : maskAny d.acbos maxBufferBindings = false :=
    maskAny_eq_false.mpr (fun i _ => h 2 i (by omega))
  have h3 : maskAny d.tfbos maxBufferBindings = false :=
    maskAny_eq_false.mpr (fun i _ => h 3 i (by omega))
  have h4 : maskAny d.other otherMaskSize = false :=
    maskAny_eq_false.mpr (fun i _ => h 4 i (by omega))
  have h5 : maskAny d.textures maxTextureBindings = false :=
    maskAny_eq_false.mpr (fun i _ => h 5 i (by omega))
  have h6 : maskAny d.images maxImageBindings = false :=
    maskAny_eq_false.mpr (fun i _ => h 6 i (by omega))
  simp only [BindingState.apply, h0, h1, h2, h3, h4, h5, h6,
    Bool.false_eq_true, if_neg, not_false_eq_true, List.append_nil]

/-! ## Claim C3 -/

/-- Claim C3 (amended): when the target snapshot satisfies the map
invariant and every buffer binding in it is well placed (indexed
locations below the mask width; other-category bindings at location 0
with a recognized target), a second `reconcile(false)` right after a
first one produces an all-zero change mask and issues zero driver
calls.  After the first reconcile both snapshots are the applied target,
whose entries are all fresh, so the self-diff is clear and apply skips
every loop. -/
theorem C3_second_reconcile_noop (cur tgt : BindingState)
    (hbt : bufKeysNodup tgt.buffers) (htt : keysNodup tgt.textures)
    (hit : keysNodup tgt.images)
    (hwp : ∀ e ∈ tgt.buffers, wellPlaced e) :
    (∀ c b, c ≤ 6 →
      getMask7 (reconcile (reconcile ⟨cur, tgt⟩ false).1 false).2.1 c b
        = false)
    ∧ (reconcile (reconcile ⟨cur, tgt⟩ false).1 false).2.2 = [] := by
  have hfresh : ∀ e2 ∈ (BindingState.apply tgt
      (BindingState.makeDiff cur tgt false)).1.buffers,
      bufferChanged e2 = false := by
    intro e2 he2
    by_contra hstx
    have hst : bufferChanged e2 = true := by
      cases hx : bufferChanged e2 with
      | false => exact absurd hx hstx
      | true => rfl
    obtain ⟨e, he, hr⟩ := apply_buffers_mem tgt _ e2 he2
    have hee : e2 = e := refreshedFrom_of_changed hst hr
    subst hee
    obtain ⟨b, hb, hdiff⟩ := bufferChanged_some hst
    have hbit : getBufMask (BindingState.makeDiff cur tgt false)
        (bufCat e2.target) (bufBit e2) = true :=
      makeDiff_stale_bit hbt hwp he hst
    have hlr := apply_lookup_refreshed tgt
      (BindingState.makeDiff cur tgt false) e2 b
      (lookupBuf_of_mem hbt he) hb (hwp e2 he) hbit
    have hself := lookupBuf_of_mem (apply_buffers_nodup tgt _ hbt) he2
    rw [hlr] at hself
    have hoff : e2.offset = b.offset :=
      (congrArg BufferBinding.offset (Option.some.inj hself)).symm
    have hsz : e2.size = b.size :=
      (congrArg BufferBinding.size (Option.some.inj hself)).symm
    rcases hdiff with hd | hd
    · exact hd hoff
    · exact hd hsz
  have key : ∀ s1 : BindingState, bufKeysNodup s1.buffers →
      keysNodup s1.textures → keysNodup s1.images →
      (∀ e ∈ s1.buffers, bufferChanged e = false) →
      (∀ c b, c ≤ 6 →
        getMask7 (BindingState.makeDiff s1 s1 false) c b = false)
      ∧ (BindingState.apply s1 (BindingState.makeDiff s1 s1 false)).2
          = [] := by
    intro s1 hn1 hn2 hn3 hf
    have hdz := makeDiff_self_false s1 hn1 hn2 hn3 hf
    refine ⟨hdz, ?_⟩
    rw [apply_all_false s1 _ hdz]
  exact key (BindingState.apply tgt (BindingState.makeDiff cur tgt false)).1
    (apply_buffers_nodup tgt _ hbt)
    (apply_textures_nodup tgt _ htt)
    (apply_images_nodup tgt _ hit)
    hfresh

/-- The clean entry at the reachable slot `(GL_ARRAY_BUFFER, 0)`: its
cached offset/size match the live buffer. -/
def c3cClean : BufferBinding :=
  ⟨GL_ARRAY_BUFFER, 0, some ⟨31, 0, 100⟩, 0, 100⟩

/-- A stale array-buffer entry at location 5: the shared other-mask loop
of `apply` only ever rebinds location 0, so it can never be refreshed,
yet the diff keeps reporting it (both keys alias other-mask bit 0, and
the stale entry is scanned last). -/
def c3cStale : BufferBinding :=
  ⟨GL_ARRAY_BUFFER, 5, some ⟨32, 0, 200⟩, 0, 100⟩

def c3cSt : BindingState := ⟨[c3cClean, c3cStale], [], []⟩

/-- Counterexample to claim C3 as stated: with a stale array-buffer
binding at a location the other-mask loop cannot reach, the second
`reconcile(false)` still reports a non-zero change mask and issues a
driver call (re-binding the aliased clean slot), with no intervening
bind requests and no external resize. -/
theorem C3_counterexample :
    (reconcile (reconcile ⟨c3cSt, c3cSt⟩ false).1 false).2.1.other 0 = true
    ∧ (reconcile (reconcile ⟨c3cSt, c3cSt⟩ false).1 false).2.2
      = [DriverCall.bindBuffer GL_ARRAY_BUFFER 0 31] := by
  decide

def c3wBuf : BufferBinding :=
  ⟨GL_SHADER_STORAGE_BUFFER, 1, some ⟨41, 4, 32⟩, 0, 16⟩

def c3wTgt : BindingState :=
  ⟨[c3wBuf], [(2, some ⟨9, GL_RGBA, GL_UNSIGNED_BYTE⟩)], []⟩

/-- Witness for C3 at a concrete well-placed target with an initially
stale storage-buffer binding and a texture binding. -/
theorem C3_second_reconcile_noop_witness :
    (∀ c b, c ≤ 6 →
      getMask7 (reconcile (reconcile ⟨emptyBindingState, c3wTgt⟩
        false).1 false).2.1 c b = false)
    ∧ (reconcile (reconcile ⟨emptyBindingState, c3wTgt⟩ false).1
        false).2.2 = [] :=
  C3_second_reconcile_noop emptyBindingState c3wTgt (by decide) (by decide)
    (by decide) (by decide)

end Rendering
